import Mathlib

/-!
# Readiness-based event dispatch engine: select and epoll reactors, HTTP acceptors

A shallow embedding of `dispatcher_select.h`, `dispatcher_epoll.h`,
`event_dispatcher.h`, `select_server.h` and `epoll_server.h`.

Modelling conventions

* `int` file descriptors are `Int`; `EventIOType` is the underlying `int` of
  the enum class, kept as a `Nat` bit pattern (values may be unions of flags).
* `std::shared_ptr<EventHandler>` is `Option Nat`: `none` is `nullptr`,
  `some a` is a pointer whose identity is `a`.
* `std::map` / `std::unordered_map` are key-sorted association lists with the
  operations `find`, `assign` (`m[k] = v`) and `erase`.
* `fd_set` is a finite set of descriptors (`Finset Int`); `FD_SET`, `FD_CLR`,
  `FD_ISSET` are insertion, erasure and membership. This is what the macros do for a
  descriptor in `[0, FD_SETSIZE)`; for any other descriptor they reach outside the set
  (undefined behaviour), which the embedding does not follow.
* `std::queue` is a list whose head is the front.
* Code that throws returns `Except Exn`; `close(fd)` calls are returned as the
  list of closed descriptors, and the kernel drops a closed descriptor from the
  interest list of the epoll instance; callbacks are recorded as a list of
  invocations.
-/

set_option autoImplicit false

/-! ## Association lists standing for `std::map` -/

namespace Map

variable {κ : Type} {ν : Type}

/-- The lookup `m.find(k)`: the value of the first entry with key `k`, `none` for `end()`. -/
def find [DecidableEq κ] : List (κ × ν) → κ → Option ν
  | [], _ => none
  | (a, b) :: t, k => if a = k then some b else find t k

/-- The assignment `m[k] = v`: replaces the entry of `k` or inserts one at its sorted place. -/
def assign [LinearOrder κ] (k : κ) (v : ν) : List (κ × ν) → List (κ × ν)
  | [] => [(k, v)]
  | (a, b) :: t =>
    if k < a then (k, v) :: (a, b) :: t
    else if k = a then (k, v) :: t
    else (a, b) :: assign k v t

/-- The removal `m.erase(k)`: drops the entry of key `k`. -/
def erase [DecidableEq κ] (k : κ) : List (κ × ν) → List (κ × ν)
  | [] => []
  | (a, b) :: t => if a = k then erase k t else (a, b) :: erase k t

/-- The access `m[k]` used as an rvalue: the stored value, or a default-constructed one. -/
def index [DecidableEq κ] (m : List (κ × ν)) (k : κ) (dflt : ν) : ν :=
  (find m k).getD dflt

end Map

/-! ## `event_dispatcher.h` -/

/-- The enumerator `EventIOType::READ`. -/
def READ : Nat := 0x01
/-- The enumerator `EventIOType::WRITE`. -/
def WRITE : Nat := 0x02
/-- The enumerator `EventIOType::HANGUP`. -/
def HANGUP : Nat := 0x04
/-- The enumerator `EventIOType::EDGE_TRIGGERED`. -/
def EDGE_TRIGGERED : Nat := 0x08
/-- The enumerator `EventIOType::EXCEPTION`. -/
def EXCEPTION : Nat := 0x10

/-- The predicate `has_event(type, event)`: `(type & event) == event`. -/
def has_event (type event : Nat) : Bool := (type &&& event) == event

/-- The three entry points of `EventHandler`. -/
inductive Callback where
  | handle_read
  | handle_write
  | handle_exception
deriving DecidableEq

/-- One executed callback: which handler object, which entry point, which fd argument. -/
structure Invocation where
  handler : Nat
  callback : Callback
  fd : Int
deriving DecidableEq

/-- The `Eventloop` interface as seen from inside a callback. -/
inductive ApiCall where
  | register_handler (fd : Int) (event_type : Nat) (handler : Option Nat)
  | unregister_handler (fd : Int) (event_type : Nat)
  | close_fd_safely (fd : Int)
  | stop
deriving DecidableEq

/-- What user handlers do: run in world `W`, handler object `h` entered at `cb` with `fd`
returns the new world and the `Eventloop` calls it made, in order. -/
abbrev Behaviour (W : Type) := W → Nat → Callback → Int → W × List ApiCall

/-- The class `client_event_handler`, over an `on_read_callback` that may be empty:
`handle_read` calls the callback when it is set, `handle_write` only logs, and
`handle_exception` logs and calls `event_loop->stop()`. -/
def client_event_handler {W : Type} (on_read_callback : Option (W → Int → W × List ApiCall))
    (w : W) (cb : Callback) (fd : Int) : W × List ApiCall :=
  match cb with
  | Callback.handle_read =>
    match on_read_callback with
    | none => (w, [])
    | some f => f w fd
  | Callback.handle_write => (w, [])
  | Callback.handle_exception => (w, [ApiCall.stop])

/-- A dispatch in progress: the handlers' world, the dispatcher and the callbacks run so far. -/
structure Run (W S : Type) where
  world : W
  state : S
  calls : List Invocation

/-- Errors that leave a function other than by returning. A `std::system_error` is thrown
as `throw std::system_error(errno, ...)` right after a `perror` call, so the code it
carries is whatever `errno` holds when `perror` returns, which the failed system call does
not determine: the exception is modelled without its code. -/
inductive Exn where
  | invalid_argument
  | system_error
  | null_dereference
deriving DecidableEq

/-- The nested `PendingOperation::Type`. -/
inductive OpType where
  | REGISTER
  | UNREGISTER
deriving DecidableEq

/-- The nested `PendingOperation` record of both dispatchers. -/
structure PendingOperation where
  type : OpType
  fd : Int
  event_type : Nat
  handler : Option Nat
deriving DecidableEq

/-- The width of an `fd_set` (`<sys/select.h>`). -/
def FD_SETSIZE : Nat := 1024

/-! ## `dispatcher_select.h` -/

/-- The data members of `class dispatcherselect`. -/
structure dispatcherselect where
  pending_close_fds_ : List Int
  active_events : List (Int × Nat)
  pending_operations_ : List PendingOperation
  handlers_ : List (Int × List (Nat × Option Nat))
  loop_running : Bool
  read_fds : Finset Int
  write_fds : Finset Int
  except_fds : Finset Int
  read_fds_copy : Finset Int
  write_fds_copy : Finset Int
  except_fds_copy : Finset Int
  max_fd : Int
deriving DecidableEq

namespace dispatcherselect

/-- The constructor: empty containers, `FD_ZERO` on the three sets, `max_fd = -1`. -/
def init : dispatcherselect :=
  { pending_close_fds_ := [], active_events := [], pending_operations_ := [],
    handlers_ := [], loop_running := true,
    read_fds := ∅, write_fds := ∅, except_fds := ∅,
    read_fds_copy := ∅, write_fds_copy := ∅, except_fds_copy := ∅,
    max_fd := -1 }

/-- The method `close_fd_safely`. -/
def close_fd_safely (s : dispatcherselect) (fd : Int) : dispatcherselect :=
  { s with pending_close_fds_ := s.pending_close_fds_ ++ [fd] }

/-- The method `register_handler`: enqueue a REGISTER. -/
def register_handler (s : dispatcherselect) (fd : Int) (event_type : Nat)
    (handler : Option Nat) : dispatcherselect :=
  { s with pending_operations_ :=
      s.pending_operations_ ++ [⟨OpType.REGISTER, fd, event_type, handler⟩] }

/-- The method `unregister_handler`: enqueue an UNREGISTER with a null handler. -/
def unregister_handler (s : dispatcherselect) (fd : Int) (event_type : Nat) :
    dispatcherselect :=
  { s with pending_operations_ :=
      s.pending_operations_ ++ [⟨OpType.UNREGISTER, fd, event_type, none⟩] }

/-- The method `stop`. -/
def stop (s : dispatcherselect) : dispatcherselect :=
  { s with loop_running := false }

/-- The method `do_register_handler`. It calls `FD_SET(fd, ...)` without testing fd
against `FD_SETSIZE`; the embedding follows the code for fd in `[0, FD_SETSIZE)`. -/
def do_register_handler (s : dispatcherselect) (fd : Int) (event_type : Nat)
    (handler : Option Nat) : dispatcherselect :=
  let s1 : dispatcherselect :=
    if event_type = READ then
      { s with read_fds := insert fd s.read_fds,
               handlers_ := Map.assign fd
                 (Map.assign event_type handler (Map.index s.handlers_ fd [])) s.handlers_ }
    else if event_type = WRITE then
      { s with write_fds := insert fd s.write_fds,
               handlers_ := Map.assign fd
                 (Map.assign event_type handler (Map.index s.handlers_ fd [])) s.handlers_ }
    else if event_type = EXCEPTION then
      { s with except_fds := insert fd s.except_fds,
               handlers_ := Map.assign fd
                 (Map.assign event_type handler (Map.index s.handlers_ fd [])) s.handlers_ }
    else s
  if fd > s1.max_fd then { s1 with max_fd := fd } else s1

/-- The scan `for (int i = 0; i < FD_SETSIZE; ++i)` of `do_unregister_handler`, started
with `max_fd = 0`: the running maximum over the descriptors set in any of the three sets. -/
def rescan_max_fd (s : dispatcherselect) : Int :=
  (List.range FD_SETSIZE).foldl
    (fun (m : Int) (i : Nat) =>
      if (i : Int) ∈ s.read_fds ∨ (i : Int) ∈ s.write_fds ∨ (i : Int) ∈ s.except_fds
      then max m (i : Int) else m)
    0

/-- The method `do_unregister_handler`. It calls `FD_CLR(fd, ...)` without testing fd
against `FD_SETSIZE`; the embedding follows the code for fd in `[0, FD_SETSIZE)`. -/
def do_unregister_handler (s : dispatcherselect) (fd : Int) (event_type : Nat) :
    dispatcherselect :=
  if Map.find s.handlers_ fd = none then s
  else
    let inner := Map.erase event_type (Map.index s.handlers_ fd [])
    let s1 : dispatcherselect := { s with handlers_ := Map.assign fd inner s.handlers_ }
    let s2 : dispatcherselect :=
      if event_type = READ then { s1 with read_fds := s1.read_fds.erase fd }
      else if event_type = WRITE then { s1 with write_fds := s1.write_fds.erase fd }
      else if event_type = EXCEPTION then { s1 with except_fds := s1.except_fds.erase fd }
      else s1
    let s3 : dispatcherselect :=
      if Map.index s2.handlers_ fd [] = [] then
        { s2 with handlers_ := Map.erase fd s2.handlers_ }
      else s2
    if fd = s3.max_fd then { s3 with max_fd := rescan_max_fd s3 } else s3

/-- The body of the `for` loop of `process_pending_close_fds` for one pending fd: the
state after it and the descriptors passed to `close`. -/
def close_one (acc : dispatcherselect × List Int) (fd : Int) : dispatcherselect × List Int :=
  if Map.find acc.1.handlers_ fd = none then acc
  else
    (do_unregister_handler
      (do_unregister_handler (do_unregister_handler acc.1 fd READ) fd WRITE) fd EXCEPTION,
     acc.2 ++ [fd])

/-- The method `process_pending_close_fds`: the state after the pass and the descriptors
passed to `close`, in order. -/
def process_pending_close_fds (s : dispatcherselect) : dispatcherselect × List Int :=
  let r := s.pending_close_fds_.foldl close_one (s, [])
  ({ r.1 with pending_close_fds_ := [] }, r.2)

/-- One popped `PendingOperation` of the `while` loop of `process_pending_operations`. -/
def apply_op (s : dispatcherselect) (op : PendingOperation) : dispatcherselect :=
  match op.type with
  | OpType.REGISTER => do_register_handler s op.fd op.event_type op.handler
  | OpType.UNREGISTER => do_unregister_handler s op.fd op.event_type

/-- The `while (!pending_operations_.empty())` loop: take the front, pop it, apply it. -/
def drain_operations : dispatcherselect → List PendingOperation → dispatcherselect
  | s, [] => s
  | s, op :: q => drain_operations (apply_op { s with pending_operations_ := q } op) q

/-- The method `process_pending_operations`: drain the queue, then run a close pass. -/
def process_pending_operations (s : dispatcherselect) : dispatcherselect × List Int :=
  process_pending_close_fds (drain_operations s s.pending_operations_)

/-- The body of the `for` loop of `collect_active_events` for one key of `handlers_`. -/
def collect_one (s : dispatcherselect) (fd : Int) : List (Int × Nat) :=
  (if fd ∈ s.read_fds_copy then [(fd, READ)] else []) ++
  (if fd ∈ s.write_fds_copy then [(fd, WRITE)] else []) ++
  (if fd ∈ s.except_fds_copy then [(fd, EXCEPTION)] else [])

/-- The method `collect_active_events`: walk `handlers_` in key order. -/
def collect_active_events (s : dispatcherselect) : dispatcherselect :=
  { s with active_events := (s.handlers_.map (fun e => collect_one s e.1)).flatten }

/-- One `Eventloop` call made by a callback, as it acts on the select dispatcher. -/
def api (s : dispatcherselect) : ApiCall → dispatcherselect
  | ApiCall.register_handler fd event_type handler => register_handler s fd event_type handler
  | ApiCall.unregister_handler fd event_type => unregister_handler s fd event_type
  | ApiCall.close_fd_safely fd => close_fd_safely s fd
  | ApiCall.stop => stop s

/-- The call `handler_it->second->cb(fd)`: a null `shared_ptr` cannot be entered; otherwise
the callback runs, its `Eventloop` calls take effect in order and the call is recorded. -/
def invoke {W : Type} (beh : Behaviour W) (r : Run W dispatcherselect) (handler : Option Nat)
    (cb : Callback) (fd : Int) : Except Exn (Run W dispatcherselect) :=
  match handler with
  | none => Except.error Exn.null_dereference
  | some h =>
    Except.ok { world := (beh r.world h cb fd).1,
                state := (beh r.world h cb fd).2.foldl api r.state,
                calls := r.calls ++ [⟨h, cb, fd⟩] }

/-- The body of the `for` loop of `dispatch_active_events` for one `(fd, event_type)`. -/
def dispatch_one {W : Type} (beh : Behaviour W) (r : Run W dispatcherselect)
    (ev : Int × Nat) : Except Exn (Run W dispatcherselect) :=
  match Map.find r.state.handlers_ ev.1 with
  | none => Except.ok r
  | some inner =>
    match Map.find inner ev.2 with
    | none => Except.ok r
    | some handler =>
      if ev.2 = READ then invoke beh r handler Callback.handle_read ev.1
      else if ev.2 = WRITE then invoke beh r handler Callback.handle_write ev.1
      else if ev.2 = EXCEPTION then invoke beh r handler Callback.handle_exception ev.1
      else Except.ok r

/-- The `for` loop of `dispatch_active_events` over the records still to visit. -/
def dispatch_events {W : Type} (beh : Behaviour W) :
    Run W dispatcherselect → List (Int × Nat) → Except Exn (Run W dispatcherselect)
  | r, [] => Except.ok r
  | r, ev :: rest =>
    match dispatch_one beh r ev with
    | Except.error e => Except.error e
    | Except.ok r1 => dispatch_events beh r1 rest

/-- The method `dispatch_active_events` (an empty `active_events` returns at once). -/
def dispatch_active_events {W : Type} (beh : Behaviour W) (r : Run W dispatcherselect) :
    Except Exn (Run W dispatcherselect) :=
  dispatch_events beh r r.state.active_events

/-- One step of a history of the loop thread: an applied queue operation, a
`close_fd_safely` call, or a close pass. -/
inductive Action where
  | apply (op : PendingOperation)
  | close_fd_safely (fd : Int)
  | close_pass
deriving DecidableEq

/-- The state after one step of a history. -/
def step (s : dispatcherselect) : Action → dispatcherselect
  | Action.apply op => apply_op s op
  | Action.close_fd_safely fd => close_fd_safely s fd
  | Action.close_pass => (process_pending_close_fds s).1

/-- The state after a history, started from `s`. -/
def exec (s : dispatcherselect) (history : List Action) : dispatcherselect :=
  history.foldl step s

/-- The entry point that `dispatch_active_events` enters for a record of the kind
`event_type`, one of READ, WRITE, EXCEPTION. -/
def callback_of (event_type : Nat) : Callback :=
  if event_type = READ then Callback.handle_read
  else if event_type = WRITE then Callback.handle_write
  else Callback.handle_exception

/-- The entry `handlers_[fd][event_type]` when both keys are present (the stored pointer may
be null), `none` when either key is missing. -/
def lookup (s : dispatcherselect) (fd : Int) (event_type : Nat) : Option (Option Nat) :=
  match Map.find s.handlers_ fd with
  | none => none
  | some inner => Map.find inner event_type

/-- The registry holds an entry for `(fd, event_type)`. -/
def registered (s : dispatcherselect) (fd : Int) (event_type : Nat) : Prop :=
  lookup s fd event_type ≠ none

instance (s : dispatcherselect) (fd : Int) (event_type : Nat) :
    Decidable (registered s fd event_type) :=
  inferInstanceAs (Decidable (lookup s fd event_type ≠ none))

/-- The `fd_set` the select call watches for `event_type`, empty for any other kind. -/
def interest (s : dispatcherselect) (event_type : Nat) : Finset Int :=
  if event_type = READ then s.read_fds
  else if event_type = WRITE then s.write_fds
  else if event_type = EXCEPTION then s.except_fds
  else ∅

/-- Registry/interest consistency: for each of the three kinds, `(fd, kind)` has a
registry entry exactly when bit `fd` of the set of that kind is set. -/
def consistent (s : dispatcherselect) : Prop :=
  ∀ (fd : Int) (k : Nat), k = READ ∨ k = WRITE ∨ k = EXCEPTION →
    (registered s fd k ↔ fd ∈ interest s k)

end dispatcherselect

/-! ## `dispatcher_epoll.h` -/

/-- The flag `EPOLLIN` (`<sys/epoll.h>`). -/
def EPOLLIN : Nat := 0x001
/-- The flag `EPOLLOUT`. -/
def EPOLLOUT : Nat := 0x004
/-- The flag `EPOLLERR`. -/
def EPOLLERR : Nat := 0x008
/-- The flag `EPOLLHUP`. -/
def EPOLLHUP : Nat := 0x010
/-- The flag `EPOLLET`. -/
def EPOLLET : Nat := 0x80000000

/-- The errno value `ENOENT`. -/
def ENOENT : Nat := 2
/-- The errno value `EBADF`. -/
def EBADF : Nat := 9
/-- The errno value `EAGAIN`. -/
def EAGAIN : Nat := 11
/-- The errno value `EWOULDBLOCK` (the same number as `EAGAIN` on Linux). -/
def EWOULDBLOCK : Nat := 11
/-- The errno value `EEXIST`. -/
def EEXIST : Nat := 17

/-- The union `epoll_data`: the dispatcher stores either `ptr = this` (the wakeup
sentinel) or `fd = <user fd>`. -/
inductive epoll_data where
  | ptr_this
  | fd (fd : Int)
deriving DecidableEq

/-- The record `struct epoll_event`. -/
structure epoll_event where
  events : Nat
  data : epoll_data
deriving DecidableEq

/-- The `op` argument of `epoll_ctl`. -/
inductive EpollOp where
  | EPOLL_CTL_ADD
  | EPOLL_CTL_DEL
  | EPOLL_CTL_MOD
deriving DecidableEq

/-- The system call `epoll_ctl` on an interest list: a descriptor the kernel refuses
(`refused`, for instance one that is not open) fails with `EBADF`; `ADD` of a present
descriptor fails with `EEXIST`; `MOD` and `DEL` of an absent one fail with `ENOENT`. -/
def epoll_ctl (interest : List (Int × epoll_event)) (refused : List Int) (op : EpollOp)
    (fd : Int) (ev : epoll_event) : Except Nat (List (Int × epoll_event)) :=
  if fd ∈ refused then Except.error EBADF
  else
    match op with
    | EpollOp.EPOLL_CTL_ADD =>
      if Map.find interest fd = none then Except.ok (Map.assign fd ev interest)
      else Except.error EEXIST
    | EpollOp.EPOLL_CTL_MOD =>
      if Map.find interest fd = none then Except.error ENOENT
      else Except.ok (Map.assign fd ev interest)
    | EpollOp.EPOLL_CTL_DEL =>
      if Map.find interest fd = none then Except.error ENOENT
      else Except.ok (Map.erase fd interest)

/-- The data members of `class dispatcherepoll`, with the two kernel objects it owns:
`interest` is the interest list of the epoll instance `epoll_fd_`, `wakeup_counter` the
counter of the eventfd `wakeup_fd_`; `refused` lists the descriptors on which the kernel
currently fails `epoll_ctl`. -/
structure dispatcherepoll where
  epoll_fd_ : Int
  wakeup_fd_ : Int
  max_events_ : Int
  pending_operations_ : List PendingOperation
  active_handlers_by_fd_ : List (Int × Option Nat)
  pending_close_fds_ : List Int
  loop_running : Bool
  interest : List (Int × epoll_event)
  wakeup_counter : Nat
  refused : List Int
deriving DecidableEq

namespace dispatcherepoll

/-- The constructor, once `epoll_create1` and `eventfd` have returned `epoll_fd` and
`wakeup_fd`: `register_wakeup_handler` adds the eventfd with `EPOLLIN | EPOLLET` and
`data.ptr = this`. -/
def init (epoll_fd wakeup_fd : Int) (max_events : Int) : dispatcherepoll :=
  { epoll_fd_ := epoll_fd, wakeup_fd_ := wakeup_fd, max_events_ := max_events,
    pending_operations_ := [], active_handlers_by_fd_ := [], pending_close_fds_ := [],
    loop_running := true,
    interest := [(wakeup_fd, ⟨EPOLLIN ||| EPOLLET, epoll_data.ptr_this⟩)],
    wakeup_counter := 0, refused := [] }

/-- The method `close_fd_safely`. -/
def close_fd_safely (s : dispatcherepoll) (fd : Int) : dispatcherepoll :=
  { s with pending_close_fds_ := s.pending_close_fds_ ++ [fd] }

/-- The method `wakeup`: a `write` of 1 to the eventfd adds 1 to its counter; the write
fails (and is only reported) when the counter would pass `0xfffffffffffffffe`. -/
def wakeup (s : dispatcherepoll) : dispatcherepoll :=
  if s.wakeup_counter + 1 ≤ 0xfffffffffffffffe then
    { s with wakeup_counter := s.wakeup_counter + 1 }
  else s

/-- The constructor `PendingOperation(type, fd, event_type, handler)` of the epoll
dispatcher: it throws `invalid_argument` on a negative fd. -/
def PendingOperation_ctor (type : OpType) (fd : Int) (event_type : Nat)
    (handler : Option Nat) : Except Exn PendingOperation :=
  if fd < 0 then Except.error Exn.invalid_argument
  else Except.ok ⟨type, fd, event_type, handler⟩

/-- The call `pending_operations_.emplace(type, fd, event_type, handler)`: the element is
constructed at the back of the queue, and when its constructor throws the queue holds what
it held. Returns the dispatcher as the call leaves it and the exception it leaves with,
if any. -/
def emplace (s : dispatcherepoll) (type : OpType) (fd : Int) (event_type : Nat)
    (handler : Option Nat) : dispatcherepoll × Option Exn :=
  match PendingOperation_ctor type fd event_type handler with
  | Except.error e => (s, some e)
  | Except.ok op => ({ s with pending_operations_ := s.pending_operations_ ++ [op] }, none)

/-- The body of `register_handler`, statement by statement: `emplace`, then `wakeup()`
unless `emplace` threw. Returns the dispatcher as the call leaves it and the exception it
leaves with, if any. -/
def register_handler_call (s : dispatcherepoll) (fd : Int) (event_type : Nat)
    (handler : Option Nat) : dispatcherepoll × Option Exn :=
  match emplace s OpType.REGISTER fd event_type handler with
  | (s1, some e) => (s1, some e)
  | (s1, none) => (wakeup s1, none)

/-- The body of `unregister_handler`, statement by statement. -/
def unregister_handler_call (s : dispatcherepoll) (fd : Int) (event_type : Nat) :
    dispatcherepoll × Option Exn :=
  match emplace s OpType.UNREGISTER fd event_type none with
  | (s1, some e) => (s1, some e)
  | (s1, none) => (wakeup s1, none)

/-- The method `register_handler` as its caller sees it: the exception, or the dispatcher
after the call. -/
def register_handler (s : dispatcherepoll) (fd : Int) (event_type : Nat)
    (handler : Option Nat) : Except Exn dispatcherepoll :=
  match register_handler_call s fd event_type handler with
  | (_, some e) => Except.error e
  | (s1, none) => Except.ok s1

/-- The method `unregister_handler` as its caller sees it. -/
def unregister_handler (s : dispatcherepoll) (fd : Int) (event_type : Nat) :
    Except Exn dispatcherepoll :=
  match unregister_handler_call s fd event_type with
  | (_, some e) => Except.error e
  | (s1, none) => Except.ok s1

/-- The method `stop`. -/
def stop (s : dispatcherepoll) : dispatcherepoll :=
  { s with loop_running := false }

/-- The method `convert_to_epoll_events`. -/
def convert_to_epoll_events (type : Nat) : Nat :=
  let e0 : Nat := 0
  let e1 := if has_event type READ then e0 ||| EPOLLIN else e0
  let e2 := if has_event type WRITE then e1 ||| EPOLLOUT else e1
  let e3 := if has_event type EXCEPTION then e2 ||| (EPOLLERR ||| EPOLLHUP) else e2
  let e4 := if has_event type EDGE_TRIGGERED then e3 ||| EPOLLET else e3
  let e5 := if has_event type HANGUP then e4 ||| EPOLLHUP else e4
  e5

/-- The method `do_register_handler`. A failed `epoll_ctl` (other than `ADD` failing with
`EEXIST`, which is retried as `MOD`) is reported with `perror` and thrown as
`std::system_error`. -/
def do_register_handler (s : dispatcherepoll) (fd : Int) (event_type : Nat)
    (handler : Option Nat) : Except Exn dispatcherepoll :=
  if fd < 0 ∨ handler = none then Except.error Exn.invalid_argument
  else
    let ev : epoll_event := ⟨convert_to_epoll_events event_type, epoll_data.fd fd⟩
    let op : EpollOp :=
      if Map.find s.active_handlers_by_fd_ fd ≠ none ∧
         Map.index s.active_handlers_by_fd_ fd none = handler
      then EpollOp.EPOLL_CTL_MOD else EpollOp.EPOLL_CTL_ADD
    match epoll_ctl s.interest s.refused op fd ev with
    | Except.ok i =>
      Except.ok { s with interest := i,
                         active_handlers_by_fd_ := Map.assign fd handler s.active_handlers_by_fd_ }
    | Except.error errno =>
      if op = EpollOp.EPOLL_CTL_ADD ∧ errno = EEXIST then
        match epoll_ctl s.interest s.refused EpollOp.EPOLL_CTL_MOD fd ev with
        | Except.ok i =>
          Except.ok { s with interest := i,
                             active_handlers_by_fd_ :=
                               Map.assign fd handler s.active_handlers_by_fd_ }
        | Except.error _ => Except.error Exn.system_error
      else Except.error Exn.system_error

/-- The method `do_unregister_handler`; the `event_type` argument is not read. A failed
`EPOLL_CTL_DEL` is reported with `perror` and thrown as `std::system_error`. -/
def do_unregister_handler (s : dispatcherepoll) (fd : Int) (_event_type : Nat) :
    Except Exn dispatcherepoll :=
  if fd < 0 then Except.error Exn.invalid_argument
  else if Map.find s.active_handlers_by_fd_ fd = none then Except.ok s
  else
    match epoll_ctl s.interest s.refused EpollOp.EPOLL_CTL_DEL fd
        ⟨0, epoll_data.fd fd⟩ with
    | Except.error _ => Except.error Exn.system_error
    | Except.ok i =>
      let s1 : dispatcherepoll := { s with interest := i }
      let s2 : dispatcherepoll :=
        if Map.find s1.active_handlers_by_fd_ fd ≠ none then
          { s1 with active_handlers_by_fd_ := Map.erase fd s1.active_handlers_by_fd_ }
        else s1
      Except.ok { s2 with pending_close_fds_ := s2.pending_close_fds_ ++ [fd] }

/-- The method `process_pending_close_fds`: every pending fd is passed to `close`, then
the list is cleared. The kernel takes a closed descriptor out of the interest list of the
epoll instance (the program never duplicates a descriptor). Returns the state and the
descriptors closed, in order. -/
def process_pending_close_fds (s : dispatcherepoll) : dispatcherepoll × List Int :=
  ({ s with pending_close_fds_ := [],
            interest := s.pending_close_fds_.foldl (fun i fd => Map.erase fd i) s.interest },
   s.pending_close_fds_)

/-- One popped `PendingOperation` of the `while` loop of `handle_wakeup`. -/
def apply_op (s : dispatcherepoll) (op : PendingOperation) : Except Exn dispatcherepoll :=
  match op.type with
  | OpType.REGISTER => do_register_handler s op.fd op.event_type op.handler
  | OpType.UNREGISTER => do_unregister_handler s op.fd op.event_type

/-- The `while (!temp_queue.empty())` loop of `handle_wakeup`. -/
def drain_operations : dispatcherepoll → List PendingOperation → Except Exn dispatcherepoll
  | s, [] => Except.ok s
  | s, op :: q =>
    match apply_op s op with
    | Except.error e => Except.error e
    | Except.ok s1 => drain_operations s1 q

/-- One `read(wakeup_fd_, &u, sizeof(u))` on the eventfd, which `create_wakeup_fd` makes
non-blocking and without `EFD_SEMAPHORE`: with the counter at 0 the read fails with
`EAGAIN` and the counter stays; otherwise it returns the 8 bytes of the counter and resets
the counter to 0. Returns the value stored in `u` (`none` for the failure) and the
counter afterwards. -/
def eventfd_read (counter : Nat) : Option Nat × Nat :=
  if counter = 0 then (none, counter) else (some counter, 0)

/-- The loop `while (read(wakeup_fd_...) == sizeof(u)) {}` of `handle_wakeup`, which reads
until a read fails: the counter it leaves. It ends because a read that succeeds lowers
the counter. -/
def read_wakeup_fd (counter : Nat) : Nat :=
  if _h : (eventfd_read counter).1 = none then (eventfd_read counter).2
  else read_wakeup_fd (eventfd_read counter).2
termination_by counter
decreasing_by
  unfold eventfd_read at _h ⊢
  split_ifs at _h ⊢ with h0
  · exact absurd rfl _h
  · exact Nat.pos_of_ne_zero h0

/-- The method `handle_wakeup`: read the eventfd until a read fails, swap the queue out,
apply the swapped operations in order. -/
def handle_wakeup (s : dispatcherepoll) : Except Exn dispatcherepoll :=
  drain_operations
    { s with wakeup_counter := read_wakeup_fd s.wakeup_counter, pending_operations_ := [] }
    s.pending_operations_

/-- One `Eventloop` call made by a callback, as it acts on the epoll dispatcher. -/
def api (s : dispatcherepoll) : ApiCall → Except Exn dispatcherepoll
  | ApiCall.register_handler fd event_type handler => register_handler s fd event_type handler
  | ApiCall.unregister_handler fd event_type => unregister_handler s fd event_type
  | ApiCall.close_fd_safely fd => Except.ok (close_fd_safely s fd)
  | ApiCall.stop => Except.ok (stop s)

/-- The `Eventloop` calls of one callback, in order; a throwing call ends the callback. -/
def api_calls : dispatcherepoll → List ApiCall → Except Exn dispatcherepoll
  | s, [] => Except.ok s
  | s, c :: cs =>
    match api s c with
    | Except.error e => Except.error e
    | Except.ok s1 => api_calls s1 cs

/-- The call `handler->cb(fd)` on a non-null handler: the callback runs, its `Eventloop`
calls take effect in order and the call is recorded. -/
def invoke {W : Type} (beh : Behaviour W) (r : Run W dispatcherepoll) (h : Nat)
    (cb : Callback) (fd : Int) : Except Exn (Run W dispatcherepoll) :=
  match api_calls r.state (beh r.world h cb fd).2 with
  | Except.error e => Except.error e
  | Except.ok s =>
    Except.ok { world := (beh r.world h cb fd).1, state := s,
                calls := r.calls ++ [⟨h, cb, fd⟩] }

/-- The three tests of one ready record on a found, non-null handler:
`handle_read`, then `handle_write`, then `handle_exception`. -/
def run_callbacks {W : Type} (beh : Behaviour W) (r : Run W dispatcherepoll) (h : Nat)
    (events : Nat) (fd : Int) : Except Exn (Run W dispatcherepoll) :=
  match (if events &&& EPOLLIN ≠ 0 then invoke beh r h Callback.handle_read fd
         else Except.ok r) with
  | Except.error e => Except.error e
  | Except.ok r1 =>
    match (if events &&& EPOLLOUT ≠ 0 then invoke beh r1 h Callback.handle_write fd
           else Except.ok r1) with
    | Except.error e => Except.error e
    | Except.ok r2 =>
      if events &&& (EPOLLERR ||| EPOLLHUP) ≠ 0 then
        invoke beh r2 h Callback.handle_exception fd
      else Except.ok r2

/-- The body of the `for` loop of `dispatch_active_events` for one ready record. -/
def dispatch_one {W : Type} (beh : Behaviour W) (r : Run W dispatcherepoll)
    (event : epoll_event) : Except Exn (Run W dispatcherepoll) :=
  match event.data with
  | epoll_data.ptr_this =>
    match handle_wakeup r.state with
    | Except.error e => Except.error e
    | Except.ok s => Except.ok { r with state := s }
  | epoll_data.fd fd =>
    match Map.find r.state.active_handlers_by_fd_ fd with
    | none => Except.ok r
    | some none => Except.ok r
    | some (some h) => run_callbacks beh r h event.events fd

/-- The `for` loop of `dispatch_active_events` over the records still to visit. -/
def dispatch_events {W : Type} (beh : Behaviour W) :
    Run W dispatcherepoll → List epoll_event → Except Exn (Run W dispatcherepoll)
  | r, [] => Except.ok r
  | r, event :: rest =>
    match dispatch_one beh r event with
    | Except.error e => Except.error e
    | Except.ok r1 => dispatch_events beh r1 rest

/-- The method `dispatch_active_events` on the first `num_events` records that
`epoll_wait` stored (`ready`); with no record it returns at once. -/
def dispatch_active_events {W : Type} (beh : Behaviour W) (r : Run W dispatcherepoll)
    (ready : List epoll_event) : Except Exn (Run W dispatcherepoll) :=
  dispatch_events beh r ready

/-- One step of a history of the loop thread: an applied queue operation, a
`close_fd_safely` call, a close pass, or the kernel changing the descriptors it refuses. -/
inductive Action where
  | apply (op : PendingOperation)
  | close_fd_safely (fd : Int)
  | close_pass
  | kernel (refused : List Int)
deriving DecidableEq

/-- The step neither schedules nor performs a close: it applies a queue operation or
changes what the kernel refuses. -/
def Action.no_close : Action → Bool
  | Action.apply _ => true
  | Action.kernel _ => true
  | Action.close_fd_safely _ => false
  | Action.close_pass => false

/-- The state after one step of a history. -/
def step (s : dispatcherepoll) : Action → Except Exn dispatcherepoll
  | Action.apply op => apply_op s op
  | Action.close_fd_safely fd => Except.ok (close_fd_safely s fd)
  | Action.close_pass => Except.ok (process_pending_close_fds s).1
  | Action.kernel refused => Except.ok { s with refused := refused }

/-- The state after a history, started from `s`; a throwing step ends it. -/
def exec : dispatcherepoll → List Action → Except Exn dispatcherepoll
  | s, [] => Except.ok s
  | s, a :: rest =>
    match step s a with
    | Except.error e => Except.error e
    | Except.ok s1 => exec s1 rest

/-- One iteration of `loop()`: `epoll_wait` fails (`wait = none`, the iteration is
skipped) or stores the ready records; they are dispatched and a close pass follows.
Returns the run and the descriptors closed. -/
def loop_iteration {W : Type} (beh : Behaviour W) (r : Run W dispatcherepoll)
    (wait : Option (List epoll_event)) : Except Exn (Run W dispatcherepoll × List Int) :=
  match wait with
  | none => Except.ok (r, [])
  | some ready =>
    match dispatch_active_events beh r ready with
    | Except.error e => Except.error e
    | Except.ok r1 =>
      Except.ok ({ r1 with state := (process_pending_close_fds r1.state).1 },
                 (process_pending_close_fds r1.state).2)

/-- The fd has a registry entry: it is a key of `active_handlers_by_fd_`. -/
def registered (s : dispatcherepoll) (fd : Int) : Prop :=
  Map.find s.active_handlers_by_fd_ fd ≠ none

instance (s : dispatcherepoll) (fd : Int) : Decidable (registered s fd) :=
  inferInstanceAs (Decidable (Map.find s.active_handlers_by_fd_ fd ≠ none))

/-- The fd is in the interest list of the epoll instance. -/
def watched (s : dispatcherepoll) (fd : Int) : Prop :=
  Map.find s.interest fd ≠ none

instance (s : dispatcherepoll) (fd : Int) : Decidable (watched s fd) :=
  inferInstanceAs (Decidable (Map.find s.interest fd ≠ none))

/-- The close protocol for one step taken in state `s`: `close_fd_safely` is called only
for an fd without a registry entry, and a REGISTER is applied only for an fd that is not
waiting in `pending_close_fds_`. -/
def allowed (s : dispatcherepoll) : Action → Bool
  | Action.apply op => decide (op.type = OpType.REGISTER → op.fd ∉ s.pending_close_fds_)
  | Action.close_fd_safely fd => decide (¬ registered s fd)
  | Action.close_pass => true
  | Action.kernel _ => true

/-- Every step of the history, taken in the state it meets, keeps the close protocol. -/
def follows_protocol : dispatcherepoll → List Action → Bool
  | _, [] => true
  | s, a :: rest =>
    allowed s a &&
      (match step s a with
       | Except.ok s1 => follows_protocol s1 rest
       | Except.error _ => true)

/-- Registry/interest consistency: a descriptor other than the wakeup descriptor is a
key of `active_handlers_by_fd_` exactly when it is in the interest list. -/
def consistent (s : dispatcherepoll) : Prop :=
  ∀ fd : Int, fd ≠ s.wakeup_fd_ → (registered s fd ↔ watched s fd)

end dispatcherepoll

/-! ## The acceptors: `epoll_server.h`, `select_server.h` -/

/-- The result of one `read(fd, buf, n)`: the bytes stored (their number is the return
value, 0 at end of stream), or a failure with its errno (return value -1). -/
inductive ReadResult where
  | bytes (chunk : List Char)
  | fail (errno : Nat)
deriving DecidableEq

/-- What a connection handler does to the outside: a `write` on the socket or a call
into the event loop. -/
inductive Out where
  | write (fd : Int) (data : List Char)
  | call (c : ApiCall)
deriving DecidableEq

/-- The search `s.find(pat)` of `std::string` continued at offset `pos`: the offset of
the first occurrence, `none` for `npos`. -/
def string_find_from (pat : List Char) : List Char → Nat → Option Nat
  | [], pos => if pat = [] then some pos else none
  | c :: cs, pos =>
    if pat <+: c :: cs then some pos else string_find_from pat cs (pos + 1)

/-- The search `s.find(pat)`. -/
def string_find (s pat : List Char) : Option Nat := string_find_from pat s 0

/-- The end-of-headers mark `"\r\n\r\n"`. -/
def CRLFCRLF : List Char := "\r\n\r\n".toList

/-- The bytes of a message that follow its first blank line. -/
def body_after_blank_line (s : List Char) : List Char :=
  match string_find s CRLFCRLF with
  | none => []
  | some i => s.drop (i + 4)

/-- The decimal value of the `Content-Length` header field of a message. -/
def content_length (s : List Char) : Option Nat :=
  match string_find s "Content-Length: ".toList with
  | none => none
  | some i =>
    some (((s.drop (i + 16)).takeWhile Char.isDigit).foldl
      (fun n c => 10 * n + (c.toNat - 48)) 0)

namespace epoll_event_handler

/-- The literal `response` of `epoll_event_handler::clientconnections`. -/
def response : String :=
  "HTTP/1.1 200 OK\r\n" ++
  "Content-Type: text/html\r\n" ++
  "Content-Length: 13\r\n" ++
  "Connection: close\r\n" ++
  "\r\n" ++
  "Hello, World!"

/-- The result of the `while (true)` loop of `clientconnections`: the receive buffer to
keep (`none` when the entry is erased), the outputs, and the read results not consumed. -/
structure Drained where
  buffer : Option (List Char)
  outs : List Out
  rest : List ReadResult
deriving DecidableEq

/-- The `while (true)` loop of `clientconnections` on `current_buffer`, fed with the
results of the successive `read` calls; a read past the end of `reads` finds nothing
to read and fails with `EAGAIN`. -/
def drain (client_fd : Int) : List Char → List ReadResult → Drained
  | current_buffer, [] => ⟨some current_buffer, [], []⟩
  | current_buffer, ReadResult.bytes chunk :: rest =>
    if chunk.length > 0 then
      if string_find (current_buffer ++ chunk) CRLFCRLF ≠ none then
        ⟨none, [Out.write client_fd response.toList,
                Out.call (ApiCall.unregister_handler client_fd READ)], rest⟩
      else drain client_fd (current_buffer ++ chunk) rest
    else
      ⟨none, [Out.call (ApiCall.unregister_handler client_fd READ)], rest⟩
  | current_buffer, ReadResult.fail errno :: rest =>
    if errno = EAGAIN ∨ errno = EWOULDBLOCK then ⟨some current_buffer, [], rest⟩
    else ⟨none, [Out.call (ApiCall.unregister_handler client_fd READ)], rest⟩

/-- The method `clientconnections` on the map `client_recv_buffers`: the map after the
call, the outputs in order, and the read results not consumed. -/
def clientconnections (client_recv_buffers : List (Int × List Char)) (client_fd : Int)
    (reads : List ReadResult) : List (Int × List Char) × List Out × List ReadResult :=
  match Map.find client_recv_buffers client_fd with
  | none => (client_recv_buffers, [Out.call (ApiCall.unregister_handler client_fd READ)], reads)
  | some current_buffer =>
    match (drain client_fd current_buffer reads).buffer with
    | some b =>
      (Map.assign client_fd b client_recv_buffers,
       (drain client_fd current_buffer reads).outs,
       (drain client_fd current_buffer reads).rest)
    | none =>
      (Map.erase client_fd client_recv_buffers,
       (drain client_fd current_buffer reads).outs,
       (drain client_fd current_buffer reads).rest)

/-- The outputs of `n` successive readiness events of one connection, each a call of
`clientconnections` that goes on reading where the previous one stopped. -/
def serve (client_fd : Int) :
    Nat → List (Int × List Char) → List ReadResult → List Out
  | 0, _, _ => []
  | n + 1, client_recv_buffers, reads =>
    (clientconnections client_recv_buffers client_fd reads).2.1 ++
    serve client_fd n (clientconnections client_recv_buffers client_fd reads).1
      (clientconnections client_recv_buffers client_fd reads).2.2

/-- The bytes that `n` readiness events can receive from a stream of read results: the
chunks up to the first end of stream or hard error, an `EAGAIN` ending one event. -/
def received : Nat → List ReadResult → List Char
  | 0, _ => []
  | _ + 1, [] => []
  | n + 1, ReadResult.bytes chunk :: rest =>
    if chunk.length > 0 then chunk ++ received (n + 1) rest else []
  | n + 1, ReadResult.fail errno :: rest =>
    if errno = EAGAIN ∨ errno = EWOULDBLOCK then received n rest else []

/-- The number of times the response is written to `client_fd` in a list of outputs. -/
def responses (client_fd : Int) (outs : List Out) : Nat :=
  outs.count (Out.write client_fd response.toList)

end epoll_event_handler

namespace select_event_handler

/-- The literal `response` of `select_event_handler::clientconnections`. -/
def response : String :=
  "HTTP/1.1 200 OK\r\n" ++
  "Content-Type: text/html\r\n" ++
  "Content-Length: 13\r\n" ++
  "Connection: close\r\n" ++
  "\r\n" ++
  "Hello, World!"

/-- The return value of `read` for a read result. -/
def bytes_read : ReadResult → Int
  | ReadResult.bytes chunk => chunk.length
  | ReadResult.fail _ => -1

/-- The method `clientconnections`: one `read`, whose result is `rd`; `bytes_written` is
the return value of the `write` call when one is made. -/
def clientconnections (clientfd : Int) (rd : ReadResult) (bytes_written : Int) : List Out :=
  if bytes_read rd > 0 then
    Out.write clientfd response.toList ::
      (if bytes_written < 0 then []
       else [Out.call (ApiCall.unregister_handler clientfd READ),
             Out.call (ApiCall.close_fd_safely clientfd)])
  else
    [Out.call (ApiCall.unregister_handler clientfd READ),
     Out.call (ApiCall.close_fd_safely clientfd)]

/-- The outputs of the successive readable events of one connection, each a call of
`clientconnections` given the result of its `read` and the return value of its `write`:
a call that submits the unregister ends the connection, any other call leaves the fd
registered and the next readable event calls `clientconnections` again. -/
def serve (clientfd : Int) : List (ReadResult × Int) → List Out
  | [] => []
  | (rd, bytes_written) :: rest =>
    clientconnections clientfd rd bytes_written ++
      (if Out.call (ApiCall.unregister_handler clientfd READ) ∈
          clientconnections clientfd rd bytes_written
       then [] else serve clientfd rest)

end select_event_handler

/-! ## `event_dispatcher.h`: the flag operators and the descriptor wrapper -/

/-- The operator `operator|` on `EventIOType`: the bitwise or of the two underlying
integers. -/
def operator_or (lhs rhs : Nat) : Nat := lhs ||| rhs

/-- The operator `operator&` on `EventIOType`: the bitwise and of the two underlying
integers. -/
def operator_and (lhs rhs : Nat) : Nat := lhs &&& rhs

/-- The data member of `class FileDescriptor`. -/
structure FileDescriptor where
  fd_ : Int
deriving DecidableEq

namespace FileDescriptor

/-- The method `get`. -/
def get (d : FileDescriptor) : Int := d.fd_

/-- The method `valid`. -/
def valid (d : FileDescriptor) : Bool := decide (d.fd_ ≥ 0)

/-- The move constructor `FileDescriptor(FileDescriptor&& other)`: the constructed object
and `other` as the constructor leaves it. -/
def move (other : FileDescriptor) : FileDescriptor × FileDescriptor :=
  (⟨other.fd_⟩, { other with fd_ := -1 })

/-- The destructor: the descriptors it passes to `close`. -/
def destructor (d : FileDescriptor) : List Int :=
  if d.fd_ ≥ 0 then [d.fd_] else []

end FileDescriptor

/-! ## `dispatcher_epoll.h`: the mutex around the operation queue -/

/-- What a statement of a `dispatcherepoll` method does as far as `pending_op_mutex_` and
`pending_operations_` are concerned. -/
inductive SyncStep where
  | lock
  | unlock
  | access_pending_operations
  | other
deriving DecidableEq

namespace dispatcherepoll

/-- The statements of `register_handler`: `pending_operations_.emplace(...)`, `wakeup()`. -/
def register_handler_steps : List SyncStep :=
  [SyncStep.access_pending_operations, SyncStep.other]

/-- The statements of `unregister_handler`: `pending_operations_.emplace(...)`,
`wakeup()`. -/
def unregister_handler_steps : List SyncStep :=
  [SyncStep.access_pending_operations, SyncStep.other]

/-- The statements of `handle_wakeup`: the `read` loop on the eventfd, the block
`{ std::lock_guard lock(pending_op_mutex_); std::swap(pending_operations_, temp_queue); }`,
the `while` loop over `temp_queue`. -/
def handle_wakeup_steps : List SyncStep :=
  [SyncStep.other, SyncStep.lock, SyncStep.access_pending_operations, SyncStep.unlock,
   SyncStep.other]

/-- Every access to `pending_operations_` in the statements is made while the calling
thread holds `pending_op_mutex_`; `held` tells whether it holds it at the start. -/
def guarded : Bool → List SyncStep → Bool
  | _, [] => true
  | _, SyncStep.lock :: rest => guarded true rest
  | _, SyncStep.unlock :: rest => guarded false rest
  | held, SyncStep.access_pending_operations :: rest => held && guarded held rest
  | held, SyncStep.other :: rest => guarded held rest

end dispatcherepoll

/-! ## `dispatcher_select.h`: the close pass, statement by statement -/

namespace dispatcherselect

end dispatcherselect

/-! ## `dispatcher_select.h`: the descriptors handed to `select` -/

namespace dispatcherselect

/-- The descriptors whose bit is set in at least one of the three sets. -/
def monitored (s : dispatcherselect) : Finset Int :=
  s.read_fds ∪ s.write_fds ∪ s.except_fds

/-- A REGISTER applied by the step names a descriptor an `fd_set` can hold, one in
`[0, FD_SETSIZE)`. -/
def Action.in_range : Action → Bool
  | Action.apply op =>
    decide (op.type = OpType.REGISTER → 0 ≤ op.fd ∧ op.fd < (FD_SETSIZE : Int))
  | Action.close_fd_safely _ => true
  | Action.close_pass => true

/-- A REGISTER applied by the step names one of the three kinds that have a set:
READ, WRITE, EXCEPTION. -/
def Action.base_kind : Action → Bool
  | Action.apply op =>
    decide (op.type = OpType.REGISTER →
      op.event_type = READ ∨ op.event_type = WRITE ∨ op.event_type = EXCEPTION)
  | Action.close_fd_safely _ => true
  | Action.close_pass => true

/-- Every monitored descriptor lies in `[0, FD_SETSIZE)` and is at most `max_fd`. -/
def covered (s : dispatcherselect) : Prop :=
  ∀ fd ∈ monitored s, 0 ≤ fd ∧ fd < (FD_SETSIZE : Int) ∧ fd ≤ s.max_fd

/-- The member `max_fd` is itself monitored whenever some descriptor is, and is at most 0
when none is. -/
def tight (s : dispatcherselect) : Prop :=
  (monitored s ≠ ∅ → s.max_fd ∈ monitored s) ∧ (monitored s = ∅ → s.max_fd ≤ 0)

/-- The shape of the registry: an inner map has only keys among READ, WRITE, EXCEPTION,
and a descriptor that is a key of `handlers_` has an entry in its inner map. -/
def keyed (s : dispatcherselect) : Prop :=
  (∀ (fd : Int) (k : Nat), registered s fd k → k = READ ∨ k = WRITE ∨ k = EXCEPTION) ∧
  (∀ fd : Int, Map.find s.handlers_ fd ≠ none → ∃ k, registered s fd k)

/-- The callbacks the specification asks for one fd of the registry once `select` has
returned (this definition follows the specification, not the code): for the read, the
write and the except bit of the ready sets, in this order, when the bit is set and the
registry holds an entry for the kind, the entry point of the kind on the stored handler,
once. -/
def spec_callbacks (s : dispatcherselect) (fd : Int) : List Invocation :=
  (if fd ∈ s.read_fds_copy then
    match lookup s fd READ with
    | some (some h) => [⟨h, Callback.handle_read, fd⟩]
    | _ => []
   else []) ++
  (if fd ∈ s.write_fds_copy then
    match lookup s fd WRITE with
    | some (some h) => [⟨h, Callback.handle_write, fd⟩]
    | _ => []
   else []) ++
  (if fd ∈ s.except_fds_copy then
    match lookup s fd EXCEPTION with
    | some (some h) => [⟨h, Callback.handle_exception, fd⟩]
    | _ => []
   else [])

end dispatcherselect

/-! ## Lemmas on association lists -/

namespace Map

variable {κ : Type} {ν : Type}

theorem find_assign_self [LinearOrder κ] (k : κ) (v : ν) (m : List (κ × ν)) :
    find (assign k v m) k = some v := by
  induction m with
  | nil => simp [assign, find]
  | cons p t ih =>
    obtain ⟨a, b⟩ := p
    unfold assign
    split_ifs with h1 h2
    · simp [find]
    · simp [find]
    · have hne : a ≠ k := fun h => h2 h.symm
      simp [find, hne, ih]

theorem find_assign_ne [LinearOrder κ] (k j : κ) (v : ν) (m : List (κ × ν)) (h : j ≠ k) :
    find (assign k v m) j = find m j := by
  induction m with
  | nil => simp [assign, find, h.symm]
  | cons p t ih =>
    obtain ⟨a, b⟩ := p
    unfold assign
    split_ifs with h1 h2
    · simp [find, h.symm]
    · subst h2
      simp [find, h.symm]
    · simp [find, ih]

theorem find_erase_self [DecidableEq κ] (k : κ) (m : List (κ × ν)) :
    find (erase k m) k = none := by
  induction m with
  | nil => simp [erase, find]
  | cons p t ih =>
    obtain ⟨a, b⟩ := p
    by_cases h : a = k
    · simpa [erase, h] using ih
    · simpa [erase, h, find] using ih

theorem find_erase_ne [DecidableEq κ] (k j : κ) (m : List (κ × ν)) (h : j ≠ k) :
    find (erase k m) j = find m j := by
  induction m with
  | nil => simp [erase, find]
  | cons p t ih =>
    obtain ⟨a, b⟩ := p
    by_cases h1 : a = k
    · subst h1
      have h2 : ¬ a = j := fun e => h e.symm
      simp [erase, find, ih, h2]
    · by_cases h2 : a = j
      · subst h2
        simp [erase, h1, find]
      · simp [erase, h1, find, h2, ih]

theorem assign_assign [LinearOrder κ] (k : κ) (v w : ν) (m : List (κ × ν)) :
    assign k w (assign k v m) = assign k w m := by
  induction m with
  | nil => simp [assign]
  | cons p t ih =>
    obtain ⟨a, b⟩ := p
    by_cases h1 : k < a
    · simp [assign, h1]
    · by_cases h2 : k = a
      · subst h2
        simp [assign]
      · simp [assign, h1, h2, ih]

theorem erase_eq_self [DecidableEq κ] (k : κ) (m : List (κ × ν)) (h : find m k = none) :
    erase k m = m := by
  induction m with
  | nil => simp [erase]
  | cons p t ih =>
    obtain ⟨a, b⟩ := p
    by_cases h1 : a = k
    · simp [find, h1] at h
    · simp only [find, h1, if_false] at h
      simp [erase, h1, ih h]

theorem erase_assign [LinearOrder κ] (k : κ) (v : ν) (m : List (κ × ν))
    (h : find m k = none) : erase k (assign k v m) = m := by
  induction m with
  | nil => simp [assign, erase]
  | cons p t ih =>
    obtain ⟨a, b⟩ := p
    by_cases h1 : a = k
    · simp [find, h1] at h
    · simp only [find, h1, if_false] at h
      have hk : ¬ k = a := fun e => h1 e.symm
      by_cases h2 : k < a
      · simp [assign, h2, erase, h1, erase_eq_self k t h]
      · simp [assign, h2, hk, erase, h1, ih h]

end Map

/-! ## The select dispatcher: registry and bitsets after each operation -/

namespace dispatcherselect

/-- The three kinds the select dispatcher acts on are different values. -/
theorem kinds_distinct : READ ≠ WRITE ∧ READ ≠ EXCEPTION ∧ WRITE ≠ EXCEPTION := by
  decide

theorem lookup_do_register_handler (s : dispatcherselect) (fd : Int) (k : Nat)
    (h : Option Nat) (fd1 : Int) (k1 : Nat) :
    lookup (do_register_handler s fd k h) fd1 k1 =
      if (k = READ ∨ k = WRITE ∨ k = EXCEPTION) ∧ fd1 = fd ∧ k1 = k then some h
      else lookup s fd1 k1 := by
  have key : ∀ m : List (Int × List (Nat × Option Nat)),
      (match Map.find (Map.assign fd (Map.assign k h (Map.index m fd [])) m) fd1 with
        | none => none
        | some inner => Map.find inner k1) =
      if fd1 = fd ∧ k1 = k then some h
      else (match Map.find m fd1 with
        | none => none
        | some inner => Map.find inner k1) := by
    intro m
    by_cases hfd : fd1 = fd
    · subst hfd
      rw [Map.find_assign_self]
      by_cases hk : k1 = k
      · subst hk
        simp [Map.find_assign_self]
      · simp only [hk, and_false, if_false]
        rw [Map.find_assign_ne _ _ _ _ hk]
        unfold Map.index
        cases Map.find m fd1 <;> simp [Map.find]
    · rw [Map.find_assign_ne _ _ _ _ hfd]
      simp [hfd]
  unfold do_register_handler lookup
  by_cases h1 : k = READ
  · simp only [h1, if_true]
    split_ifs <;> simp_all
  · by_cases h2 : k = WRITE
    · simp only [h1, h2, if_true, if_false]
      split_ifs <;> simp_all
    · by_cases h3 : k = EXCEPTION
      · simp only [h1, h2, h3, if_true, if_false]
        split_ifs <;> simp_all
      · simp only [h1, h2, h3, if_false]
        split_ifs <;> simp_all

theorem read_fds_do_register_handler (s : dispatcherselect) (fd : Int) (k : Nat)
    (h : Option Nat) :
    (do_register_handler s fd k h).read_fds =
      if k = READ then insert fd s.read_fds else s.read_fds := by
  obtain ⟨d1, d2, d3⟩ := kinds_distinct
  unfold do_register_handler
  by_cases h1 : k = READ
  · subst h1
    simp only [if_true]
    split_ifs <;> rfl
  · by_cases h2 : k = WRITE
    · subst h2
      simp only [h1, if_true, if_false]
      split_ifs <;> rfl
    · by_cases h3 : k = EXCEPTION
      · subst h3
        simp only [h1, h2, if_true, if_false]
        split_ifs <;> rfl
      · simp only [h1, h2, h3, if_false]
        split_ifs <;> rfl

theorem write_fds_do_register_handler (s : dispatcherselect) (fd : Int) (k : Nat)
    (h : Option Nat) :
    (do_register_handler s fd k h).write_fds =
      if k = WRITE then insert fd s.write_fds else s.write_fds := by
  obtain ⟨d1, d2, d3⟩ := kinds_distinct
  unfold do_register_handler
  by_cases h1 : k = READ
  · subst h1
    simp only [if_true]
    split_ifs <;> rfl
  · by_cases h2 : k = WRITE
    · subst h2
      simp only [h1, if_true, if_false]
      split_ifs <;> rfl
    · by_cases h3 : k = EXCEPTION
      · subst h3
        simp only [h1, h2, if_true, if_false]
        split_ifs <;> rfl
      · simp only [h1, h2, h3, if_false]
        split_ifs <;> rfl

theorem except_fds_do_register_handler (s : dispatcherselect) (fd : Int) (k : Nat)
    (h : Option Nat) :
    (do_register_handler s fd k h).except_fds =
      if k = EXCEPTION then insert fd s.except_fds else s.except_fds := by
  obtain ⟨d1, d2, d3⟩ := kinds_distinct
  unfold do_register_handler
  by_cases h1 : k = READ
  · subst h1
    simp only [if_true]
    split_ifs <;> rfl
  · by_cases h2 : k = WRITE
    · subst h2
      simp only [h1, if_true, if_false]
      split_ifs <;> rfl
    · by_cases h3 : k = EXCEPTION
      · subst h3
        simp only [h1, h2, if_true, if_false]
        split_ifs <;> rfl
      · simp only [h1, h2, h3, if_false]
        split_ifs <;> rfl

theorem read_fds_do_unregister_handler (s : dispatcherselect) (fd : Int) (k : Nat) :
    (do_unregister_handler s fd k).read_fds =
      if Map.find s.handlers_ fd ≠ none ∧ k = READ then s.read_fds.erase fd
      else s.read_fds := by
  obtain ⟨d1, d2, d3⟩ := kinds_distinct
  unfold do_unregister_handler
  by_cases h0 : Map.find s.handlers_ fd = none
  · simp [h0]
  · simp only [h0, if_false, ne_eq, not_false_eq_true, true_and]
    by_cases h1 : k = READ
    · subst h1
      simp only [if_true]
      split_ifs <;> rfl
    · by_cases h2 : k = WRITE
      · subst h2
        simp only [h1, if_true, if_false]
        split_ifs <;> rfl
      · by_cases h3 : k = EXCEPTION
        · subst h3
          simp only [h1, h2, if_true, if_false]
          split_ifs <;> rfl
        · simp only [h1, h2, h3, if_false]
          split_ifs <;> rfl

theorem write_fds_do_unregister_handler (s : dispatcherselect) (fd : Int) (k : Nat) :
    (do_unregister_handler s fd k).write_fds =
      if Map.find s.handlers_ fd ≠ none ∧ k = WRITE then s.write_fds.erase fd
      else s.write_fds := by
  obtain ⟨d1, d2, d3⟩ := kinds_distinct
  unfold do_unregister_handler
  by_cases h0 : Map.find s.handlers_ fd = none
  · simp [h0]
  · simp only [h0, if_false, ne_eq, not_false_eq_true, true_and]
    by_cases h1 : k = READ
    · subst h1
      simp only [if_true]
      split_ifs <;> rfl
    · by_cases h2 : k = WRITE
      · subst h2
        simp only [h1, if_true, if_false]
        split_ifs <;> rfl
      · by_cases h3 : k = EXCEPTION
        · subst h3
          simp only [h1, h2, if_true, if_false]
          split_ifs <;> rfl
        · simp only [h1, h2, h3, if_false]
          split_ifs <;> rfl

theorem except_fds_do_unregister_handler (s : dispatcherselect) (fd : Int) (k : Nat) :
    (do_unregister_handler s fd k).except_fds =
      if Map.find s.handlers_ fd ≠ none ∧ k = EXCEPTION then s.except_fds.erase fd
      else s.except_fds := by
  obtain ⟨d1, d2, d3⟩ := kinds_distinct
  unfold do_unregister_handler
  by_cases h0 : Map.find s.handlers_ fd = none
  · simp [h0]
  · simp only [h0, if_false, ne_eq, not_false_eq_true, true_and]
    by_cases h1 : k = READ
    · subst h1
      simp only [if_true]
      split_ifs <;> rfl
    · by_cases h2 : k = WRITE
      · subst h2
        simp only [h1, if_true, if_false]
        split_ifs <;> rfl
      · by_cases h3 : k = EXCEPTION
        · subst h3
          simp only [h1, h2, if_true, if_false]
          split_ifs <;> rfl
        · simp only [h1, h2, h3, if_false]
          split_ifs <;> rfl

theorem pending_close_fds_do_register_handler (s : dispatcherselect) (fd : Int) (k : Nat)
    (h : Option Nat) :
    (do_register_handler s fd k h).pending_close_fds_ = s.pending_close_fds_ := by
  unfold do_register_handler
  simp only []
  split_ifs <;> rfl

theorem pending_close_fds_do_unregister_handler (s : dispatcherselect) (fd : Int) (k : Nat) :
    (do_unregister_handler s fd k).pending_close_fds_ = s.pending_close_fds_ := by
  unfold do_unregister_handler
  simp only []
  split_ifs <;> rfl

theorem interest_do_register_handler (s : dispatcherselect) (fd : Int) (k : Nat)
    (h : Option Nat) (k1 : Nat) :
    interest (do_register_handler s fd k h) k1 =
      if (k = READ ∨ k = WRITE ∨ k = EXCEPTION) ∧ k1 = k then insert fd (interest s k1)
      else interest s k1 := by
  obtain ⟨d1, d2, d3⟩ := kinds_distinct
  unfold interest
  rw [read_fds_do_register_handler, write_fds_do_register_handler,
    except_fds_do_register_handler]
  by_cases e1 : k1 = READ
  · subst e1
    by_cases h1 : k = READ
    · simp [h1]
    · have : ¬ READ = k := fun e => h1 e.symm
      simp [h1, this]
  · by_cases e2 : k1 = WRITE
    · subst e2
      by_cases h1 : k = WRITE
      · simp [h1, e1]
      · have : ¬ WRITE = k := fun e => h1 e.symm
        simp [h1, this, e1]
    · by_cases e3 : k1 = EXCEPTION
      · subst e3
        by_cases h1 : k = EXCEPTION
        · simp [h1, e1, e2]
        · have : ¬ EXCEPTION = k := fun e => h1 e.symm
          simp [h1, this, e1, e2]
      · simp only [e1, e2, e3, if_false]
        split_ifs with hh
        · exfalso
          obtain ⟨hk, hkk⟩ := hh
          rw [← hkk] at hk
          rcases hk with h | h | h
          · exact e1 h
          · exact e2 h
          · exact e3 h
        · rfl

theorem interest_do_unregister_handler (s : dispatcherselect) (fd : Int) (k : Nat)
    (k1 : Nat) :
    interest (do_unregister_handler s fd k) k1 =
      if Map.find s.handlers_ fd ≠ none ∧ k1 = k then (interest s k1).erase fd
      else interest s k1 := by
  obtain ⟨d1, d2, d3⟩ := kinds_distinct
  unfold interest
  rw [read_fds_do_unregister_handler, write_fds_do_unregister_handler,
    except_fds_do_unregister_handler]
  by_cases h0 : Map.find s.handlers_ fd = none
  · simp [h0]
  · simp only [ne_eq, h0, not_false_eq_true, true_and]
    by_cases e1 : k1 = READ
    · subst e1
      by_cases h1 : k = READ
      · simp [h1]
      · have : ¬ READ = k := fun e => h1 e.symm
        simp [h1, this]
    · by_cases e2 : k1 = WRITE
      · subst e2
        by_cases h1 : k = WRITE
        · simp [h1, e1]
        · have : ¬ WRITE = k := fun e => h1 e.symm
          simp [h1, this, e1]
      · by_cases e3 : k1 = EXCEPTION
        · subst e3
          by_cases h1 : k = EXCEPTION
          · simp [h1, e1, e2]
          · have : ¬ EXCEPTION = k := fun e => h1 e.symm
            simp [h1, this, e1, e2]
        · simp only [e1, e2, e3, if_false]
          split_ifs <;> rfl

theorem handlers_do_unregister_handler (s : dispatcherselect) (fd : Int) (k : Nat) :
    (do_unregister_handler s fd k).handlers_ =
      if Map.find s.handlers_ fd = none then s.handlers_
      else if Map.index (Map.assign fd (Map.erase k (Map.index s.handlers_ fd []))
                s.handlers_) fd [] = []
        then Map.erase fd (Map.assign fd (Map.erase k (Map.index s.handlers_ fd []))
                s.handlers_)
        else Map.assign fd (Map.erase k (Map.index s.handlers_ fd [])) s.handlers_ := by
  unfold do_unregister_handler
  by_cases h0 : Map.find s.handlers_ fd = none
  · simp [h0]
  · simp only [h0, if_false]
    split_ifs <;> rfl

theorem lookup_do_unregister_handler (s : dispatcherselect) (fd : Int) (k : Nat)
    (fd1 : Int) (k1 : Nat) :
    lookup (do_unregister_handler s fd k) fd1 k1 =
      if fd1 = fd ∧ k1 = k then none else lookup s fd1 k1 := by
  have key : ∀ (m : List (Int × List (Nat × Option Nat))) (inner0 : List (Nat × Option Nat)),
      Map.find m fd = some inner0 →
      (match Map.find
          (if Map.index (Map.assign fd (Map.erase k inner0) m) fd [] = [] then
            Map.erase fd (Map.assign fd (Map.erase k inner0) m)
           else Map.assign fd (Map.erase k inner0) m) fd1 with
        | none => none
        | some inner => Map.find inner k1) =
      if fd1 = fd ∧ k1 = k then none
      else (match Map.find m fd1 with
        | none => none
        | some inner => Map.find inner k1) := by
    intro m inner0 hm
    have hidx : Map.index (Map.assign fd (Map.erase k inner0) m) fd [] = Map.erase k inner0 := by
      simp [Map.index, Map.find_assign_self]
    rw [hidx]
    by_cases hfd : fd1 = fd
    · subst hfd
      by_cases hemp : Map.erase k inner0 = []
      · rw [if_pos hemp, Map.find_erase_self, hm]
        by_cases hk : k1 = k
        · simp [hk]
        · have := Map.find_erase_ne k k1 inner0 hk
          rw [hemp] at this
          simp [hk, ← this, Map.find]
      · rw [if_neg hemp, Map.find_assign_self, hm]
        by_cases hk : k1 = k
        · subst hk
          simp [Map.find_erase_self]
        · simp [hk, Map.find_erase_ne k k1 inner0 hk]
    · simp only [hfd, false_and, if_false]
      split_ifs
      · rw [Map.find_erase_ne _ _ _ hfd, Map.find_assign_ne _ _ _ _ hfd]
      · rw [Map.find_assign_ne _ _ _ _ hfd]
  unfold lookup
  rw [handlers_do_unregister_handler]
  by_cases hnone : Map.find s.handlers_ fd = none
  · simp only [hnone, if_true]
    by_cases hfd : fd1 = fd ∧ k1 = k
    · obtain ⟨e1, _⟩ := hfd
      subst e1
      simp [hnone]
    · simp [hfd]
  · obtain ⟨inner0, hm⟩ := Option.ne_none_iff_exists'.mp hnone
    have hidx0 : Map.index s.handlers_ fd [] = inner0 := by simp [Map.index, hm]
    rw [if_neg hnone, hidx0]
    exact key s.handlers_ inner0 hm

end dispatcherselect

/-! ## The select dispatcher: registry/interest consistency -/

namespace dispatcherselect

theorem consistent_init : consistent init := by
  intro fd k hk
  rcases hk with h | h | h <;> subst h <;> simp [registered, lookup, interest, init, Map.find]

theorem consistent_do_register_handler (s : dispatcherselect) (fd : Int) (k : Nat)
    (h : Option Nat) (hs : consistent s) : consistent (do_register_handler s fd k h) := by
  intro fd1 k1 hk1
  have := hs fd1 k1 hk1
  unfold registered at this ⊢
  rw [lookup_do_register_handler, interest_do_register_handler]
  by_cases hk : k = READ ∨ k = WRITE ∨ k = EXCEPTION
  · by_cases e : k1 = k
    · by_cases f : fd1 = fd
      · simp [hk, e, f]
      · simp only [hk, e, f, true_and, and_true, if_true, if_false, false_and,
          Finset.mem_insert, false_or]
        rw [e] at this
        exact this
    · simp only [e, and_false, if_false]
      exact this
  · simp only [hk, false_and, if_false]
    exact this

theorem consistent_do_unregister_handler (s : dispatcherselect) (fd : Int) (k : Nat)
    (hs : consistent s) : consistent (do_unregister_handler s fd k) := by
  intro fd1 k1 hk1
  have h1 := hs fd1 k1 hk1
  unfold registered at h1 ⊢
  rw [lookup_do_unregister_handler, interest_do_unregister_handler]
  by_cases e : k1 = k
  · by_cases f : fd1 = fd
    · subst e f
      by_cases h0 : Map.find s.handlers_ fd1 = none
      · have hl : lookup s fd1 k1 = none := by simp [lookup, h0]
        simp only [h0, ne_eq, not_true_eq_false, false_and, and_self, if_true, if_false]
        simp only [false_iff]
        rw [← h1]
        simp [hl]
      · simp [h0]
    · subst e
      simp only [f, false_and, if_false, and_true]
      split_ifs
      · rw [Finset.mem_erase]
        simp only [ne_eq, f, not_false_eq_true, true_and]
        exact h1
      · exact h1
  · simp only [e, and_false, if_false]
    exact h1

theorem consistent_close_one (acc : dispatcherselect × List Int) (fd : Int)
    (hs : consistent acc.1) : consistent (close_one acc fd).1 := by
  unfold close_one
  split_ifs
  · exact hs
  · exact consistent_do_unregister_handler _ _ _
      (consistent_do_unregister_handler _ _ _ (consistent_do_unregister_handler _ _ _ hs))

theorem consistent_foldl_close_one (fds : List Int) (acc : dispatcherselect × List Int)
    (hs : consistent acc.1) : consistent (fds.foldl close_one acc).1 := by
  induction fds generalizing acc with
  | nil => exact hs
  | cons fd rest ih => exact ih _ (consistent_close_one acc fd hs)

theorem consistent_process_pending_close_fds (s : dispatcherselect) (hs : consistent s) :
    consistent (process_pending_close_fds s).1 := by
  have := consistent_foldl_close_one s.pending_close_fds_ (s, []) hs
  exact this

theorem consistent_step (s : dispatcherselect) (a : Action) (hs : consistent s) :
    consistent (step s a) := by
  cases a with
  | apply op =>
    obtain ⟨t, fd, k, h⟩ := op
    cases t
    · exact consistent_do_register_handler _ _ _ _ hs
    · exact consistent_do_unregister_handler _ _ _ hs
  | close_fd_safely fd => exact hs
  | close_pass => exact consistent_process_pending_close_fds s hs

theorem consistent_exec (history : List Action) (s : dispatcherselect) (hs : consistent s) :
    consistent (exec s history) := by
  induction history generalizing s with
  | nil => exact hs
  | cons a rest ih => exact ih _ (consistent_step s a hs)

end dispatcherselect

/-! ## The epoll dispatcher: what a successful operation does -/

namespace dispatcherepoll

theorem do_register_handler_ok (s s1 : dispatcherepoll) (fd : Int) (k : Nat)
    (h : Option Nat) (hok : do_register_handler s fd k h = Except.ok s1) :
    0 ≤ fd ∧ h ≠ none ∧ fd ∉ s.refused ∧
    s1 = { s with
      interest := Map.assign fd ⟨convert_to_epoll_events k, epoll_data.fd fd⟩ s.interest,
      active_handlers_by_fd_ := Map.assign fd h s.active_handlers_by_fd_ } := by
  unfold do_register_handler at hok
  by_cases hbad : fd < 0 ∨ h = none
  · simp [hbad] at hok
  · simp only [hbad, if_false] at hok
    push_neg at hbad
    refine ⟨hbad.1, hbad.2, ?_⟩
    by_cases hc : Map.find s.active_handlers_by_fd_ fd ≠ none ∧
        Map.index s.active_handlers_by_fd_ fd none = h
    · rw [if_pos hc] at hok
      by_cases href : fd ∈ s.refused
      · simp [epoll_ctl, href] at hok
      · by_cases hi : Map.find s.interest fd = none
        · simp [epoll_ctl, href, hi] at hok
        · simp only [epoll_ctl, href, hi, if_false] at hok
          injection hok with e
          exact ⟨href, e.symm⟩
    · rw [if_neg hc] at hok
      by_cases href : fd ∈ s.refused
      · simp [epoll_ctl, href, EBADF, EEXIST] at hok
      · by_cases hi : Map.find s.interest fd = none
        · simp only [epoll_ctl, href, hi, if_true, if_false] at hok
          injection hok with e
          exact ⟨href, e.symm⟩
        · simp only [epoll_ctl, href, hi, and_self, if_true, if_false] at hok
          injection hok with e
          exact ⟨href, e.symm⟩

theorem do_register_handler_eq (s : dispatcherepoll) (fd : Int) (k : Nat) (h : Option Nat)
    (hfd : 0 ≤ fd) (hh : h ≠ none) (href : fd ∉ s.refused)
    (hw : Map.find s.active_handlers_by_fd_ fd = some h → Map.find s.interest fd ≠ none) :
    do_register_handler s fd k h = Except.ok { s with
      interest := Map.assign fd ⟨convert_to_epoll_events k, epoll_data.fd fd⟩ s.interest,
      active_handlers_by_fd_ := Map.assign fd h s.active_handlers_by_fd_ } := by
  unfold do_register_handler
  have hbad : ¬ (fd < 0 ∨ h = none) := by
    push_neg
    exact ⟨hfd, hh⟩
  simp only [hbad, if_false]
  by_cases hi : Map.find s.interest fd = none
  · have hne : ¬ (Map.find s.active_handlers_by_fd_ fd ≠ none ∧
        Map.index s.active_handlers_by_fd_ fd none = h) := by
      rintro ⟨h1, h2⟩
      apply hw _ hi
      obtain ⟨v, hv⟩ := Option.ne_none_iff_exists'.mp h1
      simp only [Map.index, hv, Option.getD_some] at h2
      rw [hv, h2]
    simp [hne, epoll_ctl, href, hi]
  · split_ifs with h1 <;> simp [epoll_ctl, href, hi]

theorem do_unregister_handler_ok (s s1 : dispatcherepoll) (fd : Int) (k : Nat)
    (hok : do_unregister_handler s fd k = Except.ok s1) :
    0 ≤ fd ∧
    ((Map.find s.active_handlers_by_fd_ fd = none ∧ s1 = s) ∨
     (Map.find s.active_handlers_by_fd_ fd ≠ none ∧ Map.find s.interest fd ≠ none ∧
      fd ∉ s.refused ∧
      s1 = { s with interest := Map.erase fd s.interest,
                    active_handlers_by_fd_ := Map.erase fd s.active_handlers_by_fd_,
                    pending_close_fds_ := s.pending_close_fds_ ++ [fd] })) := by
  unfold do_unregister_handler at hok
  by_cases hneg : fd < 0
  · simp [hneg] at hok
  · simp only [hneg, if_false] at hok
    refine ⟨not_lt.mp hneg, ?_⟩
    by_cases hr : Map.find s.active_handlers_by_fd_ fd = none
    · left
      simp only [hr, if_true] at hok
      injection hok with e
      exact ⟨hr, e.symm⟩
    · right
      simp only [hr, if_false] at hok
      by_cases href : fd ∈ s.refused
      · simp [epoll_ctl, href] at hok
      · by_cases hi : Map.find s.interest fd = none
        · simp [epoll_ctl, href, hi] at hok
        · refine ⟨hr, hi, href, ?_⟩
          simp only [epoll_ctl, href, hi, if_false, ne_eq, hr, not_false_eq_true,
            if_true] at hok
          injection hok with e
          exact e.symm

theorem do_unregister_handler_eq (s : dispatcherepoll) (fd : Int) (k : Nat)
    (hfd : 0 ≤ fd) (hr : Map.find s.active_handlers_by_fd_ fd ≠ none)
    (hi : Map.find s.interest fd ≠ none) (href : fd ∉ s.refused) :
    do_unregister_handler s fd k = Except.ok { s with
      interest := Map.erase fd s.interest,
      active_handlers_by_fd_ := Map.erase fd s.active_handlers_by_fd_,
      pending_close_fds_ := s.pending_close_fds_ ++ [fd] } := by
  unfold do_unregister_handler
  simp [not_lt.mpr hfd, hr, epoll_ctl, href, hi]

end dispatcherepoll

/-! ## The epoll dispatcher: registry/interest consistency -/

namespace dispatcherepoll

theorem epoll_consistent_init (epoll_fd wakeup_fd max_events : Int) :
    consistent (init epoll_fd wakeup_fd max_events) := by
  intro fd hfd
  have h : ¬ wakeup_fd = fd := fun e => hfd e.symm
  simp [registered, watched, init, Map.find, h]

theorem epoll_consistent_do_register_handler (s s1 : dispatcherepoll) (fd : Int) (k : Nat)
    (h : Option Nat) (hok : do_register_handler s fd k h = Except.ok s1)
    (hs : consistent s) : consistent s1 := by
  obtain ⟨_, _, _, rfl⟩ := do_register_handler_ok s s1 fd k h hok
  intro fd1 hfd1
  have := hs fd1 hfd1
  unfold registered watched at this ⊢
  by_cases e : fd1 = fd
  · subst e
    simp [Map.find_assign_self]
  · simpa [Map.find_assign_ne _ _ _ _ e] using this

theorem epoll_consistent_do_unregister_handler (s s1 : dispatcherepoll) (fd : Int) (k : Nat)
    (hok : do_unregister_handler s fd k = Except.ok s1)
    (hs : consistent s) : consistent s1 := by
  obtain ⟨_, h | h⟩ := do_unregister_handler_ok s s1 fd k hok
  · rw [h.2]
    exact hs
  · obtain ⟨_, _, _, rfl⟩ := h
    intro fd1 hfd1
    have := hs fd1 hfd1
    unfold registered watched at this ⊢
    by_cases e : fd1 = fd
    · subst e
      simp [Map.find_erase_self]
    · simpa [Map.find_erase_ne _ _ _ e] using this

theorem find_foldl_erase (l : List Int) (m : List (Int × epoll_event)) (x : Int) :
    Map.find (l.foldl (fun i fd => Map.erase fd i) m) x =
      if x ∈ l then none else Map.find m x := by
  induction l generalizing m with
  | nil => simp
  | cons y rest ih =>
    rw [List.foldl_cons, ih]
    by_cases hx : x ∈ rest
    · simp [hx]
    · by_cases e : x = y
      · subst e
        simp [hx, Map.find_erase_self]
      · simp [hx, e, Map.find_erase_ne _ _ _ e]

theorem epoll_consistent_step (s s1 : dispatcherepoll) (a : Action)
    (hok : step s a = Except.ok s1) (hs : consistent s)
    (hcl : a = Action.close_pass → ∀ fd ∈ s.pending_close_fds_, ¬ registered s fd) :
    consistent s1 := by
  cases a with
  | apply op =>
    obtain ⟨t, fd, k, h⟩ := op
    cases t
    · exact epoll_consistent_do_register_handler s s1 fd k h hok hs
    · exact epoll_consistent_do_unregister_handler s s1 fd k hok hs
  | close_fd_safely fd =>
    injection hok with e
    rw [← e]
    exact hs
  | close_pass =>
    injection hok with e
    rw [← e]
    intro fd1 hfd1
    have h1 := hs fd1 hfd1
    have h2 := hcl rfl fd1
    unfold registered at h2
    unfold registered watched at h1 ⊢
    show Map.find s.active_handlers_by_fd_ fd1 ≠ none ↔
      Map.find (s.pending_close_fds_.foldl (fun i fd => Map.erase fd i) s.interest) fd1 ≠ none
    rw [find_foldl_erase]
    by_cases hm : fd1 ∈ s.pending_close_fds_
    · simp only [hm, if_true, ne_eq, not_true_eq_false, iff_false, not_not]
      exact not_not.mp (h2 hm)
    · simp only [hm, if_false]
      exact h1
  | kernel refused =>
    injection hok with e
    rw [← e]
    exact hs

/-- Consistency along a history that neither schedules nor performs a close. -/
theorem epoll_consistent_exec (history : List Action) (s s1 : dispatcherepoll)
    (hn : ∀ a ∈ history, Action.no_close a = true)
    (hok : exec s history = Except.ok s1) (hs : consistent s) : consistent s1 := by
  induction history generalizing s with
  | nil =>
    injection hok with e
    rw [← e]
    exact hs
  | cons a rest ih =>
    unfold exec at hok
    cases hstep : step s a with
    | error e => simp [hstep] at hok
    | ok s2 =>
      simp only [hstep] at hok
      refine ih s2 (fun b hb => hn b (List.mem_cons_of_mem a hb)) hok
        (epoll_consistent_step s s2 a hstep hs ?_)
      intro ha
      have := hn a (List.mem_cons_self a rest)
      rw [ha] at this
      exact absurd this (by decide)

theorem wakeup_fd_exec (history : List Action) (s s1 : dispatcherepoll)
    (hok : exec s history = Except.ok s1) : s1.wakeup_fd_ = s.wakeup_fd_ := by
  induction history generalizing s with
  | nil =>
    injection hok with e
    rw [← e]
  | cons a rest ih =>
    unfold exec at hok
    cases hstep : step s a with
    | error e => simp [hstep] at hok
    | ok s2 =>
      simp only [hstep] at hok
      rw [ih s2 hok]
      cases a with
      | apply op =>
        obtain ⟨t, fd, k, h⟩ := op
        cases t
        · obtain ⟨_, _, _, rfl⟩ := do_register_handler_ok s s2 fd k h hstep
          rfl
        · obtain ⟨_, h | h⟩ := do_unregister_handler_ok s s2 fd k hstep
          · rw [h.2]
          · obtain ⟨_, _, _, rfl⟩ := h
            rfl
      | close_fd_safely fd =>
        injection hstep with e
        rw [← e]
        rfl
      | close_pass =>
        injection hstep with e
        rw [← e]
        rfl
      | kernel refused =>
        injection hstep with e
        rw [← e]

end dispatcherepoll

/-! ## Dispatch: which callbacks a ready record runs -/

namespace dispatcherselect

theorem dispatch_one_of_lookup_none {W : Type} (beh : Behaviour W)
    (r : Run W dispatcherselect) (ev : Int × Nat) (h : lookup r.state ev.1 ev.2 = none) :
    dispatch_one beh r ev = Except.ok r := by
  unfold lookup at h
  unfold dispatch_one
  cases hf : Map.find r.state.handlers_ ev.1 with
  | none => rfl
  | some inner =>
    simp only [hf] at h
    simp [h]

theorem dispatch_one_calls {W : Type} (beh : Behaviour W) (r r1 : Run W dispatcherselect)
    (ev : Int × Nat) (hok : dispatch_one beh r ev = Except.ok r1) :
    r1.calls = r.calls ∨
    ∃ (h : Nat) (cb : Callback),
      lookup r.state ev.1 ev.2 = some (some h) ∧ r1.calls = r.calls ++ [⟨h, cb, ev.1⟩] := by
  unfold dispatch_one at hok
  unfold lookup
  cases hf : Map.find r.state.handlers_ ev.1 with
  | none =>
    simp only [hf] at hok
    injection hok with e
    left
    rw [← e]
  | some inner =>
    simp only [hf] at hok ⊢
    cases hk : Map.find inner ev.2 with
    | none =>
      simp only [hk] at hok
      injection hok with e
      left
      rw [← e]
    | some handler =>
      simp only [hk] at hok
      cases handler with
      | none =>
        unfold invoke at hok
        split_ifs at hok
        injection hok with e
        left
        rw [← e]
      | some h =>
        unfold invoke at hok
        split_ifs at hok
        · injection hok with e
          right
          exact ⟨h, Callback.handle_read, rfl, by rw [← e]⟩
        · injection hok with e
          right
          exact ⟨h, Callback.handle_write, rfl, by rw [← e]⟩
        · injection hok with e
          right
          exact ⟨h, Callback.handle_exception, rfl, by rw [← e]⟩
        · injection hok with e
          left
          rw [← e]

end dispatcherselect

namespace dispatcherepoll

theorem dispatch_one_of_not_registered {W : Type} (beh : Behaviour W)
    (r : Run W dispatcherepoll) (events : Nat) (fd : Int)
    (h : ¬ registered r.state fd) :
    dispatch_one beh r ⟨events, epoll_data.fd fd⟩ = Except.ok r := by
  unfold registered at h
  push_neg at h
  simp [dispatch_one, h]

theorem invoke_calls {W : Type} (beh : Behaviour W) (r r1 : Run W dispatcherepoll)
    (h : Nat) (cb : Callback) (fd : Int) (hok : invoke beh r h cb fd = Except.ok r1) :
    r1.calls = r.calls ++ [⟨h, cb, fd⟩] := by
  unfold invoke at hok
  cases ha : api_calls r.state (beh r.world h cb fd).2 with
  | error e => simp [ha] at hok
  | ok s =>
    simp only [ha] at hok
    injection hok with e
    rw [← e]

theorem run_callbacks_calls {W : Type} (beh : Behaviour W) (r r1 : Run W dispatcherepoll)
    (h : Nat) (events : Nat) (fd : Int)
    (hok : run_callbacks beh r h events fd = Except.ok r1) :
    ∀ c ∈ r1.calls, c ∈ r.calls ∨ (c.handler = h ∧ c.fd = fd) := by
  unfold run_callbacks at hok
  have step : ∀ (c : Prop) [Decidable c] (cb : Callback) (a b : Run W dispatcherepoll),
      (∀ x ∈ a.calls, x ∈ r.calls ∨ (x.handler = h ∧ x.fd = fd)) →
      (if c then invoke beh a h cb fd else Except.ok a) = Except.ok b →
      ∀ x ∈ b.calls, x ∈ r.calls ∨ (x.handler = h ∧ x.fd = fd) := by
    intro c _ cb a b ha hb x hx
    split_ifs at hb
    · rw [invoke_calls beh a b h cb fd hb] at hx
      rcases List.mem_append.mp hx with hx | hx
      · exact ha x hx
      · right
        rw [List.mem_singleton.mp hx]
        exact ⟨rfl, rfl⟩
    · injection hb with e
      rw [← e] at hx
      exact ha x hx
  cases h1 : (if events &&& EPOLLIN ≠ 0 then invoke beh r h Callback.handle_read fd
      else Except.ok r) with
  | error e => simp [h1] at hok
  | ok ra =>
    simp only [h1] at hok
    have a1 := step _ _ r ra (fun x hx => Or.inl hx) h1
    cases h2 : (if events &&& EPOLLOUT ≠ 0 then invoke beh ra h Callback.handle_write fd
        else Except.ok ra) with
    | error e => simp [h2] at hok
    | ok rb =>
      simp only [h2] at hok
      have a2 := step _ _ ra rb a1 h2
      exact step _ _ rb r1 a2 hok

theorem epoll_dispatch_one_calls {W : Type} (beh : Behaviour W) (r r1 : Run W dispatcherepoll)
    (events : Nat) (fd : Int)
    (hok : dispatch_one beh r ⟨events, epoll_data.fd fd⟩ = Except.ok r1) :
    ∀ c ∈ r1.calls, c ∈ r.calls ∨
      (c.fd = fd ∧ Map.find r.state.active_handlers_by_fd_ fd = some (some c.handler)) := by
  unfold dispatch_one at hok
  simp only at hok
  cases hf : Map.find r.state.active_handlers_by_fd_ fd with
  | none =>
    simp only [hf] at hok
    injection hok with e
    intro c hc
    left
    rw [← e] at hc
    exact hc
  | some hp =>
    cases hp with
    | none =>
      simp only [hf] at hok
      injection hok with e
      intro c hc
      left
      rw [← e] at hc
      exact hc
    | some h =>
      simp only [hf] at hok
      intro c hc
      rcases run_callbacks_calls beh r r1 h events fd hok c hc with hc1 | hc1
      · exact Or.inl hc1
      · right
        exact ⟨hc1.2, by rw [hc1.1]⟩

end dispatcherepoll

/-! ## The epoll dispatcher: registry and pending closes under the close protocol -/

namespace dispatcherepoll

theorem disjoint_step (s s1 : dispatcherepoll) (a : Action)
    (hal : allowed s a = true) (hok : step s a = Except.ok s1)
    (hs : ∀ fd : Int, registered s fd → fd ∉ s.pending_close_fds_) :
    ∀ fd : Int, registered s1 fd → fd ∉ s1.pending_close_fds_ := by
  cases a with
  | apply op =>
    obtain ⟨t, fd, k, h⟩ := op
    cases t
    · obtain ⟨_, _, _, rfl⟩ := do_register_handler_ok s s1 fd k h hok
      have hal1 : fd ∉ s.pending_close_fds_ := by
        simpa [allowed] using hal
      intro fd1 hr
      by_cases e : fd1 = fd
      · subst e
        exact hal1
      · apply hs fd1
        unfold registered at hr ⊢
        simpa [Map.find_assign_ne _ _ _ _ e] using hr
    · obtain ⟨_, h | h⟩ := do_unregister_handler_ok s s1 fd k hok
      · rw [h.2]
        exact hs
      · obtain ⟨_, _, _, rfl⟩ := h
        intro fd1 hr
        unfold registered at hr
        by_cases e : fd1 = fd
        · subst e
          simp [Map.find_erase_self] at hr
        · simp only [Map.find_erase_ne _ _ _ e] at hr
          simp only [List.mem_append, List.mem_singleton, e, or_false]
          exact hs fd1 hr
  | close_fd_safely fd =>
    injection hok with e
    rw [← e]
    have hal1 : ¬ registered s fd := by
      simpa [allowed] using hal
    intro fd1 hr
    have hr1 : registered s fd1 := hr
    simp only [close_fd_safely, List.mem_append, List.mem_singleton, not_or]
    refine ⟨hs fd1 hr1, ?_⟩
    rintro rfl
    exact hal1 hr1
  | close_pass =>
    injection hok with e
    rw [← e]
    intro fd1 _
    simp [process_pending_close_fds]
  | kernel refused =>
    injection hok with e
    rw [← e]
    exact hs

theorem disjoint_exec (history : List Action) (s s1 : dispatcherepoll)
    (hp : follows_protocol s history = true) (hok : exec s history = Except.ok s1)
    (hs : ∀ fd : Int, registered s fd → fd ∉ s.pending_close_fds_) :
    ∀ fd : Int, registered s1 fd → fd ∉ s1.pending_close_fds_ := by
  induction history generalizing s with
  | nil =>
    injection hok with e
    rw [← e]
    exact hs
  | cons a rest ih =>
    unfold exec at hok
    unfold follows_protocol at hp
    cases hstep : step s a with
    | error e => simp [hstep] at hok
    | ok s2 =>
      simp only [hstep, Bool.and_eq_true] at hok hp
      exact ih s2 hp.2 hok (disjoint_step s s2 a hp.1 hstep hs)

/-- Consistency along a history that keeps the close protocol: the close pass then only
closes descriptors without a registry entry. -/
theorem epoll_consistent_protocol_exec (history : List Action) (s s1 : dispatcherepoll)
    (hp : follows_protocol s history = true) (hok : exec s history = Except.ok s1)
    (hd : ∀ fd : Int, registered s fd → fd ∉ s.pending_close_fds_)
    (hs : consistent s) : consistent s1 := by
  induction history generalizing s with
  | nil =>
    injection hok with e
    rw [← e]
    exact hs
  | cons a rest ih =>
    unfold exec at hok
    unfold follows_protocol at hp
    cases hstep : step s a with
    | error e => simp [hstep] at hok
    | ok s2 =>
      simp only [hstep, Bool.and_eq_true] at hok hp
      exact ih s2 hp.2 hok (disjoint_step s s2 a hp.1 hstep hd)
        (epoll_consistent_step s s2 a hstep hs (fun _ fd hfd hr => hd fd hr hfd))

end dispatcherepoll

/-! ## The epoll acceptor: end-of-headers detection -/

theorem string_find_from_ne_none (pat s : List Char) (pos : Nat) :
    string_find_from pat s pos ≠ none ↔ pat <:+: s := by
  induction s generalizing pos with
  | nil =>
    unfold string_find_from
    by_cases h : pat = []
    · simp [h]
    · simp [h]
  | cons c cs ih =>
    unfold string_find_from
    rw [List.infix_cons_iff]
    by_cases h : pat <+: c :: cs
    · simp [h]
    · simp only [h, if_false, false_or]
      exact ih (pos + 1)

theorem string_find_ne_none (s pat : List Char) :
    string_find s pat ≠ none ↔ pat <:+: s :=
  string_find_from_ne_none pat s 0

namespace epoll_event_handler

theorem responses_append (fd : Int) (a b : List Out) :
    responses fd (a ++ b) = responses fd a + responses fd b := by
  simp [responses, List.count_append]

theorem contains_mono (b x : List Char) (h : CRLFCRLF <:+: b) : CRLFCRLF <:+: b ++ x :=
  h.trans (List.prefix_append b x).isInfix

theorem drain_cases (fd : Int) (n : Nat) (reads : List ReadResult) (b : List Char)
    (hb : ¬ CRLFCRLF <:+: b) :
    ((drain fd b reads).buffer = none ∧ responses fd (drain fd b reads).outs = 1 ∧
      CRLFCRLF <:+: b ++ received (n + 1) reads) ∨
    ((drain fd b reads).buffer = none ∧ responses fd (drain fd b reads).outs = 0 ∧
      ¬ CRLFCRLF <:+: b ++ received (n + 1) reads) ∨
    (∃ b1, (drain fd b reads).buffer = some b1 ∧ responses fd (drain fd b reads).outs = 0 ∧
      ¬ CRLFCRLF <:+: b1 ∧
      b ++ received (n + 1) reads = b1 ++ received n (drain fd b reads).rest) := by
  induction reads generalizing b with
  | nil =>
    right; right
    refine ⟨b, rfl, by simp [drain, responses], hb, ?_⟩
    cases n <;> simp [drain, received]
  | cons rd rest ih =>
    cases rd with
    | bytes chunk =>
      by_cases hlen : chunk.length > 0
      · by_cases hfound : CRLFCRLF <:+: b ++ chunk
        · left
          have hf : string_find (b ++ chunk) CRLFCRLF ≠ none :=
            (string_find_ne_none _ _).mpr hfound
          refine ⟨by simp [drain, hlen, hf], by simp [drain, hlen, hf, responses], ?_⟩
          simp only [received, hlen, if_true]
          rw [← List.append_assoc]
          exact contains_mono _ _ hfound
        · have hf : ¬ string_find (b ++ chunk) CRLFCRLF ≠ none :=
            fun h => hfound ((string_find_ne_none _ _).mp h)
          have hd : drain fd b (ReadResult.bytes chunk :: rest) = drain fd (b ++ chunk) rest := by
            simp only [drain, hlen, if_true, hf, if_false]
          have hr : b ++ received (n + 1) (ReadResult.bytes chunk :: rest) =
              (b ++ chunk) ++ received (n + 1) rest := by
            simp [received, hlen]
          rw [hd, hr]
          exact ih (b ++ chunk) hfound
      · right; left
        refine ⟨by simp [drain, hlen], by simp [drain, hlen, responses], ?_⟩
        simpa [received, hlen] using hb
    | fail errno =>
      by_cases he : errno = EAGAIN ∨ errno = EWOULDBLOCK
      · right; right
        refine ⟨b, by simp only [drain, he, if_true], by simp [drain, he, responses], hb, ?_⟩
        simp only [drain, received, he, if_true]
      · right; left
        refine ⟨by simp only [drain, he, if_false], by simp [drain, he, responses], ?_⟩
        simpa [received, he] using hb

theorem serve_of_no_buffer (fd : Int) (n : Nat) (bufs : List (Int × List Char))
    (reads : List ReadResult) (h : Map.find bufs fd = none) :
    responses fd (serve fd n bufs reads) = 0 := by
  induction n with
  | zero => simp [serve, responses]
  | succ n ih =>
    have hc : clientconnections bufs fd reads =
        (bufs, [Out.call (ApiCall.unregister_handler fd READ)], reads) := by
      simp [clientconnections, h]
    unfold serve
    rw [hc, responses_append]
    simp only [ih, add_zero]
    simp [responses]

theorem serve_responses (fd : Int) (n : Nat) (bufs : List (Int × List Char))
    (reads : List ReadResult) (b : List Char) (hfind : Map.find bufs fd = some b)
    (hb : ¬ CRLFCRLF <:+: b) :
    responses fd (serve fd n bufs reads) =
      if CRLFCRLF <:+: b ++ received n reads then 1 else 0 := by
  induction n generalizing bufs reads b with
  | zero => simp [serve, responses, received, hb]
  | succ n ih =>
    unfold serve
    rw [responses_append]
    rcases drain_cases fd n reads b hb with ⟨h1, h2, h3⟩ | ⟨h1, h2, h3⟩ | ⟨b1, h1, h2, h3, h4⟩
    · have hc : clientconnections bufs fd reads =
          (Map.erase fd bufs, (drain fd b reads).outs, (drain fd b reads).rest) := by
        simp [clientconnections, hfind, h1]
      rw [hc]
      simp only [h2, serve_of_no_buffer fd n _ _ (Map.find_erase_self fd bufs), h3, if_true]
    · have hc : clientconnections bufs fd reads =
          (Map.erase fd bufs, (drain fd b reads).outs, (drain fd b reads).rest) := by
        simp [clientconnections, hfind, h1]
      rw [hc]
      simp only [h2, serve_of_no_buffer fd n _ _ (Map.find_erase_self fd bufs), h3, if_false]
    · have hc : clientconnections bufs fd reads =
          (Map.assign fd b1 bufs, (drain fd b reads).outs, (drain fd b reads).rest) := by
        simp [clientconnections, hfind, h1]
      rw [hc]
      simp only [h2, zero_add]
      rw [ih _ _ b1 (Map.find_assign_self fd b1 bufs) h3, h4]

theorem received_chunks (n : Nat) (chunks : List (List Char))
    (h : ∀ c ∈ chunks, c ≠ []) :
    received (n + 1) (chunks.map ReadResult.bytes) = chunks.flatten := by
  induction chunks with
  | nil => simp [received]
  | cons c rest ih =>
    have hc : c.length > 0 := List.length_pos.mpr (h c (List.mem_cons_self c rest))
    have := ih (fun x hx => h x (List.mem_cons_of_mem c hx))
    simp [received, hc, this]

theorem drain_detects (fd : Int) (b : List Char) (front : List (List Char))
    (chunk : List Char) (back : List ReadResult)
    (hfront : ∀ c ∈ front, c ≠ []) (hchunk : chunk ≠ [])
    (hnot : ¬ CRLFCRLF <:+: b ++ front.flatten)
    (hfound : CRLFCRLF <:+: b ++ front.flatten ++ chunk) :
    drain fd b (front.map ReadResult.bytes ++ ReadResult.bytes chunk :: back) =
      ⟨none, [Out.write fd response.toList,
              Out.call (ApiCall.unregister_handler fd READ)], back⟩ := by
  induction front generalizing b with
  | nil =>
    have hlen : chunk.length > 0 := List.length_pos.mpr hchunk
    have hf : string_find (b ++ chunk) CRLFCRLF ≠ none := by
      rw [string_find_ne_none]
      simpa using hfound
    simp [drain, hlen, hf]
  | cons c rest ih =>
    have hlen : c.length > 0 := List.length_pos.mpr (hfront c (List.mem_cons_self c rest))
    have hnc : ¬ CRLFCRLF <:+: b ++ c := by
      intro h
      apply hnot
      have := contains_mono (b ++ c) rest.flatten h
      simpa using this
    have hf : ¬ string_find (b ++ c) CRLFCRLF ≠ none :=
      fun h => hnc ((string_find_ne_none _ _).mp h)
    have hd : drain fd b ((c :: rest).map ReadResult.bytes ++ ReadResult.bytes chunk :: back) =
        drain fd (b ++ c) (rest.map ReadResult.bytes ++ ReadResult.bytes chunk :: back) := by
      simp only [List.map_cons, List.cons_append, drain, hlen, if_true, hf, if_false]
      rfl
    rw [hd]
    apply ih (b ++ c) (fun x hx => hfront x (List.mem_cons_of_mem c hx))
    · simpa using hnot
    · simpa using hfound

end epoll_event_handler

/-! ## The select dispatcher: the close pass -/

namespace dispatcherselect

theorem find_handlers_do_unregister_handler_ne (s : dispatcherselect) (fd fd1 : Int)
    (k : Nat) (h : fd1 ≠ fd) :
    Map.find (do_unregister_handler s fd k).handlers_ fd1 = Map.find s.handlers_ fd1 := by
  rw [handlers_do_unregister_handler]
  split_ifs
  · rfl
  · rw [Map.find_erase_ne _ _ _ h, Map.find_assign_ne _ _ _ _ h]
  · rw [Map.find_assign_ne _ _ _ _ h]

theorem find_handlers_close_one_ne (acc : dispatcherselect × List Int) (fd fd1 : Int)
    (h : fd1 ≠ fd) :
    Map.find (close_one acc fd).1.handlers_ fd1 = Map.find acc.1.handlers_ fd1 := by
  unfold close_one
  split_ifs
  · rfl
  · simp only [find_handlers_do_unregister_handler_ne _ _ _ _ h]

theorem close_one_closed (acc : dispatcherselect × List Int) (fd : Int) :
    (close_one acc fd).2 =
      if Map.find acc.1.handlers_ fd = none then acc.2 else acc.2 ++ [fd] := by
  unfold close_one
  split_ifs <;> rfl

theorem find_handlers_close_one_ne_none (acc : dispatcherselect × List Int) (fd fd1 : Int)
    (h : Map.find (close_one acc fd).1.handlers_ fd1 ≠ none) :
    Map.find acc.1.handlers_ fd1 ≠ none := by
  by_cases e : fd1 = fd
  · subst e
    intro hn
    apply h
    simp [close_one, hn]
  · rw [find_handlers_close_one_ne acc fd fd1 e] at h
    exact h

theorem foldl_close_one_spec (s : dispatcherselect) (fds : List Int)
    (acc : dispatcherselect × List Int) (seen : List Int)
    (h1 : ∀ fd, fd ∉ seen → Map.find acc.1.handlers_ fd = Map.find s.handlers_ fd)
    (h3 : ∀ fd, Map.find acc.1.handlers_ fd ≠ none → Map.find s.handlers_ fd ≠ none)
    (h2 : ∀ fd, fd ∈ acc.2 ↔ fd ∈ seen ∧ Map.find s.handlers_ fd ≠ none) :
    ∀ fd, fd ∈ (fds.foldl close_one acc).2 ↔
      (fd ∈ seen ∨ fd ∈ fds) ∧ Map.find s.handlers_ fd ≠ none := by
  induction fds generalizing acc seen with
  | nil =>
    intro fd
    simpa using h2 fd
  | cons x rest ih =>
    intro fd
    have := ih (close_one acc x) (x :: seen)
      (by
        intro fd1 hfd1
        have hne : fd1 ≠ x := fun e => hfd1 (by rw [e]; exact List.mem_cons_self x seen)
        rw [find_handlers_close_one_ne acc x fd1 hne]
        exact h1 fd1 (fun hm => hfd1 (List.mem_cons_of_mem x hm)))
      (fun fd1 hfd1 => h3 fd1 (find_handlers_close_one_ne_none acc x fd1 hfd1))
      (by
        intro fd1
        rw [close_one_closed]
        by_cases hf : Map.find acc.1.handlers_ x = none
        · simp only [hf, if_true, List.mem_cons]
          rw [h2 fd1]
          by_cases e : fd1 = x
          · subst e
            by_cases hx : fd1 ∈ seen
            · simp [hx]
            · have := h1 fd1 hx
              rw [hf] at this
              simp [hx, ← this]
          · simp [e]
        · simp only [hf, if_false, List.mem_append, List.mem_singleton, List.mem_cons]
          rw [h2 fd1]
          by_cases e : fd1 = x
          · subst e
            simp [h3 fd1 hf]
          · simp [e])
      fd
    simp only [List.foldl_cons]
    rw [this]
    simp only [List.mem_cons]
    constructor
    · rintro ⟨(a | a) | a, b⟩
      · exact ⟨Or.inr (Or.inl a), b⟩
      · exact ⟨Or.inl a, b⟩
      · exact ⟨Or.inr (Or.inr a), b⟩
    · rintro ⟨a | a | a, b⟩
      · exact ⟨Or.inl (Or.inr a), b⟩
      · exact ⟨Or.inl (Or.inl a), b⟩
      · exact ⟨Or.inr a, b⟩

theorem process_pending_close_fds_closed (s : dispatcherselect) (fd : Int) :
    fd ∈ (process_pending_close_fds s).2 ↔
      fd ∈ s.pending_close_fds_ ∧ Map.find s.handlers_ fd ≠ none := by
  have := foldl_close_one_spec s s.pending_close_fds_ (s, []) []
    (fun _ _ => rfl) (fun _ h => h) (by simp) fd
  simpa [process_pending_close_fds] using this

end dispatcherselect

/-! ## Draining the operation queue -/

namespace dispatcherselect

theorem do_register_handler_set_queue (s : dispatcherselect) (q : List PendingOperation)
    (fd : Int) (k : Nat) (h : Option Nat) :
    do_register_handler { s with pending_operations_ := q } fd k h =
      { do_register_handler s fd k h with pending_operations_ := q } := by
  unfold do_register_handler
  dsimp only
  split_ifs <;> rfl

theorem rescan_max_fd_congr (s t : dispatcherselect) (h1 : s.read_fds = t.read_fds)
    (h2 : s.write_fds = t.write_fds) (h3 : s.except_fds = t.except_fds) :
    rescan_max_fd s = rescan_max_fd t := by
  unfold rescan_max_fd
  rw [h1, h2, h3]

theorem do_unregister_handler_set_queue (s : dispatcherselect) (q : List PendingOperation)
    (fd : Int) (k : Nat) :
    do_unregister_handler { s with pending_operations_ := q } fd k =
      { do_unregister_handler s fd k with pending_operations_ := q } := by
  unfold do_unregister_handler
  dsimp only
  split_ifs <;>
    first
    | (with_reducible congr 1; exact rescan_max_fd_congr _ _ rfl rfl rfl)
    | with_reducible rfl

theorem apply_op_set_queue (s : dispatcherselect) (q : List PendingOperation)
    (op : PendingOperation) :
    apply_op { s with pending_operations_ := q } op =
      { apply_op s op with pending_operations_ := q } := by
  obtain ⟨t, fd, k, h⟩ := op
  cases t
  · exact do_register_handler_set_queue s q fd k h
  · exact do_unregister_handler_set_queue s q fd k

theorem foldl_apply_op_set_queue (ops : List PendingOperation) (s : dispatcherselect)
    (q : List PendingOperation) :
    ops.foldl apply_op { s with pending_operations_ := q } =
      { ops.foldl apply_op s with pending_operations_ := q } := by
  induction ops generalizing s with
  | nil => rfl
  | cons op rest ih =>
    simp only [List.foldl_cons]
    rw [apply_op_set_queue, ih]

theorem drain_operations_set_queue (q : List PendingOperation) (s : dispatcherselect) :
    drain_operations { s with pending_operations_ := q } q =
      { q.foldl apply_op s with pending_operations_ := [] } := by
  induction q generalizing s with
  | nil => rfl
  | cons op rest ih =>
    have h : drain_operations { s with pending_operations_ := op :: rest } (op :: rest) =
        drain_operations (apply_op { s with pending_operations_ := rest } op) rest := rfl
    rw [h, apply_op_set_queue, ih]
    rfl

theorem drain_operations_eq_foldl (s : dispatcherselect) :
    drain_operations s s.pending_operations_ =
      { s.pending_operations_.foldl apply_op s with pending_operations_ := [] } := by
  have h := drain_operations_set_queue s.pending_operations_ s
  have e : ({ s with pending_operations_ := s.pending_operations_ } : dispatcherselect) = s := by
    cases s
    rfl
  rw [e] at h
  exact h

theorem pending_close_fds_apply_op (s : dispatcherselect) (op : PendingOperation) :
    (apply_op s op).pending_close_fds_ = s.pending_close_fds_ := by
  obtain ⟨t, fd, k, h⟩ := op
  cases t
  · exact pending_close_fds_do_register_handler s fd k h
  · exact pending_close_fds_do_unregister_handler s fd k

theorem pending_close_fds_foldl_apply_op (ops : List PendingOperation)
    (s : dispatcherselect) :
    (ops.foldl apply_op s).pending_close_fds_ = s.pending_close_fds_ := by
  induction ops generalizing s with
  | nil => rfl
  | cons op rest ih =>
    simp only [List.foldl_cons]
    rw [ih, pending_close_fds_apply_op]

theorem process_pending_close_fds_of_nil (s : dispatcherselect)
    (h : s.pending_close_fds_ = []) : process_pending_close_fds s = (s, []) := by
  unfold process_pending_close_fds
  rw [h]
  cases s
  simp only [List.foldl_nil] at *
  rw [h]

end dispatcherselect

namespace dispatcherepoll

theorem drain_operations_eq_foldlM (ops : List PendingOperation) (s : dispatcherepoll) :
    drain_operations s ops = ops.foldlM apply_op s := by
  induction ops generalizing s with
  | nil => rfl
  | cons op rest ih =>
    simp only [List.foldlM_cons, drain_operations]
    cases h : apply_op s op with
    | error e => rfl
    | ok s1 =>
      simp only [ih]
      rfl

theorem apply_op_queue (s s1 : dispatcherepoll) (op : PendingOperation)
    (hok : apply_op s op = Except.ok s1) :
    s1.pending_operations_ = s.pending_operations_ ∧ s1.wakeup_counter = s.wakeup_counter := by
  obtain ⟨t, fd, k, h⟩ := op
  cases t
  · obtain ⟨_, _, _, rfl⟩ := do_register_handler_ok s s1 fd k h hok
    exact ⟨rfl, rfl⟩
  · obtain ⟨_, h | h⟩ := do_unregister_handler_ok s s1 fd k hok
    · rw [h.2]
      exact ⟨rfl, rfl⟩
    · obtain ⟨_, _, _, rfl⟩ := h
      exact ⟨rfl, rfl⟩

theorem drain_operations_queue (ops : List PendingOperation) (s s1 : dispatcherepoll)
    (hok : drain_operations s ops = Except.ok s1) :
    s1.pending_operations_ = s.pending_operations_ ∧ s1.wakeup_counter = s.wakeup_counter := by
  induction ops generalizing s with
  | nil =>
    injection hok with e
    rw [← e]
    exact ⟨rfl, rfl⟩
  | cons op rest ih =>
    unfold drain_operations at hok
    cases h : apply_op s op with
    | error e => simp [h] at hok
    | ok s2 =>
      simp only [h] at hok
      obtain ⟨a, b⟩ := ih s2 hok
      obtain ⟨c, d⟩ := apply_op_queue s s2 op h
      exact ⟨a.trans c, b.trans d⟩

end dispatcherepoll

/-! ## The order of the callbacks of one fd -/

namespace dispatcherselect

theorem handlers_foldl_api (calls : List ApiCall) (s : dispatcherselect) :
    (calls.foldl api s).handlers_ = s.handlers_ := by
  induction calls generalizing s with
  | nil => rfl
  | cons c rest ih =>
    simp only [List.foldl_cons]
    rw [ih]
    cases c <;> rfl

theorem dispatch_one_registered {W : Type} (beh : Behaviour W) (r : Run W dispatcherselect)
    (fd : Int) (k : Nat) (h : Nat) (hl : lookup r.state fd k = some (some h))
    (hk : k = READ ∨ k = WRITE ∨ k = EXCEPTION) :
    ∃ r1 : Run W dispatcherselect,
      dispatch_one beh r (fd, k) = Except.ok r1 ∧
      r1.calls = r.calls ++ [⟨h, callback_of k, fd⟩] ∧
      r1.state.handlers_ = r.state.handlers_ := by
  obtain ⟨d1, d2, d3⟩ := kinds_distinct
  unfold lookup at hl
  unfold dispatch_one
  cases hf : Map.find r.state.handlers_ fd with
  | none => simp [hf] at hl
  | some inner =>
    simp only [hf] at hl
    simp only [hl, invoke]
    rcases hk with e | e | e
    · subst e
      exact ⟨_, by simp only [if_true]; rfl, rfl, handlers_foldl_api _ _⟩
    · subst e
      have : ¬ WRITE = READ := fun e => d1 e.symm
      exact ⟨_, by simp only [this, if_true, if_false]; rfl,
        by simp [callback_of, this], handlers_foldl_api _ _⟩
    · subst e
      have h1 : ¬ EXCEPTION = READ := fun e => d2 e.symm
      have h2 : ¬ EXCEPTION = WRITE := fun e => d3 e.symm
      exact ⟨_, by simp only [h1, h2, if_true, if_false]; rfl,
        by simp [callback_of, h1, h2], handlers_foldl_api _ _⟩

theorem dispatch_events_optional {W : Type} (beh : Behaviour W)
    (r : Run W dispatcherselect) (c : Prop) [Decidable c] (fd : Int) (k : Nat) (h : Nat)
    (rest : List (Int × Nat))
    (hl : c → lookup r.state fd k = some (some h))
    (hk : k = READ ∨ k = WRITE ∨ k = EXCEPTION) :
    ∃ r1 : Run W dispatcherselect,
      dispatch_events beh r ((if c then [(fd, k)] else []) ++ rest) =
        dispatch_events beh r1 rest ∧
      r1.calls = r.calls ++ (if c then [⟨h, callback_of k, fd⟩] else []) ∧
      r1.state.handlers_ = r.state.handlers_ := by
  by_cases hc : c
  · obtain ⟨r1, h1, h2, h3⟩ := dispatch_one_registered beh r fd k h (hl hc) hk
    refine ⟨r1, ?_, by simp [hc, h2], h3⟩
    simp only [hc, if_true, List.singleton_append, dispatch_events, h1]
  · exact ⟨r, by simp [hc], by simp [hc], rfl⟩

end dispatcherselect

namespace dispatcherepoll

theorem run_callbacks_calls_eq {W : Type} (beh : Behaviour W) (r r1 : Run W dispatcherepoll)
    (h : Nat) (events : Nat) (fd : Int)
    (hok : run_callbacks beh r h events fd = Except.ok r1) :
    r1.calls = r.calls ++
      (if events &&& EPOLLIN ≠ 0 then [⟨h, Callback.handle_read, fd⟩] else []) ++
      (if events &&& EPOLLOUT ≠ 0 then [⟨h, Callback.handle_write, fd⟩] else []) ++
      (if events &&& (EPOLLERR ||| EPOLLHUP) ≠ 0 then [⟨h, Callback.handle_exception, fd⟩]
       else []) := by
  unfold run_callbacks at hok
  have step : ∀ (c : Prop) [Decidable c] (cb : Callback) (a b : Run W dispatcherepoll),
      (if c then invoke beh a h cb fd else Except.ok a) = Except.ok b →
      b.calls = a.calls ++ (if c then [⟨h, cb, fd⟩] else []) := by
    intro c _ cb a b hb
    split_ifs at hb with hc
    · simp only [hc, if_true]
      exact invoke_calls beh a b h cb fd hb
    · injection hb with e
      simp only [hc, if_false, List.append_nil]
      rw [← e]
  cases h1 : (if events &&& EPOLLIN ≠ 0 then invoke beh r h Callback.handle_read fd
      else Except.ok r) with
  | error e => simp [h1] at hok
  | ok ra =>
    simp only [h1] at hok
    have a1 := step _ _ r ra h1
    cases h2 : (if events &&& EPOLLOUT ≠ 0 then invoke beh ra h Callback.handle_write fd
        else Except.ok ra) with
    | error e => simp [h2] at hok
    | ok rb =>
      simp only [h2] at hok
      have a2 := step _ _ ra rb h2
      have a3 := step _ _ rb r1 hok
      rw [a3, a2, a1]

end dispatcherepoll

/-! ## The epoll dispatcher: operations that throw -/

namespace dispatcherepoll

theorem do_register_handler_null (s : dispatcherepoll) (fd : Int) (k : Nat) :
    do_register_handler s fd k none = Except.error Exn.invalid_argument := by
  simp [do_register_handler]

theorem do_register_handler_refused (s : dispatcherepoll) (fd : Int) (k : Nat)
    (h : Option Nat) (hfd : 0 ≤ fd) (hh : h ≠ none) (href : fd ∈ s.refused) :
    do_register_handler s fd k h = Except.error Exn.system_error := by
  unfold do_register_handler
  have hbad : ¬ (fd < 0 ∨ h = none) := by
    push_neg
    exact ⟨hfd, hh⟩
  have hne : ¬ EBADF = EEXIST := by decide
  simp only [hbad, if_false, epoll_ctl, href, if_true, hne, and_false]

theorem do_unregister_handler_refused (s : dispatcherepoll) (fd : Int) (k : Nat)
    (hfd : 0 ≤ fd) (hr : registered s fd) (href : fd ∈ s.refused) :
    do_unregister_handler s fd k = Except.error Exn.system_error := by
  unfold registered at hr
  unfold do_unregister_handler
  simp [not_lt.mpr hfd, hr, epoll_ctl, href]

theorem loop_iteration_wakeup_error {W : Type} (beh : Behaviour W)
    (r : Run W dispatcherepoll) (e : Exn) (events : Nat) (rest : List epoll_event)
    (h : handle_wakeup r.state = Except.error e) :
    loop_iteration beh r (some (⟨events, epoll_data.ptr_this⟩ :: rest)) = Except.error e := by
  simp [loop_iteration, dispatch_active_events, dispatch_events, dispatch_one, h]

theorem invoke_client_exception {W : Type} (beh : Behaviour W) (r r1 : Run W dispatcherepoll)
    (h : Nat) (fd : Int) (on_read_callback : Option (W → Int → W × List ApiCall))
    (hbeh : ∀ (w : W) (cb : Callback) (fd1 : Int),
      beh w h cb fd1 = client_event_handler on_read_callback w cb fd1)
    (hok : invoke beh r h Callback.handle_exception fd = Except.ok r1) :
    r1.state.loop_running = false := by
  unfold invoke at hok
  rw [hbeh] at hok
  simp only [client_event_handler, api_calls, api] at hok
  injection hok with e
  rw [← e]
  rfl

end dispatcherepoll

/-! ## The epoll acceptor: how a drain ends -/

namespace epoll_event_handler

theorem drain_front (fd : Int) (b : List Char) (front : List (List Char))
    (rest : List ReadResult) (hfront : ∀ c ∈ front, c ≠ [])
    (hnot : ¬ CRLFCRLF <:+: b ++ front.flatten) :
    drain fd b (front.map ReadResult.bytes ++ rest) = drain fd (b ++ front.flatten) rest := by
  induction front generalizing b with
  | nil => simp
  | cons c more ih =>
    have hlen : c.length > 0 := List.length_pos.mpr (hfront c (List.mem_cons_self c more))
    have hnc : ¬ CRLFCRLF <:+: b ++ c := by
      intro h
      apply hnot
      have := contains_mono (b ++ c) more.flatten h
      simpa using this
    have hf : ¬ string_find (b ++ c) CRLFCRLF ≠ none :=
      fun h => hnc ((string_find_ne_none _ _).mp h)
    have hd : drain fd b ((c :: more).map ReadResult.bytes ++ rest) =
        drain fd (b ++ c) (more.map ReadResult.bytes ++ rest) := by
      simp only [List.map_cons, List.cons_append, drain, hlen, if_true, hf, if_false]
      rfl
    rw [hd, ih (b ++ c) (fun x hx => hfront x (List.mem_cons_of_mem c hx))
      (by simpa using hnot)]
    simp

end epoll_event_handler

/-! ## Event kinds and epoll event masks -/

namespace dispatcherepoll

theorem has_event_mask (k f : Nat) (hf : 31 &&& f = f) :
    has_event k f = has_event (k &&& 31) f := by
  unfold has_event
  rw [Nat.and_assoc, hf]

theorem convert_to_epoll_events_mask (k : Nat) :
    convert_to_epoll_events k = convert_to_epoll_events (k &&& 31) := by
  unfold convert_to_epoll_events
  rw [has_event_mask k READ (by decide), has_event_mask k WRITE (by decide),
    has_event_mask k EXCEPTION (by decide), has_event_mask k EDGE_TRIGGERED (by decide),
    has_event_mask k HANGUP (by decide)]

theorem mask_lt (k : Nat) : k &&& 31 < 32 :=
  Nat.lt_succ_of_le Nat.and_le_right

set_option maxRecDepth 100000 in
theorem convert_to_epoll_events_lor_small : ∀ m < 32, ∀ n < 32,
    convert_to_epoll_events (m ||| n) =
      convert_to_epoll_events m ||| convert_to_epoll_events n := by
  decide

set_option maxRecDepth 100000 in
theorem convert_to_epoll_events_union_small : ∀ m < 32,
    convert_to_epoll_events m =
      (if has_event m READ then EPOLLIN else 0) |||
      (if has_event m WRITE then EPOLLOUT else 0) |||
      (if has_event m EXCEPTION then EPOLLERR ||| EPOLLHUP else 0) |||
      (if has_event m HANGUP then EPOLLHUP else 0) |||
      (if has_event m EDGE_TRIGGERED then EPOLLET else 0) := by
  decide

set_option maxRecDepth 100000 in
theorem convert_to_epoll_events_edge_small : ∀ m < 32,
    (convert_to_epoll_events m &&& EPOLLET ≠ 0 ↔ has_event m EDGE_TRIGGERED = true) := by
  decide

end dispatcherepoll

namespace dispatcherselect

theorem handlers_do_register_handler (s : dispatcherselect) (fd : Int) (k : Nat)
    (h : Option Nat) :
    (do_register_handler s fd k h).handlers_ =
      if k = READ ∨ k = WRITE ∨ k = EXCEPTION then
        Map.assign fd (Map.assign k h (Map.index s.handlers_ fd [])) s.handlers_
      else s.handlers_ := by
  unfold do_register_handler
  by_cases e1 : k = READ
  · simp only [e1, if_true, true_or]
    split_ifs <;> rfl
  · by_cases e2 : k = WRITE
    · simp only [e1, e2, if_true, if_false, true_or, or_true]
      split_ifs <;> rfl
    · by_cases e3 : k = EXCEPTION
      · simp only [e1, e2, e3, if_true, if_false, or_true]
        split_ifs <;> rfl
      · simp only [e1, e2, e3, if_false, or_self]
        split_ifs <;> rfl

theorem base_kind_with_edge (k : Nat) (hk : k = READ ∨ k = WRITE ∨ k = EXCEPTION) :
    ¬ (k ||| EDGE_TRIGGERED = READ ∨ k ||| EDGE_TRIGGERED = WRITE ∨
       k ||| EDGE_TRIGGERED = EXCEPTION) := by
  rcases hk with e | e | e <;> subst e <;> decide

end dispatcherselect

/-! ## The flag operators -/

theorem flag_mask (f : Nat) (hf : f ∈ [READ, WRITE, HANGUP, EDGE_TRIGGERED, EXCEPTION]) :
    31 &&& f = f := by
  simp only [List.mem_cons, List.mem_singleton, List.not_mem_nil, or_false] at hf
  rcases hf with h | h | h | h | h <;> subst h <;> decide

theorem and_mask_and (a b : Nat) : (a &&& b) &&& 31 = (a &&& 31) &&& (b &&& 31) := by
  apply Nat.eq_of_testBit_eq
  intro i
  simp only [Nat.testBit_and]
  cases a.testBit i <;> cases b.testBit i <;> cases (31 : Nat).testBit i <;> rfl

set_option maxRecDepth 100000 in
theorem has_event_or_small : ∀ m < 32, ∀ n < 32,
    ∀ f ∈ [READ, WRITE, HANGUP, EDGE_TRIGGERED, EXCEPTION],
      (has_event (m ||| n) f = true ↔ has_event m f = true ∨ has_event n f = true) := by
  decide

set_option maxRecDepth 100000 in
theorem has_event_and_small : ∀ m < 32, ∀ n < 32,
    ∀ f ∈ [READ, WRITE, HANGUP, EDGE_TRIGGERED, EXCEPTION],
      (has_event (m &&& n) f = true ↔ has_event m f = true ∧ has_event n f = true) := by
  decide

/-! ## The wakeup counter -/

namespace dispatcherepoll

theorem wakeup_eq (s : dispatcherepoll) :
    wakeup s = { s with wakeup_counter := (wakeup s).wakeup_counter } := by
  unfold wakeup
  split_ifs <;> rfl

theorem wakeup_counter_pos (s : dispatcherepoll) : 0 < (wakeup s).wakeup_counter := by
  unfold wakeup
  split_ifs with h
  · exact Nat.succ_pos _
  · show 0 < s.wakeup_counter
    omega

theorem iterate_wakeup_eq (N : Nat) (s : dispatcherepoll) :
    Nat.iterate wakeup N s =
      { s with wakeup_counter := (Nat.iterate wakeup N s).wakeup_counter } := by
  induction N generalizing s with
  | zero => rfl
  | succ n ih =>
    rw [Function.iterate_succ_apply]
    have h1 := ih (wakeup s)
    have h2 := wakeup_eq s
    rw [h1]
    rw [h2]

theorem eventfd_read_zero : eventfd_read 0 = (none, 0) := rfl

theorem eventfd_read_pos (c : Nat) (h : c ≠ 0) : eventfd_read c = (some c, 0) := by
  unfold eventfd_read
  rw [if_neg h]

theorem read_wakeup_fd_zero : read_wakeup_fd 0 = 0 := by
  rw [read_wakeup_fd, eventfd_read_zero]
  simp

theorem read_wakeup_fd_eq (c : Nat) : read_wakeup_fd c = 0 := by
  by_cases h : c = 0
  · rw [h]
    exact read_wakeup_fd_zero
  · rw [read_wakeup_fd, eventfd_read_pos c h]
    simp only [reduceCtorEq, dite_false]
    exact read_wakeup_fd_zero

theorem handle_wakeup_eq (s : dispatcherepoll) :
    handle_wakeup s =
      drain_operations { s with wakeup_counter := 0, pending_operations_ := [] }
        s.pending_operations_ := by
  unfold handle_wakeup
  rw [read_wakeup_fd_eq]

theorem handle_wakeup_set_counter (s : dispatcherepoll) (c : Nat) :
    handle_wakeup { s with wakeup_counter := c } = handle_wakeup s := by
  rw [handle_wakeup_eq, handle_wakeup_eq]

end dispatcherepoll

/-! ## The select dispatcher: `max_fd` -/

theorem foldl_max_spec (P : Nat → Prop) [DecidablePred P] (n : Nat) :
    (∀ i, i < n → P i →
      (i : Int) ≤ (List.range n).foldl (fun m i => if P i then max m (i : Int) else m) 0) ∧
    ((List.range n).foldl (fun m i => if P i then max m (i : Int) else m) 0 = 0 ∨
      ∃ i, i < n ∧ P i ∧
        (List.range n).foldl (fun m i => if P i then max m (i : Int) else m) 0 = (i : Int)) := by
  induction n with
  | zero => exact ⟨fun i hi => absurd hi (Nat.not_lt_zero i), Or.inl rfl⟩
  | succ n ih =>
    simp only [List.range_succ, List.foldl_append, List.foldl_cons, List.foldl_nil]
    obtain ⟨ih1, ih2⟩ := ih
    generalize (List.range n).foldl (fun m i => if P i then max m (i : Int) else m) 0 = r
      at ih1 ih2 ⊢
    by_cases hp : P n
    · simp only [hp, if_true]
      constructor
      · intro i hi hpi
        rcases Nat.lt_succ_iff_lt_or_eq.mp hi with h | h
        · exact le_trans (ih1 i h hpi) (le_max_left _ _)
        · subst h
          exact le_max_right _ _
      · right
        rcases le_total r (n : Int) with h | h
        · exact ⟨n, Nat.lt_succ_self n, hp, max_eq_right h⟩
        · rw [max_eq_left h]
          rcases ih2 with h0 | ⟨i, hi, hpi, e⟩
          · exact ⟨n, Nat.lt_succ_self n, hp, by omega⟩
          · exact ⟨i, Nat.lt_succ_of_lt hi, hpi, e⟩
    · simp only [hp, if_false]
      constructor
      · intro i hi hpi
        rcases Nat.lt_succ_iff_lt_or_eq.mp hi with h | h
        · exact ih1 i h hpi
        · subst h
          exact absurd hpi hp
      · rcases ih2 with h0 | ⟨i, hi, hpi, e⟩
        · exact Or.inl h0
        · exact Or.inr ⟨i, Nat.lt_succ_of_lt hi, hpi, e⟩

namespace dispatcherselect

theorem mem_monitored (s : dispatcherselect) (fd : Int) :
    fd ∈ monitored s ↔ fd ∈ s.read_fds ∨ fd ∈ s.write_fds ∨ fd ∈ s.except_fds := by
  simp [monitored, or_assoc]

theorem rescan_max_fd_eq (s : dispatcherselect) :
    rescan_max_fd s = (List.range FD_SETSIZE).foldl
      (fun m i =>
        if (fun i : Nat => (i : Int) ∈ s.read_fds ∨ (i : Int) ∈ s.write_fds ∨
            (i : Int) ∈ s.except_fds) i
        then max m (i : Int) else m) 0 := by
  unfold rescan_max_fd
  with_reducible rfl

theorem rescan_max_fd_ge (s : dispatcherselect) (fd : Int) (h : fd ∈ monitored s)
    (h0 : 0 ≤ fd) (h1 : fd < (FD_SETSIZE : Int)) : fd ≤ rescan_max_fd s := by
  have key := (foldl_max_spec
    (fun i : Nat => (i : Int) ∈ s.read_fds ∨ (i : Int) ∈ s.write_fds ∨ (i : Int) ∈ s.except_fds)
    FD_SETSIZE).1 fd.toNat ((Int.toNat_lt h0).mpr h1)
  have e : ((fd.toNat : Nat) : Int) = fd := Int.toNat_of_nonneg h0
  rw [← rescan_max_fd_eq s, e] at key
  exact key ((mem_monitored s fd).mp h)

theorem rescan_max_fd_mem (s : dispatcherselect) :
    rescan_max_fd s = 0 ∨ rescan_max_fd s ∈ monitored s := by
  have key := (foldl_max_spec
    (fun i : Nat => (i : Int) ∈ s.read_fds ∨ (i : Int) ∈ s.write_fds ∨ (i : Int) ∈ s.except_fds)
    FD_SETSIZE).2
  rw [← rescan_max_fd_eq s] at key
  rcases key with h | ⟨i, _, hp, e⟩
  · exact Or.inl h
  · right
    rw [e]
    exact (mem_monitored s i).mpr hp

theorem max_fd_do_register_handler (s : dispatcherselect) (fd : Int) (k : Nat)
    (h : Option Nat) :
    (do_register_handler s fd k h).max_fd = if fd > s.max_fd then fd else s.max_fd := by
  unfold do_register_handler
  by_cases h1 : k = READ
  · simp only [h1, if_true]
    split_ifs <;> rfl
  · by_cases h2 : k = WRITE
    · simp only [h1, h2, if_true, if_false]
      split_ifs <;> rfl
    · by_cases h3 : k = EXCEPTION
      · simp only [h1, h2, h3, if_true, if_false]
        split_ifs <;> rfl
      · simp only [h1, h2, h3, if_false]
        split_ifs <;> rfl

theorem do_unregister_handler_of_none (s : dispatcherselect) (fd : Int) (k : Nat)
    (h : Map.find s.handlers_ fd = none) : do_unregister_handler s fd k = s := by
  unfold do_unregister_handler
  rw [if_pos h]

theorem max_fd_do_unregister_handler (s : dispatcherselect) (fd : Int) (k : Nat)
    (h : Map.find s.handlers_ fd ≠ none) :
    (fd ≠ s.max_fd → (do_unregister_handler s fd k).max_fd = s.max_fd) ∧
    (fd = s.max_fd →
      (do_unregister_handler s fd k).max_fd = rescan_max_fd (do_unregister_handler s fd k)) := by
  unfold do_unregister_handler
  rw [if_neg h]
  dsimp only
  constructor
  · intro hne
    split_ifs <;> rfl
  · intro he
    split_ifs <;> (dsimp only; with_reducible exact rescan_max_fd_congr _ _ rfl rfl rfl)

theorem mem_monitored_do_register_handler (s : dispatcherselect) (fd : Int) (k : Nat)
    (h : Option Nat) (x : Int) :
    x ∈ monitored (do_register_handler s fd k h) ↔
      ((k = READ ∨ k = WRITE ∨ k = EXCEPTION) ∧ x = fd) ∨ x ∈ monitored s := by
  obtain ⟨d1, d2, d3⟩ := kinds_distinct
  rw [mem_monitored, mem_monitored, read_fds_do_register_handler,
    write_fds_do_register_handler, except_fds_do_register_handler]
  by_cases h1 : k = READ
  · subst h1
    simp only [if_true, if_neg d1, if_neg d2, Finset.mem_insert]
    tauto
  · by_cases h2 : k = WRITE
    · subst h2
      simp only [if_true, if_neg h1, if_neg d3, Finset.mem_insert]
      tauto
    · by_cases h3 : k = EXCEPTION
      · subst h3
        simp only [if_true, if_neg h1, if_neg h2, Finset.mem_insert]
        tauto
      · simp only [if_neg h1, if_neg h2, if_neg h3]
        tauto

theorem mem_monitored_do_unregister_handler (s : dispatcherselect) (fd : Int) (k : Nat)
    (x : Int) :
    (x ∈ monitored (do_unregister_handler s fd k) → x ∈ monitored s) ∧
    (x ≠ fd → x ∈ monitored s → x ∈ monitored (do_unregister_handler s fd k)) := by
  rw [mem_monitored, mem_monitored, read_fds_do_unregister_handler,
    write_fds_do_unregister_handler, except_fds_do_unregister_handler]
  constructor
  · intro hx
    rcases hx with hx | hx | hx
    · left
      split_ifs at hx
      · exact Finset.mem_of_mem_erase hx
      · exact hx
    · right; left
      split_ifs at hx
      · exact Finset.mem_of_mem_erase hx
      · exact hx
    · right; right
      split_ifs at hx
      · exact Finset.mem_of_mem_erase hx
      · exact hx
  · intro hne hx
    rcases hx with hx | hx | hx
    · left
      split_ifs
      · exact Finset.mem_erase.mpr ⟨hne, hx⟩
      · exact hx
    · right; left
      split_ifs
      · exact Finset.mem_erase.mpr ⟨hne, hx⟩
      · exact hx
    · right; right
      split_ifs
      · exact Finset.mem_erase.mpr ⟨hne, hx⟩
      · exact hx

theorem covered_do_register_handler (s : dispatcherselect) (fd : Int) (k : Nat)
    (h : Option Nat) (h0 : 0 ≤ fd) (h1 : fd < (FD_SETSIZE : Int)) (hs : covered s) :
    covered (do_register_handler s fd k h) := by
  intro x hx
  rw [mem_monitored_do_register_handler] at hx
  rw [max_fd_do_register_handler]
  rcases hx with ⟨_, rfl⟩ | hx
  · refine ⟨h0, h1, ?_⟩
    split_ifs with c
    · exact le_refl _
    · exact not_lt.mp c
  · obtain ⟨a, b, c⟩ := hs x hx
    refine ⟨a, b, ?_⟩
    split_ifs with c1
    · exact le_of_lt (lt_of_le_of_lt c c1)
    · exact c

theorem covered_do_unregister_handler (s : dispatcherselect) (fd : Int) (k : Nat)
    (hs : covered s) : covered (do_unregister_handler s fd k) := by
  by_cases hf : Map.find s.handlers_ fd = none
  · rw [do_unregister_handler_of_none s fd k hf]
    exact hs
  · intro x hx
    have hx0 := (mem_monitored_do_unregister_handler s fd k x).1 hx
    obtain ⟨a, b, c⟩ := hs x hx0
    refine ⟨a, b, ?_⟩
    by_cases e : fd = s.max_fd
    · rw [(max_fd_do_unregister_handler s fd k hf).2 e]
      exact rescan_max_fd_ge _ x hx a b
    · rw [(max_fd_do_unregister_handler s fd k hf).1 e]
      exact c

theorem tight_do_register_handler (s : dispatcherselect) (fd : Int) (k : Nat)
    (h : Option Nat) (hk : k = READ ∨ k = WRITE ∨ k = EXCEPTION) (h0 : 0 ≤ fd)
    (ht : tight s) : tight (do_register_handler s fd k h) := by
  constructor
  · intro _
    rw [max_fd_do_register_handler, mem_monitored_do_register_handler]
    split_ifs with c
    · exact Or.inl ⟨hk, rfl⟩
    · by_cases he : monitored s = ∅
      · have h2 := ht.2 he
        have h3 : fd ≤ s.max_fd := not_lt.mp c
        exact Or.inl ⟨hk, le_antisymm (le_trans h2 h0) h3⟩
      · exact Or.inr (ht.1 he)
  · intro he
    exfalso
    have hm : fd ∈ monitored (do_register_handler s fd k h) :=
      (mem_monitored_do_register_handler s fd k h fd).mpr (Or.inl ⟨hk, rfl⟩)
    rw [he] at hm
    exact absurd hm (Finset.not_mem_empty _)

theorem tight_do_unregister_handler (s : dispatcherselect) (fd : Int) (k : Nat)
    (hc : covered s) (ht : tight s) : tight (do_unregister_handler s fd k) := by
  by_cases hf : Map.find s.handlers_ fd = none
  · rw [do_unregister_handler_of_none s fd k hf]
    exact ht
  · by_cases e : fd = s.max_fd
    · have hm := (max_fd_do_unregister_handler s fd k hf).2 e
      constructor
      · intro hne
        rw [hm]
        rcases rescan_max_fd_mem (do_unregister_handler s fd k) with h0 | h1
        · obtain ⟨x, hx⟩ := Finset.nonempty_iff_ne_empty.mpr hne
          have hx0 := (mem_monitored_do_unregister_handler s fd k x).1 hx
          obtain ⟨a, b, _⟩ := hc x hx0
          have hge := rescan_max_fd_ge _ x hx a b
          rw [h0] at hge
          have hx1 : x = 0 := le_antisymm hge a
          rw [h0, ← hx1]
          exact hx
        · exact h1
      · intro he
        rw [hm]
        rcases rescan_max_fd_mem (do_unregister_handler s fd k) with h0 | h1
        · rw [h0]
        · rw [he] at h1
          exact absurd h1 (Finset.not_mem_empty _)
    · have hm := (max_fd_do_unregister_handler s fd k hf).1 e
      have keep : monitored s ≠ ∅ → s.max_fd ∈ monitored (do_unregister_handler s fd k) :=
        fun hs => (mem_monitored_do_unregister_handler s fd k _).2 (Ne.symm e) (ht.1 hs)
      constructor
      · intro hne
        rw [hm]
        apply keep
        intro hs
        obtain ⟨x, hx⟩ := Finset.nonempty_iff_ne_empty.mpr hne
        have hx0 := (mem_monitored_do_unregister_handler s fd k x).1 hx
        rw [hs] at hx0
        exact absurd hx0 (Finset.not_mem_empty _)
      · intro he
        rw [hm]
        by_cases hs : monitored s = ∅
        · exact ht.2 hs
        · exfalso
          have hk := keep hs
          rw [he] at hk
          exact absurd hk (Finset.not_mem_empty _)

theorem exists_find_of_ne_nil (m : List (Nat × Option Nat)) (h : m ≠ []) :
    ∃ k, Map.find m k ≠ none := by
  cases m with
  | nil => exact absurd rfl h
  | cons p t =>
    obtain ⟨a, b⟩ := p
    exact ⟨a, by simp [Map.find]⟩

theorem keyed_init : keyed init := by
  constructor
  · intro fd k hr
    exact absurd rfl hr
  · intro fd hf
    exact absurd rfl hf

theorem keyed_do_register_handler (s : dispatcherselect) (fd : Int) (k : Nat)
    (h : Option Nat) (hs : keyed s) : keyed (do_register_handler s fd k h) := by
  constructor
  · intro fd1 k1 hr
    unfold registered at hr
    rw [lookup_do_register_handler] at hr
    split_ifs at hr with c
    · rw [c.2.2]
      exact c.1
    · exact hs.1 fd1 k1 hr
  · intro fd1 hf
    by_cases hk : k = READ ∨ k = WRITE ∨ k = EXCEPTION
    · by_cases e : fd1 = fd
      · subst e
        refine ⟨k, ?_⟩
        unfold registered
        rw [lookup_do_register_handler, if_pos ⟨hk, rfl, rfl⟩]
        exact Option.some_ne_none _
      · rw [handlers_do_register_handler, if_pos hk, Map.find_assign_ne fd fd1 _ _ e] at hf
        obtain ⟨k1, hk1⟩ := hs.2 fd1 hf
        refine ⟨k1, ?_⟩
        unfold registered
        rw [lookup_do_register_handler, if_neg (fun c => e c.2.1)]
        exact hk1
    · rw [handlers_do_register_handler, if_neg hk] at hf
      obtain ⟨k1, hk1⟩ := hs.2 fd1 hf
      refine ⟨k1, ?_⟩
      unfold registered
      rw [lookup_do_register_handler, if_neg (fun c => hk c.1)]
      exact hk1

theorem keyed_do_unregister_handler (s : dispatcherselect) (fd : Int) (k : Nat)
    (hs : keyed s) : keyed (do_unregister_handler s fd k) := by
  constructor
  · intro fd1 k1 hr
    unfold registered at hr
    rw [lookup_do_unregister_handler] at hr
    split_ifs at hr with c
    · exact absurd rfl hr
    · exact hs.1 fd1 k1 hr
  · intro fd1 hf
    by_cases e : fd1 = fd
    · subst e
      by_cases h0 : Map.find s.handlers_ fd1 = none
      · rw [do_unregister_handler_of_none s fd1 k h0] at hf
        exact absurd h0 hf
      · rw [handlers_do_unregister_handler, if_neg h0] at hf
        have hi : Map.index (Map.assign fd1 (Map.erase k (Map.index s.handlers_ fd1 []))
            s.handlers_) fd1 [] = Map.erase k (Map.index s.handlers_ fd1 []) := by
          simp [Map.index, Map.find_assign_self]
        rw [hi] at hf
        split_ifs at hf with c
        · exact absurd (Map.find_erase_self _ _) hf
        · obtain ⟨k1, hk1⟩ := exists_find_of_ne_nil _ c
          have hne : k1 ≠ k := by
            intro e1
            rw [e1] at hk1
            exact hk1 (Map.find_erase_self _ _)
          rw [Map.find_erase_ne k k1 _ hne] at hk1
          refine ⟨k1, ?_⟩
          unfold registered
          rw [lookup_do_unregister_handler, if_neg (fun c1 => hne c1.2)]
          unfold lookup
          cases hfind : Map.find s.handlers_ fd1 with
          | none => exact absurd hfind h0
          | some inner =>
            simp only [Map.index, hfind, Option.getD_some] at hk1
            exact hk1
    · rw [find_handlers_do_unregister_handler_ne s fd fd1 k e] at hf
      obtain ⟨k1, hk1⟩ := hs.2 fd1 hf
      refine ⟨k1, ?_⟩
      unfold registered
      rw [lookup_do_unregister_handler, if_neg (fun c => e c.1)]
      exact hk1

theorem invariant_close_one (I : dispatcherselect → Prop)
    (hu : ∀ s fd k, I s → I (do_unregister_handler s fd k))
    (acc : dispatcherselect × List Int) (fd : Int) (hs : I acc.1) :
    I (close_one acc fd).1 := by
  unfold close_one
  split_ifs
  · exact hs
  · exact hu _ _ _ (hu _ _ _ (hu _ _ _ hs))

theorem invariant_foldl_close_one (I : dispatcherselect → Prop)
    (hu : ∀ s fd k, I s → I (do_unregister_handler s fd k))
    (fds : List Int) (acc : dispatcherselect × List Int) (hs : I acc.1) :
    I (fds.foldl close_one acc).1 := by
  induction fds generalizing acc with
  | nil => exact hs
  | cons fd rest ih => exact ih _ (invariant_close_one I hu acc fd hs)

theorem invariant_exec (I : dispatcherselect → Prop) (P : Action → Prop)
    (hr : ∀ s op, P (Action.apply op) → op.type = OpType.REGISTER → I s →
      I (do_register_handler s op.fd op.event_type op.handler))
    (hu : ∀ s fd k, I s → I (do_unregister_handler s fd k))
    (hp : ∀ (s : dispatcherselect) (l : List Int), I s → I { s with pending_close_fds_ := l })
    (history : List Action) (hP : ∀ a ∈ history, P a) (s : dispatcherselect) (hs : I s) :
    I (exec s history) := by
  induction history generalizing s with
  | nil => exact hs
  | cons a rest ih =>
    have hrest : ∀ b ∈ rest, P b := fun b hb => hP b (List.mem_cons_of_mem a hb)
    have ha : P a := hP a (List.mem_cons_self a rest)
    show I (exec (step s a) rest)
    apply ih hrest
    cases a with
    | apply op =>
      obtain ⟨t, fd, k, h⟩ := op
      cases t
      · exact hr s ⟨OpType.REGISTER, fd, k, h⟩ ha rfl hs
      · exact hu s fd k hs
    | close_fd_safely fd => exact hp s _ hs
    | close_pass =>
      exact hp _ [] (invariant_foldl_close_one I hu s.pending_close_fds_ (s, []) hs)

theorem covered_exec (history : List Action) (hP : ∀ a ∈ history, Action.in_range a = true) :
    covered (exec init history) := by
  refine invariant_exec covered (fun a => Action.in_range a = true) ?_ ?_ ?_ history hP init ?_
  · intro s op hop ht hs
    have h := of_decide_eq_true hop ht
    exact covered_do_register_handler s _ _ _ h.1 h.2 hs
  · intro s fd k hs
    exact covered_do_unregister_handler s fd k hs
  · intro s l hs
    exact hs
  · intro fd hfd
    exact absurd hfd (Finset.not_mem_empty _)

theorem tight_exec (history : List Action)
    (hP : ∀ a ∈ history, Action.in_range a = true ∧ Action.base_kind a = true) :
    covered (exec init history) ∧ tight (exec init history) := by
  refine invariant_exec (fun s => covered s ∧ tight s)
    (fun a => Action.in_range a = true ∧ Action.base_kind a = true) ?_ ?_ ?_ history hP init ?_
  · intro s op hop ht hs
    have h := of_decide_eq_true hop.1 ht
    have hk := of_decide_eq_true hop.2 ht
    exact ⟨covered_do_register_handler s _ _ _ h.1 h.2 hs.1,
      tight_do_register_handler s _ _ _ hk h.1 hs.2⟩
  · intro s fd k hs
    exact ⟨covered_do_unregister_handler s fd k hs.1,
      tight_do_unregister_handler s fd k hs.1 hs.2⟩
  · intro s l hs
    exact hs
  · constructor
    · intro fd hfd
      exact absurd hfd (Finset.not_mem_empty _)
    · constructor
      · intro hne
        exact absurd rfl hne
      · intro _
        decide

theorem keyed_exec (history : List Action) : keyed (exec init history) :=
  invariant_exec keyed (fun _ => True)
    (fun s _ _ _ hs => keyed_do_register_handler s _ _ _ hs)
    (fun s fd k hs => keyed_do_unregister_handler s fd k hs)
    (fun _ _ hs => hs) history (fun _ _ => trivial) init keyed_init

theorem interest_subset_monitored (s : dispatcherselect) (fd : Int) (k : Nat)
    (h : fd ∈ interest s k) : fd ∈ monitored s := by
  rw [mem_monitored]
  unfold interest at h
  split_ifs at h
  · exact Or.inl h
  · exact Or.inr (Or.inl h)
  · exact Or.inr (Or.inr h)
  · exact absurd h (Finset.not_mem_empty _)

theorem close_one_absent (acc : dispatcherselect × List Int) (fd : Int)
    (hc : consistent acc.1) (hk : keyed acc.1)
    (hf : Map.find acc.1.handlers_ fd ≠ none) :
    Map.find (close_one acc fd).1.handlers_ fd = none ∧
    fd ∉ (close_one acc fd).1.read_fds ∧ fd ∉ (close_one acc fd).1.write_fds ∧
    fd ∉ (close_one acc fd).1.except_fds := by
  obtain ⟨d1, d2, d3⟩ := kinds_distinct
  have hc1 := consistent_close_one acc fd hc
  have hk1 := invariant_close_one keyed keyed_do_unregister_handler acc fd hk
  have hl : ∀ k, k = READ ∨ k = WRITE ∨ k = EXCEPTION →
      lookup (close_one acc fd).1 fd k = none := by
    intro k hkind
    unfold close_one
    rw [if_neg hf]
    show lookup (do_unregister_handler _ fd EXCEPTION) fd k = none
    rw [lookup_do_unregister_handler, lookup_do_unregister_handler,
      lookup_do_unregister_handler]
    rcases hkind with h | h | h <;> subst h <;> simp [d1, d2, d3, Ne.symm d2, Ne.symm d3]
  have hnone : Map.find (close_one acc fd).1.handlers_ fd = none := by
    by_contra hne
    obtain ⟨k, hr⟩ := hk1.2 fd hne
    exact hr (hl k (hk1.1 fd k hr))
  have hbit : ∀ k, k = READ ∨ k = WRITE ∨ k = EXCEPTION →
      fd ∉ interest (close_one acc fd).1 k := by
    intro k hkind hm
    exact ((hc1 fd k hkind).mpr hm) (hl k hkind)
  refine ⟨hnone, ?_, ?_, ?_⟩
  · exact hbit READ (Or.inl rfl)
  · have := hbit WRITE (Or.inr (Or.inl rfl))
    unfold interest at this
    rw [if_neg (Ne.symm d1), if_pos rfl] at this
    exact this
  · have := hbit EXCEPTION (Or.inr (Or.inr rfl))
    unfold interest at this
    rw [if_neg (Ne.symm d2), if_neg (Ne.symm d3), if_pos rfl] at this
    exact this

theorem foldl_close_one_nodup (fds : List Int) (acc : dispatcherselect × List Int)
    (hc : consistent acc.1) (hk : keyed acc.1) (hn : acc.2.Nodup)
    (ha : ∀ fd ∈ acc.2, Map.find acc.1.handlers_ fd = none) :
    (fds.foldl close_one acc).2.Nodup := by
  induction fds generalizing acc with
  | nil => exact hn
  | cons x rest ih =>
    have hc1 := consistent_close_one acc x hc
    have hk1 := invariant_close_one keyed keyed_do_unregister_handler acc x hk
    apply ih (close_one acc x) hc1 hk1
    · rw [close_one_closed]
      split_ifs with hf
      · exact hn
      · refine List.Nodup.append hn (List.nodup_singleton x) ?_
        intro y hy hy1
        rw [List.mem_singleton] at hy1
        subst hy1
        exact hf (ha y hy)
    · intro y hy
      rw [close_one_closed] at hy
      by_cases hf : Map.find acc.1.handlers_ x = none
      · rw [if_pos hf] at hy
        by_cases e : y = x
        · subst e
          have : close_one acc y = acc := by
            unfold close_one
            rw [if_pos hf]
          rw [this]
          exact hf
        · rw [find_handlers_close_one_ne acc x y e]
          exact ha y hy
      · rw [if_neg hf, List.mem_append, List.mem_singleton] at hy
        by_cases e : y = x
        · subst e
          exact (close_one_absent acc y hc hk hf).1
        · rw [find_handlers_close_one_ne acc x y e]
          rcases hy with hy | hy
          · exact ha y hy
          · exact absurd hy e

end dispatcherselect

/-! ## The select dispatcher: the close pass with its log -/

namespace dispatcherselect

end dispatcherselect

/-- After every history whose REGISTER operations carry a kind among READ, WRITE,
EXCEPTION and an fd in `[0, FD_SETSIZE)`, and after which at least one fd is still
registered, `max_fd` is the largest fd whose bit is set in one of the three sets. -/
theorem select_max_fd_of_base_kinds (history : List dispatcherselect.Action)
    (hP : ∀ a ∈ history, dispatcherselect.Action.in_range a = true ∧
      dispatcherselect.Action.base_kind a = true)
    (fd0 : Int)
    (h0 : Map.find (dispatcherselect.exec dispatcherselect.init history).handlers_ fd0 ≠ none) :
    (dispatcherselect.exec dispatcherselect.init history).max_fd ∈
      dispatcherselect.monitored (dispatcherselect.exec dispatcherselect.init history) ∧
    ∀ fd ∈ dispatcherselect.monitored (dispatcherselect.exec dispatcherselect.init history),
      fd ≤ (dispatcherselect.exec dispatcherselect.init history).max_fd := by
  obtain ⟨hc, ht⟩ := dispatcherselect.tight_exec history hP
  have hk := dispatcherselect.keyed_exec history
  have hcons := dispatcherselect.consistent_exec history dispatcherselect.init
    dispatcherselect.consistent_init
  obtain ⟨k, hr⟩ := hk.2 fd0 h0
  have hm := dispatcherselect.interest_subset_monitored _ fd0 k
    ((hcons fd0 k (hk.1 fd0 k hr)).mp hr)
  exact ⟨ht.1 (Finset.ne_empty_of_mem hm), fun fd hfd => (hc fd hfd).2.2⟩

/-! ## The select dispatcher: collecting and dispatching the ready records -/

namespace dispatcherselect

theorem lookup_congr (s t : dispatcherselect) (h : t.handlers_ = s.handlers_) (fd : Int)
    (k : Nat) : lookup t fd k = lookup s fd k := by
  unfold lookup
  rw [h]

theorem dispatch_events_ready {W : Type} (beh : Behaviour W)
    (r : Run W dispatcherselect) (c : Prop) [Decidable c] (fd : Int) (k : Nat)
    (rest : List (Int × Nat))
    (hn : c → lookup r.state fd k ≠ some none)
    (hk : k = READ ∨ k = WRITE ∨ k = EXCEPTION) :
    ∃ r1 : Run W dispatcherselect,
      dispatch_events beh r ((if c then [(fd, k)] else []) ++ rest) =
        dispatch_events beh r1 rest ∧
      r1.calls = r.calls ++
        (if c then
          match lookup r.state fd k with
          | some (some h) => [⟨h, callback_of k, fd⟩]
          | _ => []
         else []) ∧
      r1.state.handlers_ = r.state.handlers_ := by
  by_cases hc : c
  · cases hl : lookup r.state fd k with
    | none =>
      refine ⟨r, ?_, by simp [hc], rfl⟩
      simp only [hc, if_true, List.singleton_append, dispatch_events,
        dispatch_one_of_lookup_none beh r (fd, k) hl]
    | some v =>
      cases v with
      | none => exact absurd hl (hn hc)
      | some h =>
        obtain ⟨r1, h1, h2, h3⟩ := dispatch_one_registered beh r fd k h hl hk
        refine ⟨r1, ?_, by simp [hc, h2], h3⟩
        simp only [hc, if_true, List.singleton_append, dispatch_events, h1]
  · exact ⟨r, by simp [hc], by simp [hc], rfl⟩

theorem dispatch_events_collect_one {W : Type} (beh : Behaviour W)
    (s : dispatcherselect) (r : Run W dispatcherselect) (fd : Int)
    (rest : List (Int × Nat)) (hr : r.state.handlers_ = s.handlers_)
    (h1 : ∀ fd, fd ∈ s.read_fds_copy → lookup s fd READ ≠ some none)
    (h2 : ∀ fd, fd ∈ s.write_fds_copy → lookup s fd WRITE ≠ some none)
    (h3 : ∀ fd, fd ∈ s.except_fds_copy → lookup s fd EXCEPTION ≠ some none) :
    ∃ r1 : Run W dispatcherselect,
      dispatch_events beh r (collect_one s fd ++ rest) = dispatch_events beh r1 rest ∧
      r1.calls = r.calls ++ spec_callbacks s fd ∧
      r1.state.handlers_ = s.handlers_ := by
  obtain ⟨ra, ea, ca, ha⟩ := dispatch_events_ready beh r (fd ∈ s.read_fds_copy) fd READ
    ((if fd ∈ s.write_fds_copy then [(fd, WRITE)] else []) ++
      ((if fd ∈ s.except_fds_copy then [(fd, EXCEPTION)] else []) ++ rest))
    (fun hc => by rw [lookup_congr s r.state hr]; exact h1 fd hc) (Or.inl rfl)
  have hra : ra.state.handlers_ = s.handlers_ := ha.trans hr
  obtain ⟨rb, eb, cb, hb⟩ := dispatch_events_ready beh ra (fd ∈ s.write_fds_copy) fd WRITE
    ((if fd ∈ s.except_fds_copy then [(fd, EXCEPTION)] else []) ++ rest)
    (fun hc => by rw [lookup_congr s ra.state hra]; exact h2 fd hc) (Or.inr (Or.inl rfl))
  have hrb : rb.state.handlers_ = s.handlers_ := hb.trans hra
  obtain ⟨rc, ec, cc, hcc⟩ := dispatch_events_ready beh rb (fd ∈ s.except_fds_copy) fd
    EXCEPTION rest
    (fun hc => by rw [lookup_congr s rb.state hrb]; exact h3 fd hc) (Or.inr (Or.inr rfl))
  refine ⟨rc, ?_, ?_, hcc.trans hrb⟩
  · unfold collect_one
    rw [List.append_assoc, List.append_assoc, ea, eb, ec]
  · rw [cc, cb, ca, lookup_congr s r.state hr, lookup_congr s ra.state hra,
      lookup_congr s rb.state hrb]
    have e1 : callback_of READ = Callback.handle_read := by decide
    have e2 : callback_of WRITE = Callback.handle_write := by decide
    have e3 : callback_of EXCEPTION = Callback.handle_exception := by decide
    rw [e1, e2, e3]
    unfold spec_callbacks
    simp only [List.append_assoc]

theorem dispatch_events_collect {W : Type} (beh : Behaviour W) (s : dispatcherselect)
    (h1 : ∀ fd, fd ∈ s.read_fds_copy → lookup s fd READ ≠ some none)
    (h2 : ∀ fd, fd ∈ s.write_fds_copy → lookup s fd WRITE ≠ some none)
    (h3 : ∀ fd, fd ∈ s.except_fds_copy → lookup s fd EXCEPTION ≠ some none)
    (l : List (Int × List (Nat × Option Nat))) (r : Run W dispatcherselect)
    (hr : r.state.handlers_ = s.handlers_) :
    ∃ r1 : Run W dispatcherselect,
      dispatch_events beh r ((l.map (fun e => collect_one s e.1)).flatten) = Except.ok r1 ∧
      r1.calls = r.calls ++ (l.map (fun e => spec_callbacks s e.1)).flatten := by
  induction l generalizing r with
  | nil => exact ⟨r, rfl, by simp⟩
  | cons x rest ih =>
    obtain ⟨ra, ea, ca, ha⟩ := dispatch_events_collect_one beh s r x.1
      ((rest.map (fun e => collect_one s e.1)).flatten) hr h1 h2 h3
    obtain ⟨rb, eb, cb⟩ := ih ra ha
    refine ⟨rb, ?_, ?_⟩
    · rw [List.map_cons, List.flatten_cons, ea, eb]
    · rw [cb, ca, List.map_cons, List.flatten_cons, List.append_assoc]

end dispatcherselect

/-! ## Claims -/

/-- C1, what holds of the code. Select backend: after every history of applied
REGISTER/UNREGISTER operations, `close_fd_safely` calls and close passes whose REGISTER
operations name fds in `[0, FD_SETSIZE)`, for every fd and every kind among READ, WRITE,
EXCEPTION, `handlers_` holds an entry `(fd, kind)` if and only if bit `fd` of the set of
that kind is set. (A REGISTER of an fd outside that range is applied without a range
test: `FD_SET` then writes outside the set and the invariant is lost.) Epoll backend: after
every history of applied REGISTER/UNREGISTER operations (the kernel refusing any
descriptors in between), a user fd is a key of `active_handlers_by_fd_` if and only if it
is in the interest list. -/
theorem C1_registry_interest_consistency :
    (∀ (history : List dispatcherselect.Action) (fd : Int) (k : Nat),
      (∀ a ∈ history, dispatcherselect.Action.in_range a = true) →
      k = READ ∨ k = WRITE ∨ k = EXCEPTION →
      (dispatcherselect.registered
          (dispatcherselect.exec dispatcherselect.init history) fd k ↔
        fd ∈ dispatcherselect.interest
          (dispatcherselect.exec dispatcherselect.init history) k)) ∧
    (∀ (epoll_fd wakeup_fd max_events : Int) (history : List dispatcherepoll.Action)
        (s : dispatcherepoll),
      (∀ a ∈ history, dispatcherepoll.Action.no_close a = true) →
      dispatcherepoll.exec (dispatcherepoll.init epoll_fd wakeup_fd max_events) history =
        Except.ok s →
      ∀ fd : Int, fd ≠ wakeup_fd →
        (dispatcherepoll.registered s fd ↔ dispatcherepoll.watched s fd)) := by
  constructor
  · intro history fd k _ hk
    exact dispatcherselect.consistent_exec history _ dispatcherselect.consistent_init fd k hk
  · intro epoll_fd wakeup_fd max_events history s hn hok fd hfd
    have hc := dispatcherepoll.epoll_consistent_exec history _ s hn hok
      (dispatcherepoll.epoll_consistent_init epoll_fd wakeup_fd max_events)
    have hw := dispatcherepoll.wakeup_fd_exec history _ s hok
    exact hc fd (by rw [hw]; exact hfd)

/-- The witness of C1: after REGISTER(5, READ) the select dispatcher has bit 5 of
`read_fds` set, and after REGISTER(7, READ), with the kernel refusing fd 9, the epoll
dispatcher has fd 7 in its interest list. -/
theorem C1_registry_interest_consistency_witness :
    (5 : Int) ∈ dispatcherselect.interest
      (dispatcherselect.exec dispatcherselect.init
        [dispatcherselect.Action.apply ⟨OpType.REGISTER, 5, READ, some 1⟩]) READ ∧
    dispatcherepoll.watched
      { dispatcherepoll.init 3 4 1024 with
        active_handlers_by_fd_ := [(7, some 1)],
        interest := [(4, ⟨EPOLLIN ||| EPOLLET, epoll_data.ptr_this⟩),
                     (7, ⟨EPOLLIN, epoll_data.fd 7⟩)],
        refused := [9] } 7 :=
  ⟨(C1_registry_interest_consistency.1
      [dispatcherselect.Action.apply ⟨OpType.REGISTER, 5, READ, some 1⟩] 5 READ
      (by decide) (Or.inl rfl)).mp (by decide),
   (C1_registry_interest_consistency.2 3 4 1024
      [dispatcherepoll.Action.kernel [9],
       dispatcherepoll.Action.apply ⟨OpType.REGISTER, 7, READ, some 1⟩]
      _ (by decide) rfl 7 (by decide)).mp (by decide)⟩

/-- C2. Dispatch invokes callbacks only for entries that are in the registry at the
moment the record is dispatched. Select backend: a record whose `(fd, kind)` has no
registry entry leaves the run unchanged (no callback) and the remaining records are
dispatched as if it were absent; a record that runs a callback runs the handler stored
for `(fd, kind)`; an applied UNREGISTER leaves no entry for `(fd, kind)`. Epoll backend:
the same for a record whose fd is not a key of `active_handlers_by_fd_`, for the
handler stored for the fd, and for an applied UNREGISTER. -/
theorem C2_dispatch_only_registered :
    (∀ (W : Type) (beh : Behaviour W) (r : Run W dispatcherselect) (ev : Int × Nat)
        (rest : List (Int × Nat)),
      ¬ dispatcherselect.registered r.state ev.1 ev.2 →
      dispatcherselect.dispatch_one beh r ev = Except.ok r ∧
      dispatcherselect.dispatch_events beh r (ev :: rest) =
        dispatcherselect.dispatch_events beh r rest) ∧
    (∀ (W : Type) (beh : Behaviour W) (r r1 : Run W dispatcherselect) (ev : Int × Nat),
      dispatcherselect.dispatch_one beh r ev = Except.ok r1 →
      r1.calls = r.calls ∨
      ∃ (h : Nat) (cb : Callback),
        dispatcherselect.lookup r.state ev.1 ev.2 = some (some h) ∧
        r1.calls = r.calls ++ [⟨h, cb, ev.1⟩]) ∧
    (∀ (s : dispatcherselect) (fd : Int) (k : Nat),
      ¬ dispatcherselect.registered (dispatcherselect.do_unregister_handler s fd k) fd k) ∧
    (∀ (W : Type) (beh : Behaviour W) (r : Run W dispatcherepoll) (events : Nat) (fd : Int)
        (rest : List epoll_event),
      ¬ dispatcherepoll.registered r.state fd →
      dispatcherepoll.dispatch_one beh r ⟨events, epoll_data.fd fd⟩ = Except.ok r ∧
      dispatcherepoll.dispatch_events beh r (⟨events, epoll_data.fd fd⟩ :: rest) =
        dispatcherepoll.dispatch_events beh r rest) ∧
    (∀ (W : Type) (beh : Behaviour W) (r r1 : Run W dispatcherepoll) (events : Nat)
        (fd : Int),
      dispatcherepoll.dispatch_one beh r ⟨events, epoll_data.fd fd⟩ = Except.ok r1 →
      ∀ c ∈ r1.calls, c ∈ r.calls ∨
        (c.fd = fd ∧
          Map.find r.state.active_handlers_by_fd_ fd = some (some c.handler))) ∧
    (∀ (s s1 : dispatcherepoll) (fd : Int) (k : Nat),
      dispatcherepoll.do_unregister_handler s fd k = Except.ok s1 →
      ¬ dispatcherepoll.registered s1 fd) := by
  refine ⟨?_, ?_, ?_, ?_, ?_, ?_⟩
  · intro W beh r ev rest h
    have hl : dispatcherselect.lookup r.state ev.1 ev.2 = none := by
      unfold dispatcherselect.registered at h
      push_neg at h
      exact h
    have h1 := dispatcherselect.dispatch_one_of_lookup_none beh r ev hl
    refine ⟨h1, ?_⟩
    rw [dispatcherselect.dispatch_events, h1]
  · intro W beh r r1 ev hok
    exact dispatcherselect.dispatch_one_calls beh r r1 ev hok
  · intro s fd k
    unfold dispatcherselect.registered
    rw [dispatcherselect.lookup_do_unregister_handler]
    simp
  · intro W beh r events fd rest h
    have h1 := dispatcherepoll.dispatch_one_of_not_registered beh r events fd h
    refine ⟨h1, ?_⟩
    rw [dispatcherepoll.dispatch_events, h1]
  · intro W beh r r1 events fd hok
    exact dispatcherepoll.epoll_dispatch_one_calls beh r r1 events fd hok
  · intro s s1 fd k hok
    obtain ⟨_, h | h⟩ := dispatcherepoll.do_unregister_handler_ok s s1 fd k hok
    · rw [h.2]
      unfold dispatcherepoll.registered
      simp [h.1]
    · obtain ⟨_, _, _, rfl⟩ := h
      unfold dispatcherepoll.registered
      simp [Map.find_erase_self]

/-- The witness of C2: a ready record `(5, READ)` met by a select dispatcher with an empty
registry runs no callback, and the records after it are dispatched as without it. -/
theorem C2_dispatch_only_registered_witness :
    dispatcherselect.dispatch_one (fun (w : Unit) _ _ _ => (w, []))
        ⟨(), dispatcherselect.init, []⟩ (5, READ) =
      Except.ok ⟨(), dispatcherselect.init, []⟩ ∧
    dispatcherselect.dispatch_events (fun (w : Unit) _ _ _ => (w, []))
        ⟨(), dispatcherselect.init, []⟩ [(5, READ), (6, WRITE)] =
      dispatcherselect.dispatch_events (fun (w : Unit) _ _ _ => (w, []))
        ⟨(), dispatcherselect.init, []⟩ [(6, WRITE)] :=
  C2_dispatch_only_registered.1 Unit (fun w _ _ _ => (w, []))
    ⟨(), dispatcherselect.init, []⟩ (5, READ) [(6, WRITE)] (by decide)

/-- C3, as stated, fails: after `register_handler(5, READ, h)` and the tick that applies
it, a `close_fd_safely(5)` puts fd 5 in `pending_close_fds_` while it is still a key of
`active_handlers_by_fd_` and in the interest list, and the next close pass closes it. -/
theorem C3_deferred_close_counterexample :
    ∃ (s1 : dispatcherepoll) (r2 : Run Unit dispatcherepoll),
      dispatcherepoll.register_handler (dispatcherepoll.init 3 4 1024) 5 READ (some 1) =
        Except.ok s1 ∧
      dispatcherepoll.loop_iteration (fun w _ _ _ => (w, [])) ⟨(), s1, []⟩
        (some [⟨EPOLLIN, epoll_data.ptr_this⟩]) = Except.ok (r2, []) ∧
      dispatcherepoll.registered (dispatcherepoll.close_fd_safely r2.state 5) 5 ∧
      dispatcherepoll.watched (dispatcherepoll.close_fd_safely r2.state 5) 5 ∧
      (5 : Int) ∈ (dispatcherepoll.close_fd_safely r2.state 5).pending_close_fds_ ∧
      (dispatcherepoll.process_pending_close_fds
        (dispatcherepoll.close_fd_safely r2.state 5)).2 = [5] := by
  refine ⟨_, _, rfl, rfl, ?_, ?_, ?_, ?_⟩ <;> decide

/-- C3, amended. In the epoll backend, for every history of applied REGISTER/UNREGISTER
operations, `close_fd_safely` calls and close passes in which `close_fd_safely(fd)` is
only called for an fd that has no registry entry and a REGISTER for fd is only applied
while fd is not in `pending_close_fds_`, no fd is in both `active_handlers_by_fd_` and
`pending_close_fds_`; so every fd the next close pass closes is absent from the registry
and, unless it is the wakeup descriptor, from the interest list. -/
theorem C3_deferred_close_ordering (epoll_fd wakeup_fd max_events : Int)
    (history : List dispatcherepoll.Action) (s : dispatcherepoll)
    (hp : dispatcherepoll.follows_protocol
      (dispatcherepoll.init epoll_fd wakeup_fd max_events) history = true)
    (hok : dispatcherepoll.exec (dispatcherepoll.init epoll_fd wakeup_fd max_events) history =
      Except.ok s) :
    (∀ fd : Int, ¬ (dispatcherepoll.registered s fd ∧ fd ∈ s.pending_close_fds_)) ∧
    (∀ fd ∈ (dispatcherepoll.process_pending_close_fds s).2,
      ¬ dispatcherepoll.registered s fd ∧
      (fd ≠ wakeup_fd → ¬ dispatcherepoll.watched s fd)) := by
  have hd := dispatcherepoll.disjoint_exec history _ s hp hok
    (by intro fd hr; simp [dispatcherepoll.init])
  have hc := dispatcherepoll.epoll_consistent_protocol_exec history _ s hp hok
    (by intro fd hr; simp [dispatcherepoll.init])
    (dispatcherepoll.epoll_consistent_init epoll_fd wakeup_fd max_events)
  have hw := dispatcherepoll.wakeup_fd_exec history _ s hok
  refine ⟨fun fd h => hd fd h.1 h.2, ?_⟩
  intro fd hfd
  have hmem : fd ∈ s.pending_close_fds_ := hfd
  have hnr : ¬ dispatcherepoll.registered s fd := fun hr => hd fd hr hmem
  refine ⟨hnr, ?_⟩
  intro hne hwat
  exact hnr ((hc fd (by rw [hw]; exact hne)).mpr hwat)

/-- The witness of C3 (amended): register fd 5, unregister it, close pass, register it
again, and call `close_fd_safely` for the never registered fd 8. -/
theorem C3_deferred_close_ordering_witness :
    (∀ fd : Int, ¬ (dispatcherepoll.registered
        { dispatcherepoll.init 3 4 1024 with
          active_handlers_by_fd_ := [(5, some 2)],
          interest := [(4, ⟨EPOLLIN ||| EPOLLET, epoll_data.ptr_this⟩),
                       (5, ⟨EPOLLIN, epoll_data.fd 5⟩)],
          pending_close_fds_ := [8] } fd ∧
      fd ∈ ([8] : List Int))) ∧
    (∀ fd ∈ ([8] : List Int),
      ¬ dispatcherepoll.registered
        { dispatcherepoll.init 3 4 1024 with
          active_handlers_by_fd_ := [(5, some 2)],
          interest := [(4, ⟨EPOLLIN ||| EPOLLET, epoll_data.ptr_this⟩),
                       (5, ⟨EPOLLIN, epoll_data.fd 5⟩)],
          pending_close_fds_ := [8] } fd ∧
      (fd ≠ 4 → ¬ dispatcherepoll.watched
        { dispatcherepoll.init 3 4 1024 with
          active_handlers_by_fd_ := [(5, some 2)],
          interest := [(4, ⟨EPOLLIN ||| EPOLLET, epoll_data.ptr_this⟩),
                       (5, ⟨EPOLLIN, epoll_data.fd 5⟩)],
          pending_close_fds_ := [8] } fd)) :=
  C3_deferred_close_ordering 3 4 1024
    [dispatcherepoll.Action.apply ⟨OpType.REGISTER, 5, READ, some 1⟩,
     dispatcherepoll.Action.apply ⟨OpType.UNREGISTER, 5, READ, none⟩,
     dispatcherepoll.Action.close_pass,
     dispatcherepoll.Action.apply ⟨OpType.REGISTER, 5, READ, some 2⟩,
     dispatcherepoll.Action.close_fd_safely 8]
    _ (by decide) rfl

/-- C4, as stated, fails in the epoll backend: fd 5 is registered with handler 2 and
closed through `close_fd_safely(5)` while registered, so the close pass leaves it in the
registry but out of the interest list; with the number 5 in use again, REGISTER(5, READ,
h1) then REGISTER(5, READ, h2) both succeed, while REGISTER(5, READ, h2) alone throws. -/
theorem C4_register_twice_counterexample :
    ∃ s s1 s2 : dispatcherepoll,
      dispatcherepoll.exec (dispatcherepoll.init 3 4 1024)
        [dispatcherepoll.Action.apply ⟨OpType.REGISTER, 5, READ, some 2⟩,
         dispatcherepoll.Action.close_fd_safely 5,
         dispatcherepoll.Action.close_pass] = Except.ok s ∧
      dispatcherepoll.do_register_handler s 5 READ (some 1) = Except.ok s1 ∧
      dispatcherepoll.do_register_handler s1 5 READ (some 2) = Except.ok s2 ∧
      dispatcherepoll.do_register_handler s 5 READ (some 2) =
        Except.error Exn.system_error :=
  ⟨_, _, _, rfl, rfl, rfl, rfl⟩

/-- C4, amended. Select backend: for every state, fd, kind and handlers h1, h2,
REGISTER(fd,k,h1) then REGISTER(fd,k,h2) yields the very state of REGISTER(fd,k,h2)
alone; for a kind among READ, WRITE, EXCEPTION the entry of `(fd, k)` is then h2, and a
record `(fd, k)` dispatched afterwards runs h2, when it is not null, at the entry point
of k and runs nothing else. Epoll backend: in every state in which fd is in the interest
list if it has a registry entry, when REGISTER(fd,k,h1) succeeds and h2 is not null,
REGISTER(fd,k,h2) applied next and REGISTER(fd,k,h2) applied alone both succeed with the
same state, whose registry maps fd to h2, and a record of fd dispatched afterwards
without a throw runs on h2 exactly the callbacks its readiness bits select. -/
theorem C4_register_twice_absorbed :
    (∀ (s : dispatcherselect) (fd : Int) (k : Nat) (h1 h2 : Option Nat),
      dispatcherselect.do_register_handler
          (dispatcherselect.do_register_handler s fd k h1) fd k h2 =
        dispatcherselect.do_register_handler s fd k h2 ∧
      (k = READ ∨ k = WRITE ∨ k = EXCEPTION →
        dispatcherselect.lookup
          (dispatcherselect.do_register_handler
            (dispatcherselect.do_register_handler s fd k h1) fd k h2) fd k = some h2 ∧
        ∀ (W : Type) (beh : Behaviour W) (r : Run W dispatcherselect) (h : Nat),
          h2 = some h →
          r.state = dispatcherselect.do_register_handler
              (dispatcherselect.do_register_handler s fd k h1) fd k h2 →
          ∃ r1 : Run W dispatcherselect,
            dispatcherselect.dispatch_one beh r (fd, k) = Except.ok r1 ∧
            r1.calls = r.calls ++ [⟨h, dispatcherselect.callback_of k, fd⟩])) ∧
    (∀ (s s1 : dispatcherepoll) (fd : Int) (k : Nat) (h1 h2 : Option Nat),
      (dispatcherepoll.registered s fd → dispatcherepoll.watched s fd) →
      h2 ≠ none →
      dispatcherepoll.do_register_handler s fd k h1 = Except.ok s1 →
      ∃ s2 : dispatcherepoll,
        dispatcherepoll.do_register_handler s1 fd k h2 = Except.ok s2 ∧
        dispatcherepoll.do_register_handler s fd k h2 = Except.ok s2 ∧
        Map.find s2.active_handlers_by_fd_ fd = some h2 ∧
        (∀ (W : Type) (beh : Behaviour W) (r r1 : Run W dispatcherepoll) (events : Nat)
            (h : Nat),
          h2 = some h →
          r.state = s2 →
          dispatcherepoll.dispatch_one beh r ⟨events, epoll_data.fd fd⟩ = Except.ok r1 →
          r1.calls = r.calls ++
            (if events &&& EPOLLIN ≠ 0 then [⟨h, Callback.handle_read, fd⟩] else []) ++
            (if events &&& EPOLLOUT ≠ 0 then [⟨h, Callback.handle_write, fd⟩] else []) ++
            (if events &&& (EPOLLERR ||| EPOLLHUP) ≠ 0 then
              [⟨h, Callback.handle_exception, fd⟩] else []))) := by
  constructor
  · intro s fd k h1 h2
    have heq : dispatcherselect.do_register_handler
          (dispatcherselect.do_register_handler s fd k h1) fd k h2 =
        dispatcherselect.do_register_handler s fd k h2 := by
      have hidx : ∀ (m : List (Int × List (Nat × Option Nat)))
          (v : List (Nat × Option Nat)), Map.index (Map.assign fd v m) fd [] = v := by
        intro m v
        simp [Map.index, Map.find_assign_self]
      unfold dispatcherselect.do_register_handler
      by_cases e1 : k = READ
      · simp only [e1, if_true]
        split_ifs <;> simp only [hidx, Map.assign_assign, Finset.insert_idem]
      · by_cases e2 : k = WRITE
        · simp only [e1, e2, if_true, if_false]
          split_ifs <;> simp only [hidx, Map.assign_assign, Finset.insert_idem]
        · by_cases e3 : k = EXCEPTION
          · simp only [e1, e2, e3, if_true, if_false]
            split_ifs <;> simp only [hidx, Map.assign_assign, Finset.insert_idem]
          · simp only [e1, e2, e3, if_false]
            split_ifs <;> rfl
    refine ⟨heq, ?_⟩
    intro hk
    have hl : dispatcherselect.lookup
          (dispatcherselect.do_register_handler
            (dispatcherselect.do_register_handler s fd k h1) fd k h2) fd k = some h2 := by
      rw [dispatcherselect.lookup_do_register_handler]
      simp [hk]
    refine ⟨hl, ?_⟩
    intro W beh r h hh hr
    obtain ⟨r1, h1, h2, _⟩ := dispatcherselect.dispatch_one_registered beh r fd k h
      (by rw [hr, hl, hh]) hk
    exact ⟨r1, h1, h2⟩
  · intro s s1 fd k h1 h2 hcons hh2 hok
    obtain ⟨hfd, _, href, hs1⟩ := dispatcherepoll.do_register_handler_ok s s1 fd k h1 hok
    refine ⟨{ s with
      interest := Map.assign fd ⟨dispatcherepoll.convert_to_epoll_events k, epoll_data.fd fd⟩
        s.interest,
      active_handlers_by_fd_ := Map.assign fd h2 s.active_handlers_by_fd_ }, ?_, ?_, ?_, ?_⟩
    · have h := dispatcherepoll.do_register_handler_eq s1 fd k h2 hfd hh2
        (by rw [hs1]; exact href)
        (by rw [hs1]; intro _; simp [Map.find_assign_self])
      rw [h, hs1]
      simp only [Map.assign_assign]
    · apply dispatcherepoll.do_register_handler_eq s fd k h2 hfd hh2 href
      intro hreg
      apply hcons
      unfold dispatcherepoll.registered
      rw [hreg]
      simp
    · simp [Map.find_assign_self]
    · intro W beh r r1 events h hh hr hd
      have hf : Map.find r.state.active_handlers_by_fd_ fd = some (some h) := by
        rw [hr, hh]
        simp [Map.find_assign_self]
      unfold dispatcherepoll.dispatch_one at hd
      simp only [hf] at hd
      exact dispatcherepoll.run_callbacks_calls_eq beh r r1 h events fd hd

/-- The witness of C4 (amended): on fresh dispatchers, registering fd 5 for READ with
handler 1 and then with handler 2 leaves what registering with handler 2 alone leaves. -/
theorem C4_register_twice_absorbed_witness :
    dispatcherselect.do_register_handler
        (dispatcherselect.do_register_handler dispatcherselect.init 5 READ (some 1))
        5 READ (some 2) =
      dispatcherselect.do_register_handler dispatcherselect.init 5 READ (some 2) ∧
    ∃ s2 : dispatcherepoll,
      dispatcherepoll.do_register_handler (dispatcherepoll.init 3 4 1024) 5 READ (some 2) =
        Except.ok s2 ∧
      Map.find s2.active_handlers_by_fd_ 5 = some (some 2) :=
  ⟨(C4_register_twice_absorbed.1 dispatcherselect.init 5 READ (some 1) (some 2)).1,
   (C4_register_twice_absorbed.2 (dispatcherepoll.init 3 4 1024) _ 5 READ (some 1) (some 2)
      (by decide) (by decide) rfl).imp (fun _ h => ⟨h.2.1, h.2.2.1⟩)⟩

/-- C5, what holds of the code. Select backend: for an fd in `[0, FD_SETSIZE)`, in every
state in which fd has no registry entry and is in none of the three sets, after
REGISTER(fd,k,h) and UNREGISTER(fd,k) the registry and the three sets are those of the
start, so fd is absent again and every other fd is untouched. (For an fd outside that
range `FD_SET` and `FD_CLR` are called all the same and change a bit outside the set,
which can be the bit of another fd.) Epoll backend: in every
state in which fd is neither registered nor in the interest list, when REGISTER(fd,k,h)
is applied, UNREGISTER(fd,k) succeeds and leaves the registry and the interest list of
the start. -/
theorem C5_register_unregister_restores :
    (∀ (s : dispatcherselect) (fd : Int) (k : Nat) (h : Option Nat),
      0 ≤ fd → fd < (FD_SETSIZE : Int) →
      Map.find s.handlers_ fd = none → fd ∉ s.read_fds → fd ∉ s.write_fds →
      fd ∉ s.except_fds →
      (dispatcherselect.do_unregister_handler
        (dispatcherselect.do_register_handler s fd k h) fd k).handlers_ = s.handlers_ ∧
      (dispatcherselect.do_unregister_handler
        (dispatcherselect.do_register_handler s fd k h) fd k).read_fds = s.read_fds ∧
      (dispatcherselect.do_unregister_handler
        (dispatcherselect.do_register_handler s fd k h) fd k).write_fds = s.write_fds ∧
      (dispatcherselect.do_unregister_handler
        (dispatcherselect.do_register_handler s fd k h) fd k).except_fds = s.except_fds) ∧
    (∀ (s s1 : dispatcherepoll) (fd : Int) (k : Nat) (h : Option Nat),
      ¬ dispatcherepoll.registered s fd → ¬ dispatcherepoll.watched s fd →
      dispatcherepoll.do_register_handler s fd k h = Except.ok s1 →
      ∃ s2 : dispatcherepoll,
        dispatcherepoll.do_unregister_handler s1 fd k = Except.ok s2 ∧
        s2.active_handlers_by_fd_ = s.active_handlers_by_fd_ ∧
        s2.interest = s.interest ∧
        ¬ dispatcherepoll.registered s2 fd ∧ ¬ dispatcherepoll.watched s2 fd) := by
  constructor
  · intro s fd k h _ _ hnone hr hw he
    have hidx : ∀ (m : List (Int × List (Nat × Option Nat)))
        (v : List (Nat × Option Nat)), Map.index (Map.assign fd v m) fd [] = v := by
      intro m v
      simp [Map.index, Map.find_assign_self]
    have hidx0 : Map.index s.handlers_ fd [] = [] := by simp [Map.index, hnone]
    have hreg : (dispatcherselect.do_register_handler s fd k h).handlers_ =
        if k = READ ∨ k = WRITE ∨ k = EXCEPTION then
          Map.assign fd (Map.assign k h []) s.handlers_
        else s.handlers_ := by
      unfold dispatcherselect.do_register_handler
      rw [hidx0]
      by_cases e1 : k = READ
      · simp only [e1, if_true, true_or]
        split_ifs <;> rfl
      · by_cases e2 : k = WRITE
        · simp only [e1, e2, if_true, if_false, true_or, or_true]
          split_ifs <;> rfl
        · by_cases e3 : k = EXCEPTION
          · simp only [e1, e2, e3, if_true, if_false, or_true]
            split_ifs <;> rfl
          · simp only [e1, e2, e3, if_false, or_self]
            split_ifs <;> rfl
    refine ⟨?_, ?_, ?_, ?_⟩
    · rw [dispatcherselect.handlers_do_unregister_handler, hreg]
      by_cases hk : k = READ ∨ k = WRITE ∨ k = EXCEPTION
      · have herase : Map.erase k (Map.assign k h ([] : List (Nat × Option Nat))) = [] := by
          simp [Map.assign, Map.erase]
        simp only [hk, if_true, Map.find_assign_self, hidx, herase, Map.assign_assign]
        simp only [reduceCtorEq, if_false, if_true]
        exact Map.erase_assign fd [] s.handlers_ hnone
      · simp [hk, hnone]
    · rw [dispatcherselect.read_fds_do_unregister_handler,
        dispatcherselect.read_fds_do_register_handler]
      split_ifs <;> simp_all [Finset.erase_insert, Finset.erase_eq_of_not_mem, Map.find_assign_self]
    · rw [dispatcherselect.write_fds_do_unregister_handler,
        dispatcherselect.write_fds_do_register_handler]
      split_ifs <;> simp_all [Finset.erase_insert, Finset.erase_eq_of_not_mem, Map.find_assign_self]
    · rw [dispatcherselect.except_fds_do_unregister_handler,
        dispatcherselect.except_fds_do_register_handler]
      split_ifs <;> simp_all [Finset.erase_insert, Finset.erase_eq_of_not_mem, Map.find_assign_self]
  · intro s s1 fd k h hnr hnw hok
    obtain ⟨hfd, _, href, hs1⟩ := dispatcherepoll.do_register_handler_ok s s1 fd k h hok
    unfold dispatcherepoll.registered at hnr
    unfold dispatcherepoll.watched at hnw
    push_neg at hnr hnw
    have h2 := dispatcherepoll.do_unregister_handler_eq s1 fd k hfd
      (by rw [hs1]; simp [Map.find_assign_self])
      (by rw [hs1]; simp [Map.find_assign_self])
      (by rw [hs1]; exact href)
    refine ⟨_, h2, ?_, ?_, ?_, ?_⟩
    · rw [hs1]
      exact Map.erase_assign fd h s.active_handlers_by_fd_ hnr
    · rw [hs1]
      exact Map.erase_assign fd _ s.interest hnw
    · simp [dispatcherepoll.registered, Map.find_erase_self]
    · simp [dispatcherepoll.watched, Map.find_erase_self]

/-- The witness of C5: on fresh dispatchers, registering fd 5 for READ and unregistering
it leaves an empty registry and no interest in fd 5. -/
theorem C5_register_unregister_restores_witness :
    (dispatcherselect.do_unregister_handler
        (dispatcherselect.do_register_handler dispatcherselect.init 5 READ (some 1))
        5 READ).handlers_ = [] ∧
    ∃ s2 : dispatcherepoll,
      dispatcherepoll.do_unregister_handler
        { dispatcherepoll.init 3 4 1024 with
          active_handlers_by_fd_ := [(5, some 1)],
          interest := [(4, ⟨EPOLLIN ||| EPOLLET, epoll_data.ptr_this⟩),
                       (5, ⟨EPOLLIN, epoll_data.fd 5⟩)] } 5 READ = Except.ok s2 ∧
      s2.active_handlers_by_fd_ = [] :=
  ⟨(C5_register_unregister_restores.1 dispatcherselect.init 5 READ (some 1)
      (by decide) (by decide) (by decide) (by decide) (by decide) (by decide)).1,
   (C5_register_unregister_restores.2 (dispatcherepoll.init 3 4 1024) _ 5 READ (some 1)
      (by decide) (by decide) rfl).imp (fun _ h => ⟨h.1, h.2.1⟩)⟩

/-- C6. Epoll acceptor: over any stream of read results and any number of readiness
events of one connection (receive buffer empty at accept), the canned response is written
exactly once if the bytes received contain CRLFCRLF and never otherwise; it is written
right after the first read whose accumulated buffer contains CRLFCRLF, nothing further
being read; and two ways of splitting the same bytes into reads give the same outcome. -/
theorem C6_epoll_response_exactly_once :
    (∀ (fd : Int) (bufs : List (Int × List Char)) (n : Nat) (reads : List ReadResult),
      Map.find bufs fd = some [] →
      epoll_event_handler.responses fd (epoll_event_handler.serve fd n bufs reads) =
        if CRLFCRLF <:+: epoll_event_handler.received n reads then 1 else 0) ∧
    (∀ (fd : Int) (b : List Char) (front : List (List Char)) (chunk : List Char)
        (back : List ReadResult),
      (∀ c ∈ front, c ≠ []) → chunk ≠ [] →
      ¬ CRLFCRLF <:+: b ++ front.flatten →
      CRLFCRLF <:+: b ++ front.flatten ++ chunk →
      epoll_event_handler.drain fd b
          (front.map ReadResult.bytes ++ ReadResult.bytes chunk :: back) =
        ⟨none, [Out.write fd epoll_event_handler.response.toList,
                Out.call (ApiCall.unregister_handler fd READ)], back⟩) ∧
    (∀ (fd : Int) (bufs : List (Int × List Char)) (n : Nat)
        (chunks1 chunks2 : List (List Char)),
      Map.find bufs fd = some [] →
      (∀ c ∈ chunks1, c ≠ []) → (∀ c ∈ chunks2, c ≠ []) →
      chunks1.flatten = chunks2.flatten →
      epoll_event_handler.responses fd
          (epoll_event_handler.serve fd (n + 1) bufs (chunks1.map ReadResult.bytes)) =
        epoll_event_handler.responses fd
          (epoll_event_handler.serve fd (n + 1) bufs (chunks2.map ReadResult.bytes))) := by
  have hnil : ¬ CRLFCRLF <:+: ([] : List Char) := by decide
  refine ⟨?_, ?_, ?_⟩
  · intro fd bufs n reads hfind
    have := epoll_event_handler.serve_responses fd n bufs reads [] hfind hnil
    simpa using this
  · intro fd b front chunk back h1 h2 h3 h4
    exact epoll_event_handler.drain_detects fd b front chunk back h1 h2 h3 h4
  · intro fd bufs n chunks1 chunks2 hfind h1 h2 heq
    rw [epoll_event_handler.serve_responses fd (n + 1) bufs _ [] hfind hnil,
      epoll_event_handler.serve_responses fd (n + 1) bufs _ [] hfind hnil,
      epoll_event_handler.received_chunks n chunks1 h1,
      epoll_event_handler.received_chunks n chunks2 h2, heq]

/-- The witness of C6: the request arrives in two reads with an `EAGAIN` in between, the
second read completing CRLFCRLF; over two readiness events the response is written once. -/
theorem C6_epoll_response_exactly_once_witness :
    epoll_event_handler.responses 7
      (epoll_event_handler.serve 7 2 [(7, [])]
        [ReadResult.bytes "GET / HTTP/1.1\r\n".toList, ReadResult.fail EAGAIN,
         ReadResult.bytes "Host: x\r\n\r\n".toList]) = 1 :=
  (C6_epoll_response_exactly_once.1 7 [(7, [])] 2
    [ReadResult.bytes "GET / HTTP/1.1\r\n".toList, ReadResult.fail EAGAIN,
     ReadResult.bytes "Host: x\r\n\r\n".toList] rfl).trans (by decide)

/-- C7, as stated, fails: a select connection whose read returns `GET /`, which holds no
CRLFCRLF, is answered with the canned response. -/
theorem C7_select_response_counterexample :
    ¬ CRLFCRLF <:+: "GET /".toList ∧
    Out.write 5 select_event_handler.response.toList ∈
      select_event_handler.clientconnections 5 (ReadResult.bytes "GET /".toList) 96 := by
  decide

/-- C7, amended. Select acceptor: each call of `clientconnections` whose `read` returns at
least one byte writes the canned response once, whatever the bytes are, and a call whose
`read` returns 0 bytes or fails writes nothing. Over the readable events of a connection:
when the first read returns no byte the connection gets no response; when it returns
bytes and the write does not fail the connection gets exactly one response; when the
write fails the fd stays registered and the following events are handled the same way,
so the response can be written again. -/
theorem C7_select_response_on_any_bytes :
    (∀ (clientfd : Int) (rd : ReadResult) (bytes_written : Int),
      (select_event_handler.clientconnections clientfd rd bytes_written).count
          (Out.write clientfd select_event_handler.response.toList) =
        if 0 < select_event_handler.bytes_read rd then 1 else 0) ∧
    (∀ (clientfd : Int) (rd : ReadResult) (bytes_written : Int)
        (rest : List (ReadResult × Int)),
      ¬ 0 < select_event_handler.bytes_read rd →
      (select_event_handler.serve clientfd ((rd, bytes_written) :: rest)).count
          (Out.write clientfd select_event_handler.response.toList) = 0) ∧
    (∀ (clientfd : Int) (rd : ReadResult) (bytes_written : Int)
        (rest : List (ReadResult × Int)),
      0 < select_event_handler.bytes_read rd → 0 ≤ bytes_written →
      (select_event_handler.serve clientfd ((rd, bytes_written) :: rest)).count
          (Out.write clientfd select_event_handler.response.toList) = 1) ∧
    (∀ (clientfd : Int) (rd : ReadResult) (bytes_written : Int)
        (rest : List (ReadResult × Int)),
      0 < select_event_handler.bytes_read rd → bytes_written < 0 →
      (select_event_handler.serve clientfd ((rd, bytes_written) :: rest)).count
          (Out.write clientfd select_event_handler.response.toList) =
        1 + (select_event_handler.serve clientfd rest).count
          (Out.write clientfd select_event_handler.response.toList)) := by
  refine ⟨?_, ?_, ?_, ?_⟩
  · intro clientfd rd bytes_written
    unfold select_event_handler.clientconnections
    by_cases h : select_event_handler.bytes_read rd > 0
    · have h1 : 0 < select_event_handler.bytes_read rd := h
      simp only [h, if_true, h1]
      split_ifs <;> simp
    · have h1 : ¬ 0 < select_event_handler.bytes_read rd := h
      simp [h, h1]
  · intro clientfd rd bytes_written rest h
    have h1 : ¬ select_event_handler.bytes_read rd > 0 := h
    simp [select_event_handler.serve, select_event_handler.clientconnections, h1]
  · intro clientfd rd bytes_written rest h hb
    have h1 : select_event_handler.bytes_read rd > 0 := h
    have h2 : ¬ bytes_written < 0 := not_lt.mpr hb
    simp [select_event_handler.serve, select_event_handler.clientconnections, h1, h2]
  · intro clientfd rd bytes_written rest h hb
    have h1 : select_event_handler.bytes_read rd > 0 := h
    simp [select_event_handler.serve, select_event_handler.clientconnections, h1, hb]
    exact Nat.add_comm _ _

/-- The witness of C7 (amended): a connection whose first read returns `GET /` and whose
write fails is read again, and the response is written a second time. -/
theorem C7_select_response_on_any_bytes_witness :
    (select_event_handler.serve 5
        [(ReadResult.bytes "GET /".toList, -1),
         (ReadResult.bytes " HTTP/1.1\r\n\r\n".toList, 96)]).count
      (Out.write 5 select_event_handler.response.toList) = 2 :=
  (C7_select_response_on_any_bytes.2.2.2 5 (ReadResult.bytes "GET /".toList) (-1)
    [(ReadResult.bytes " HTTP/1.1\r\n\r\n".toList, 96)] (by decide) (by decide)).trans
    (by decide)

/-- C8. The response of both acceptors is byte for byte the 200 message with
`Content-Length: 13`, and that decimal value is the number of bytes of the body
`Hello, World!` that follows the blank line. -/
theorem C8_response_bytes :
    epoll_event_handler.response =
      "HTTP/1.1 200 OK\r\nContent-Type: text/html\r\nContent-Length: 13\r\nConnection: close\r\n\r\nHello, World!" ∧
    select_event_handler.response = epoll_event_handler.response ∧
    content_length epoll_event_handler.response.toList = some 13 ∧
    body_after_blank_line epoll_event_handler.response.toList = "Hello, World!".toList ∧
    (body_after_blank_line epoll_event_handler.response.toList).length = 13 := by
  refine ⟨by decide, by decide, by decide, by decide, by decide⟩

/-- C9, as stated, fails for the select backend: after REGISTER(5, READ) and REGISTER(9,
READ), applying UNREGISTER(5, READ) removes the entry of fd 5 but leaves
`pending_close_fds_` empty, and the next close pass closes nothing. -/
theorem C9_unregister_schedules_close_counterexample :
    dispatcherselect.registered
      (dispatcherselect.do_register_handler
        (dispatcherselect.do_register_handler dispatcherselect.init 5 READ (some 1))
        9 READ (some 1)) 5 READ ∧
    (dispatcherselect.do_unregister_handler
      (dispatcherselect.do_register_handler
        (dispatcherselect.do_register_handler dispatcherselect.init 5 READ (some 1))
        9 READ (some 1)) 5 READ).pending_close_fds_ = [] ∧
    (dispatcherselect.process_pending_close_fds
      (dispatcherselect.do_unregister_handler
        (dispatcherselect.do_register_handler
          (dispatcherselect.do_register_handler dispatcherselect.init 5 READ (some 1))
          9 READ (some 1)) 5 READ)).2 = [] := by
  decide

/-- C9, amended. In the epoll backend an applied UNREGISTER(fd, kind) for a registered fd
puts fd in `pending_close_fds_`, and the next close pass closes it without any call of
`close_fd_safely`. In the select backend `do_unregister_handler` leaves
`pending_close_fds_` as it was. -/
theorem C9_unregister_schedules_close :
    (∀ (s s1 : dispatcherepoll) (fd : Int) (k : Nat),
      dispatcherepoll.registered s fd →
      dispatcherepoll.do_unregister_handler s fd k = Except.ok s1 →
      fd ∈ s1.pending_close_fds_ ∧ fd ∈ (dispatcherepoll.process_pending_close_fds s1).2) ∧
    (∀ (s : dispatcherselect) (fd : Int) (k : Nat),
      (dispatcherselect.do_unregister_handler s fd k).pending_close_fds_ =
        s.pending_close_fds_) := by
  constructor
  · intro s s1 fd k hreg hok
    obtain ⟨_, h | h⟩ := dispatcherepoll.do_unregister_handler_ok s s1 fd k hok
    · exact absurd h.1 hreg
    · obtain ⟨_, _, _, rfl⟩ := h
      simp [dispatcherepoll.process_pending_close_fds]
  · intro s fd k
    exact dispatcherselect.pending_close_fds_do_unregister_handler s fd k

/-- The witness of C9 (amended): fd 5 is registered in the epoll dispatcher; unregistering
it puts it in the pending-close list. -/
theorem C9_unregister_schedules_close_witness :
    (5 : Int) ∈ ({ dispatcherepoll.init 3 4 1024 with
        pending_close_fds_ := [5] } : dispatcherepoll).pending_close_fds_ ∧
    (5 : Int) ∈ (dispatcherepoll.process_pending_close_fds
      { dispatcherepoll.init 3 4 1024 with pending_close_fds_ := [5] }).2 :=
  C9_unregister_schedules_close.1
    { dispatcherepoll.init 3 4 1024 with
      active_handlers_by_fd_ := [(5, some 1)],
      interest := [(4, ⟨EPOLLIN ||| EPOLLET, epoll_data.ptr_this⟩),
                   (5, ⟨EPOLLIN, epoll_data.fd 5⟩)] }
    { dispatcherepoll.init 3 4 1024 with pending_close_fds_ := [5] }
    5 READ (by decide) rfl

/-- C10, as stated, fails for the select backend: an fd passed to `close_fd_safely` that
has no registry entry is in the pending-close list, and the close pass clears the list
without closing it. -/
theorem C10_close_pass_counterexample :
    (7 : Int) ∈ (dispatcherselect.close_fd_safely dispatcherselect.init 7).pending_close_fds_ ∧
    (dispatcherselect.process_pending_close_fds
      (dispatcherselect.close_fd_safely dispatcherselect.init 7)).2 = [] ∧
    (dispatcherselect.process_pending_close_fds
      (dispatcherselect.close_fd_safely dispatcherselect.init 7)).1.pending_close_fds_ = [] := by
  decide

/-- C10, amended. In the epoll backend the close pass closes every fd of the pending-close
list, in order, and leaves the list empty; an fd passed to `close_fd_safely` is closed by
the next close pass whether or not it is registered. In the select backend the close
pass leaves the list empty and closes exactly the pending fds that have a registry
entry; a pending fd without one is skipped. -/
theorem C10_close_pass :
    (∀ s : dispatcherepoll,
      (dispatcherepoll.process_pending_close_fds s).2 = s.pending_close_fds_ ∧
      (dispatcherepoll.process_pending_close_fds s).1.pending_close_fds_ = []) ∧
    (∀ (s : dispatcherepoll) (fd : Int),
      fd ∈ (dispatcherepoll.process_pending_close_fds
        (dispatcherepoll.close_fd_safely s fd)).2) ∧
    (∀ s : dispatcherselect,
      (dispatcherselect.process_pending_close_fds s).1.pending_close_fds_ = [] ∧
      ∀ fd : Int, fd ∈ (dispatcherselect.process_pending_close_fds s).2 ↔
        fd ∈ s.pending_close_fds_ ∧ Map.find s.handlers_ fd ≠ none) := by
  refine ⟨fun s => ⟨rfl, rfl⟩, ?_, fun s => ⟨rfl, ?_⟩⟩
  · intro s fd
    simp [dispatcherepoll.process_pending_close_fds, dispatcherepoll.close_fd_safely]
  · intro fd
    exact dispatcherselect.process_pending_close_fds_closed s fd

/-- C11, as stated, fails for the select backend: with REGISTER(5, READ) and
REGISTER(9, READ) queued and fd 5 already passed to `close_fd_safely`,
`process_pending_operations` applies both operations and then its close pass unregisters
and closes fd 5, so the resulting registry and read set are not those of the left fold
of the apply function over the queue. -/
theorem C11_queue_drain_counterexample :
    (dispatcherselect.process_pending_operations
      (dispatcherselect.close_fd_safely
        (dispatcherselect.register_handler
          (dispatcherselect.register_handler dispatcherselect.init 5 READ (some 1))
          9 READ (some 2)) 5)).1.handlers_ = [(9, [(READ, some 2)])] ∧
    ([⟨OpType.REGISTER, 5, READ, some 1⟩, ⟨OpType.REGISTER, 9, READ, some 2⟩].foldl
      dispatcherselect.apply_op dispatcherselect.init).handlers_ =
      [(5, [(READ, some 1)]), (9, [(READ, some 2)])] ∧
    (5 : Int) ∉ (dispatcherselect.process_pending_operations
      (dispatcherselect.close_fd_safely
        (dispatcherselect.register_handler
          (dispatcherselect.register_handler dispatcherselect.init 5 READ (some 1))
          9 READ (some 2)) 5)).1.read_fds ∧
    (5 : Int) ∈ ([⟨OpType.REGISTER, 5, READ, some 1⟩, ⟨OpType.REGISTER, 9, READ, some 2⟩].foldl
      dispatcherselect.apply_op dispatcherselect.init).read_fds := by
  decide

/-- C11, amended. Draining the queue applies the queued operations once each, in FIFO
order, and leaves the queue empty. Epoll: `handle_wakeup` is the left fold of the apply
function over the queue contents, started from the state with the queue swapped out, an
operation that throws ending the fold; when it returns the queue is empty. Select: the
queue loop of `process_pending_operations` yields the left fold of the apply function
over the queue contents with the queue empty, and `process_pending_operations`, which
ends with a close pass, yields that same state and closes nothing when
`pending_close_fds_` is empty at the call. -/
theorem C11_queue_drain :
    (∀ s : dispatcherepoll,
      dispatcherepoll.handle_wakeup s =
        s.pending_operations_.foldlM dispatcherepoll.apply_op
          { s with wakeup_counter := 0, pending_operations_ := [] }) ∧
    (∀ s s1 : dispatcherepoll,
      dispatcherepoll.handle_wakeup s = Except.ok s1 → s1.pending_operations_ = []) ∧
    (∀ s : dispatcherselect,
      dispatcherselect.drain_operations s s.pending_operations_ =
        { s.pending_operations_.foldl dispatcherselect.apply_op s with
          pending_operations_ := [] }) ∧
    (∀ s : dispatcherselect, s.pending_close_fds_ = [] →
      dispatcherselect.process_pending_operations s =
        ({ s.pending_operations_.foldl dispatcherselect.apply_op s with
           pending_operations_ := [] }, [])) := by
  refine ⟨?_, ?_, ?_, ?_⟩
  · intro s
    rw [dispatcherepoll.handle_wakeup_eq]
    exact dispatcherepoll.drain_operations_eq_foldlM _ _
  · intro s s1 hok
    rw [dispatcherepoll.handle_wakeup_eq] at hok
    exact (dispatcherepoll.drain_operations_queue _ _ s1 hok).1
  · intro s
    exact dispatcherselect.drain_operations_eq_foldl s
  · intro s h
    unfold dispatcherselect.process_pending_operations
    rw [dispatcherselect.drain_operations_eq_foldl]
    apply dispatcherselect.process_pending_close_fds_of_nil
    show (s.pending_operations_.foldl dispatcherselect.apply_op s).pending_close_fds_ = []
    rw [dispatcherselect.pending_close_fds_foldl_apply_op, h]

/-- The witness of C11 (amended): with REGISTER(5, READ) and UNREGISTER(5, READ) queued,
the epoll drain returns with an empty queue, and the select drain closes nothing. -/
theorem C11_queue_drain_witness :
    ({ dispatcherepoll.init 3 4 1024 with
        pending_close_fds_ := [5] } : dispatcherepoll).pending_operations_ = [] ∧
    (dispatcherselect.process_pending_operations
      (dispatcherselect.unregister_handler
        (dispatcherselect.register_handler
          (dispatcherselect.register_handler dispatcherselect.init 5 READ (some 1))
          9 READ (some 2)) 5 READ)).2 = [] :=
  ⟨C11_queue_drain.2.1
      { dispatcherepoll.init 3 4 1024 with
        wakeup_counter := 2,
        pending_operations_ := [⟨OpType.REGISTER, 5, READ, some 1⟩,
                                ⟨OpType.UNREGISTER, 5, READ, none⟩] }
      { dispatcherepoll.init 3 4 1024 with pending_close_fds_ := [5] }
      ((dispatcherepoll.handle_wakeup_eq _).trans rfl),
   congrArg Prod.snd (C11_queue_drain.2.2.2
      (dispatcherselect.unregister_handler
        (dispatcherselect.register_handler
          (dispatcherselect.register_handler dispatcherselect.init 5 READ (some 1))
          9 READ (some 2)) 5 READ) (by decide))⟩

/-- C12. For a ready record of one fd the callbacks run are exactly the subsequence of
`handle_read`, `handle_write`, `handle_exception` selected by the readiness bits, in that
order, each once. Epoll: a record of a registered fd that is dispatched without a throw
appends `handle_read` if `EPOLLIN` is set, then `handle_write` if `EPOLLOUT` is set,
then `handle_exception` if `EPOLLERR` or `EPOLLHUP` is set, all on the handler stored for
the fd. Select: `collect_active_events` followed by `dispatch_active_events` returns and
runs, for the fds of the registry in key order, exactly the callbacks of
`spec_callbacks`: per fd `handle_read` on the READ handler if the read bit is ready, then
`handle_write` on the WRITE handler if the write bit is ready, then `handle_exception` on
the EXCEPTION handler if the except bit is ready, each once, when no ready bit has a null
handler stored; and the records emitted for one fd, dispatched in order, give that
subsequence. -/
theorem C12_callback_order :
    (∀ (W : Type) (beh : Behaviour W) (r r1 : Run W dispatcherepoll) (h : Nat)
        (events : Nat) (fd : Int),
      Map.find r.state.active_handlers_by_fd_ fd = some (some h) →
      dispatcherepoll.dispatch_one beh r ⟨events, epoll_data.fd fd⟩ = Except.ok r1 →
      r1.calls = r.calls ++
        (if events &&& EPOLLIN ≠ 0 then [⟨h, Callback.handle_read, fd⟩] else []) ++
        (if events &&& EPOLLOUT ≠ 0 then [⟨h, Callback.handle_write, fd⟩] else []) ++
        (if events &&& (EPOLLERR ||| EPOLLHUP) ≠ 0 then
          [⟨h, Callback.handle_exception, fd⟩] else [])) ∧
    (∀ (W : Type) (beh : Behaviour W) (w : W) (s : dispatcherselect),
      (∀ fd, fd ∈ s.read_fds_copy → dispatcherselect.lookup s fd READ ≠ some none) →
      (∀ fd, fd ∈ s.write_fds_copy → dispatcherselect.lookup s fd WRITE ≠ some none) →
      (∀ fd, fd ∈ s.except_fds_copy →
        dispatcherselect.lookup s fd EXCEPTION ≠ some none) →
      ∃ r1 : Run W dispatcherselect,
        dispatcherselect.dispatch_active_events beh
          ⟨w, dispatcherselect.collect_active_events s, []⟩ = Except.ok r1 ∧
        r1.calls =
          (s.handlers_.map (fun e => dispatcherselect.spec_callbacks s e.1)).flatten) ∧
    (∀ (W : Type) (beh : Behaviour W) (r : Run W dispatcherselect) (fd : Int)
        (hr hw he : Nat),
      (fd ∈ r.state.read_fds_copy →
        dispatcherselect.lookup r.state fd READ = some (some hr)) →
      (fd ∈ r.state.write_fds_copy →
        dispatcherselect.lookup r.state fd WRITE = some (some hw)) →
      (fd ∈ r.state.except_fds_copy →
        dispatcherselect.lookup r.state fd EXCEPTION = some (some he)) →
      ∃ r1 : Run W dispatcherselect,
        dispatcherselect.dispatch_events beh r (dispatcherselect.collect_one r.state fd) =
          Except.ok r1 ∧
        r1.calls = r.calls ++
          (if fd ∈ r.state.read_fds_copy then [⟨hr, Callback.handle_read, fd⟩] else []) ++
          (if fd ∈ r.state.write_fds_copy then [⟨hw, Callback.handle_write, fd⟩] else []) ++
          (if fd ∈ r.state.except_fds_copy then [⟨he, Callback.handle_exception, fd⟩]
           else [])) := by
  refine ⟨?_, ?_, ?_⟩
  · intro W beh r r1 h events fd hf hok
    unfold dispatcherepoll.dispatch_one at hok
    simp only [hf] at hok
    exact dispatcherepoll.run_callbacks_calls_eq beh r r1 h events fd hok
  · intro W beh w s h1 h2 h3
    obtain ⟨r1, e1, c1⟩ := dispatcherselect.dispatch_events_collect beh s h1 h2 h3
      s.handlers_ ⟨w, dispatcherselect.collect_active_events s, []⟩ rfl
    exact ⟨r1, e1, by rw [c1]; rfl⟩
  · intro W beh r fd hr hw he h1 h2 h3
    have lk : ∀ (a b : Run W dispatcherselect) (k : Nat),
        b.state.handlers_ = a.state.handlers_ →
        dispatcherselect.lookup b.state fd k = dispatcherselect.lookup a.state fd k := by
      intro a b k hab
      unfold dispatcherselect.lookup
      rw [hab]
    obtain ⟨ra, ea, ca, ha⟩ := dispatcherselect.dispatch_events_optional beh r
      (fd ∈ r.state.read_fds_copy) fd READ hr
      ((if fd ∈ r.state.write_fds_copy then [(fd, WRITE)] else []) ++
        (if fd ∈ r.state.except_fds_copy then [(fd, EXCEPTION)] else []))
      h1 (Or.inl rfl)
    obtain ⟨rb, eb, cb, hb⟩ := dispatcherselect.dispatch_events_optional beh ra
      (fd ∈ r.state.write_fds_copy) fd WRITE hw
      (if fd ∈ r.state.except_fds_copy then [(fd, EXCEPTION)] else [])
      (fun hc => by rw [lk r ra WRITE ha]; exact h2 hc) (Or.inr (Or.inl rfl))
    obtain ⟨rc, ec, cc, _⟩ := dispatcherselect.dispatch_events_optional beh rb
      (fd ∈ r.state.except_fds_copy) fd EXCEPTION he []
      (fun hc => by rw [lk ra rb EXCEPTION hb, lk r ra EXCEPTION ha]; exact h3 hc)
      (Or.inr (Or.inr rfl))
    refine ⟨rc, ?_, ?_⟩
    · unfold dispatcherselect.collect_one
      rw [List.append_assoc, ea, eb]
      rw [List.append_nil] at ec
      rw [ec]
      rfl
    · rw [cc, cb, ca]
      have e1 : dispatcherselect.callback_of READ = Callback.handle_read := by decide
      have e2 : dispatcherselect.callback_of WRITE = Callback.handle_write := by decide
      have e3 : dispatcherselect.callback_of EXCEPTION = Callback.handle_exception := by
        decide
      rw [e1, e2, e3]

/-- The witness of C12: in the epoll dispatcher fd 5 is registered with handler 1 and its
record carries `EPOLLIN` and `EPOLLHUP`: `handle_read` runs, then `handle_exception`. In
the select dispatcher fd 5 holds handler 1 for READ and handler 3 for EXCEPTION, fd 7
holds handler 2 for WRITE, and `select` reports fd 5 readable and in exception and fd 7
writable: collecting and dispatching runs `handle_read` on handler 1, `handle_exception`
on handler 3, then `handle_write` on handler 2. -/
theorem C12_callback_order_witness :
    (∃ r1 : Run Unit dispatcherepoll,
      dispatcherepoll.dispatch_one (fun w _ _ _ => (w, []))
        ⟨(), { dispatcherepoll.init 3 4 1024 with active_handlers_by_fd_ := [(5, some 1)] }, []⟩
        ⟨EPOLLIN ||| EPOLLHUP, epoll_data.fd 5⟩ = Except.ok r1 ∧
      r1.calls = [⟨1, Callback.handle_read, 5⟩, ⟨1, Callback.handle_exception, 5⟩]) ∧
    (∃ r1 : Run Unit dispatcherselect,
      dispatcherselect.dispatch_active_events (fun w _ _ _ => (w, []))
        ⟨(), dispatcherselect.collect_active_events
          { dispatcherselect.init with
            handlers_ := [(5, [(READ, some 1), (EXCEPTION, some 3)]), (7, [(WRITE, some 2)])],
            read_fds := {5}, write_fds := {7}, except_fds := {5},
            read_fds_copy := {5}, write_fds_copy := {7}, except_fds_copy := {5} }, []⟩ =
        Except.ok r1 ∧
      r1.calls = [⟨1, Callback.handle_read, 5⟩, ⟨3, Callback.handle_exception, 5⟩,
                  ⟨2, Callback.handle_write, 7⟩]) :=
  ⟨⟨_, rfl,
    (C12_callback_order.1 Unit (fun w _ _ _ => (w, []))
      ⟨(), { dispatcherepoll.init 3 4 1024 with active_handlers_by_fd_ := [(5, some 1)] }, []⟩
      _ 1 (EPOLLIN ||| EPOLLHUP) 5 rfl rfl).trans (by decide)⟩,
   (C12_callback_order.2.1 Unit (fun w _ _ _ => (w, [])) ()
      { dispatcherselect.init with
        handlers_ := [(5, [(READ, some 1), (EXCEPTION, some 3)]), (7, [(WRITE, some 2)])],
        read_fds := {5}, write_fds := {7}, except_fds := {5},
        read_fds_copy := {5}, write_fds_copy := {7}, except_fds_copy := {5} }
      (by decide) (by decide) (by decide)).imp
     (fun _ h => ⟨h.1, h.2.trans (by decide)⟩)⟩

/-- C13, as stated, fails: `register_handler(5, READ, nullptr)` is accepted at submission,
and the tick that drains it ends with `invalid_argument` leaving `loop()`; the ready
record of fd 9 behind the wakeup record is not dispatched. -/
theorem C13_epoll_errors_counterexample :
    ∃ s1 : dispatcherepoll,
      dispatcherepoll.register_handler (dispatcherepoll.init 3 4 1024) 5 READ none =
        Except.ok s1 ∧
      dispatcherepoll.loop_iteration (fun (w : Unit) _ _ _ => (w, [])) ⟨(), s1, []⟩
        (some [⟨EPOLLIN, epoll_data.ptr_this⟩, ⟨EPOLLIN, epoll_data.fd 9⟩]) =
        Except.error Exn.invalid_argument :=
  ⟨_, rfl, rfl⟩

/-- C13, amended. In the epoll backend a failing `epoll_wait` is handled locally: the
iteration is skipped with the state unchanged. An applied operation that throws is not:
a REGISTER with a null handler throws `invalid_argument`, a REGISTER or an UNREGISTER of
a registered fd whose `epoll_ctl` call the kernel refuses throws `system_error`; the
throw ends the drain without applying the operations queued behind it, and leaves the
tick and `loop()` without dispatching the remaining ready records. -/
theorem C13_epoll_errors_propagate :
    (∀ (W : Type) (beh : Behaviour W) (r : Run W dispatcherepoll),
      dispatcherepoll.loop_iteration beh r none = Except.ok (r, [])) ∧
    (∀ (s : dispatcherepoll) (fd : Int) (k : Nat),
      dispatcherepoll.do_register_handler s fd k none =
        Except.error Exn.invalid_argument) ∧
    (∀ (s : dispatcherepoll) (fd : Int) (k : Nat) (h : Option Nat),
      0 ≤ fd → h ≠ none → fd ∈ s.refused →
      dispatcherepoll.do_register_handler s fd k h =
        Except.error Exn.system_error) ∧
    (∀ (s : dispatcherepoll) (fd : Int) (k : Nat),
      0 ≤ fd → dispatcherepoll.registered s fd → fd ∈ s.refused →
      dispatcherepoll.do_unregister_handler s fd k =
        Except.error Exn.system_error) ∧
    (∀ (s : dispatcherepoll) (op : PendingOperation) (rest : List PendingOperation)
        (e : Exn),
      dispatcherepoll.apply_op s op = Except.error e →
      dispatcherepoll.drain_operations s (op :: rest) = Except.error e) ∧
    (∀ (W : Type) (beh : Behaviour W) (r : Run W dispatcherepoll) (e : Exn)
        (events : Nat) (rest : List epoll_event),
      dispatcherepoll.handle_wakeup r.state = Except.error e →
      dispatcherepoll.loop_iteration beh r
        (some (⟨events, epoll_data.ptr_this⟩ :: rest)) = Except.error e) := by
  refine ⟨fun _ _ _ => rfl, ?_, ?_, ?_, ?_, ?_⟩
  · exact dispatcherepoll.do_register_handler_null
  · exact dispatcherepoll.do_register_handler_refused
  · exact dispatcherepoll.do_unregister_handler_refused
  · intro s op rest e h
    simp [dispatcherepoll.drain_operations, h]
  · intro W beh r e events rest h
    exact dispatcherepoll.loop_iteration_wakeup_error beh r e events rest h

/-- The witness of C13 (amended): the kernel refuses fd 5, and applying REGISTER(5, READ,
h) throws `system_error`. -/
theorem C13_epoll_errors_propagate_witness :
    dispatcherepoll.do_register_handler
      { dispatcherepoll.init 3 4 1024 with refused := [5] } 5 READ (some 1) =
      Except.error Exn.system_error :=
  C13_epoll_errors_propagate.2.2.1
    { dispatcherepoll.init 3 4 1024 with refused := [5] } 5 READ (some 1)
    (by decide) (by decide) (by decide)

/-- C14, as stated, fails: fd 5 is registered with a `client_event_handler`; dispatching
its record with `EPOLLHUP` runs `handle_exception`, which calls `stop()`, and the running
flag, true before, is false afterwards. -/
theorem C14_connection_error_counterexample :
    ∃ r1 : Run Unit dispatcherepoll,
      dispatcherepoll.dispatch_one (fun w _ cb fd => client_event_handler none w cb fd)
        ⟨(), { dispatcherepoll.init 3 4 1024 with active_handlers_by_fd_ := [(5, some 1)] }, []⟩
        ⟨EPOLLHUP, epoll_data.fd 5⟩ = Except.ok r1 ∧
      (dispatcherepoll.init 3 4 1024).loop_running = true ∧
      r1.state.loop_running = false ∧
      r1.calls = [⟨1, Callback.handle_exception, 5⟩] :=
  ⟨_, rfl, rfl, rfl, rfl⟩

/-- C14, amended. In the epoll backend, for every fd whose handler is a
`client_event_handler`, dispatching a ready record of that fd that carries error or
hangup readiness runs `handle_exception`, which calls `stop()`: the running flag of the
loop is false afterwards, so `loop()` returns after the current tick. -/
theorem C14_connection_error_stops_loop (W : Type) (beh : Behaviour W)
    (r r1 : Run W dispatcherepoll) (h : Nat)
    (on_read_callback : Option (W → Int → W × List ApiCall)) (events : Nat) (fd : Int)
    (hreg : Map.find r.state.active_handlers_by_fd_ fd = some (some h))
    (hbeh : ∀ (w : W) (cb : Callback) (fd1 : Int),
      beh w h cb fd1 = client_event_handler on_read_callback w cb fd1)
    (hev : events &&& (EPOLLERR ||| EPOLLHUP) ≠ 0)
    (hok : dispatcherepoll.dispatch_one beh r ⟨events, epoll_data.fd fd⟩ = Except.ok r1) :
    r1.state.loop_running = false ∧ ⟨h, Callback.handle_exception, fd⟩ ∈ r1.calls := by
  unfold dispatcherepoll.dispatch_one at hok
  simp only [hreg] at hok
  unfold dispatcherepoll.run_callbacks at hok
  cases h1 : (if events &&& EPOLLIN ≠ 0 then
      dispatcherepoll.invoke beh r h Callback.handle_read fd else Except.ok r) with
  | error e => simp [h1] at hok
  | ok ra =>
    simp only [h1] at hok
    cases h2 : (if events &&& EPOLLOUT ≠ 0 then
        dispatcherepoll.invoke beh ra h Callback.handle_write fd else Except.ok ra) with
    | error e => simp [h2] at hok
    | ok rb =>
      simp only [h2] at hok
      rw [if_pos hev] at hok
      refine ⟨dispatcherepoll.invoke_client_exception beh rb r1 h fd on_read_callback
        hbeh hok, ?_⟩
      rw [dispatcherepoll.invoke_calls beh rb r1 h Callback.handle_exception fd hok]
      simp

/-- The witness of C14 (amended): the record of fd 5, registered with a
`client_event_handler`, carries `EPOLLIN` and `EPOLLERR`; the running flag ends false. -/
theorem C14_connection_error_stops_loop_witness :
    ∃ r1 : Run Unit dispatcherepoll,
      dispatcherepoll.dispatch_one (fun w _ cb fd => client_event_handler none w cb fd)
        ⟨(), { dispatcherepoll.init 3 4 1024 with active_handlers_by_fd_ := [(5, some 1)] }, []⟩
        ⟨EPOLLIN ||| EPOLLERR, epoll_data.fd 5⟩ = Except.ok r1 ∧
      r1.state.loop_running = false :=
  ⟨_, rfl,
    (C14_connection_error_stops_loop Unit
      (fun w _ cb fd => client_event_handler none w cb fd)
      ⟨(), { dispatcherepoll.init 3 4 1024 with active_handlers_by_fd_ := [(5, some 1)] }, []⟩
      _ 1 none (EPOLLIN ||| EPOLLERR) 5 rfl (fun _ _ _ => rfl) (by decide) rfl).1⟩

/-- C15, evaluated on the failing input: the select acceptor reads a complete request
and its `write` returns -1; it makes the write and then neither submits an unregister
nor schedules the close, while after a successful write it does both, and the epoll
acceptor does the teardown whatever the write returns. -/
theorem C15_select_write_failure_no_teardown :
    select_event_handler.clientconnections 5
        (ReadResult.bytes "GET / HTTP/1.1\r\n\r\n".toList) (-1) =
      [Out.write 5 select_event_handler.response.toList] ∧
    select_event_handler.clientconnections 5
        (ReadResult.bytes "GET / HTTP/1.1\r\n\r\n".toList) 96 =
      [Out.write 5 select_event_handler.response.toList,
       Out.call (ApiCall.unregister_handler 5 READ),
       Out.call (ApiCall.close_fd_safely 5)] ∧
    (epoll_event_handler.clientconnections [(5, [])] 5
        [ReadResult.bytes "GET / HTTP/1.1\r\n\r\n".toList]).2.1 =
      [Out.write 5 epoll_event_handler.response.toList,
       Out.call (ApiCall.unregister_handler 5 READ)] := by
  decide

/-- C16. Epoll acceptor, a connection whose accumulated bytes hold no CRLFCRLF: (a) a
read that returns 0, or fails with an errno other than `EAGAIN`/`EWOULDBLOCK`, submits
exactly one unregister for the fd, erases its receive buffer and writes nothing; (b) a
read that fails with `EAGAIN`/`EWOULDBLOCK` ends the drain with no output, and the
receive buffer holds all the bytes appended so far. -/
theorem C16_epoll_drain_termination (client_recv_buffers : List (Int × List Char))
    (fd : Int) (b : List Char) (front : List (List Char)) (back : List ReadResult)
    (hbuf : Map.find client_recv_buffers fd = some b)
    (hfront : ∀ c ∈ front, c ≠ [])
    (hnot : ¬ CRLFCRLF <:+: b ++ front.flatten) :
    epoll_event_handler.clientconnections client_recv_buffers fd
        (front.map ReadResult.bytes ++ ReadResult.bytes [] :: back) =
      (Map.erase fd client_recv_buffers,
       [Out.call (ApiCall.unregister_handler fd READ)], back) ∧
    (∀ errno : Nat, ¬ (errno = EAGAIN ∨ errno = EWOULDBLOCK) →
      epoll_event_handler.clientconnections client_recv_buffers fd
          (front.map ReadResult.bytes ++ ReadResult.fail errno :: back) =
        (Map.erase fd client_recv_buffers,
         [Out.call (ApiCall.unregister_handler fd READ)], back)) ∧
    (∀ errno : Nat, errno = EAGAIN ∨ errno = EWOULDBLOCK →
      epoll_event_handler.clientconnections client_recv_buffers fd
          (front.map ReadResult.bytes ++ ReadResult.fail errno :: back) =
        (Map.assign fd (b ++ front.flatten) client_recv_buffers, [], back)) ∧
    Map.find (Map.erase fd client_recv_buffers) fd = none ∧
    Map.find (Map.assign fd (b ++ front.flatten) client_recv_buffers) fd =
      some (b ++ front.flatten) := by
  refine ⟨?_, ?_, ?_, Map.find_erase_self _ _, Map.find_assign_self _ _ _⟩
  · unfold epoll_event_handler.clientconnections
    simp only [hbuf]
    rw [epoll_event_handler.drain_front fd b front _ hfront hnot]
    simp [epoll_event_handler.drain]
  · intro errno he
    unfold epoll_event_handler.clientconnections
    simp only [hbuf]
    rw [epoll_event_handler.drain_front fd b front _ hfront hnot]
    simp [epoll_event_handler.drain, he]
  · intro errno he
    unfold epoll_event_handler.clientconnections
    simp only [hbuf]
    rw [epoll_event_handler.drain_front fd b front _ hfront hnot]
    simp [epoll_event_handler.drain, he]

/-- The witness of C16: the client sends `GET /` and closes; the one unregister is
submitted, the buffer is erased and nothing is written. -/
theorem C16_epoll_drain_termination_witness :
    epoll_event_handler.clientconnections [(7, [])] 7
        (["GET /".toList].map ReadResult.bytes ++ ReadResult.bytes [] :: []) =
      (Map.erase 7 [(7, [])], [Out.call (ApiCall.unregister_handler 7 READ)], []) :=
  (C16_epoll_drain_termination [(7, [])] 7 [] ["GET /".toList] [] rfl
    (by decide) (by decide)).1

/-- C17. In the epoll backend a negative fd is reported at submission and changes
nothing: for every fd < 0, `register_handler` and `unregister_handler` leave with
`invalid_argument`, thrown by the `PendingOperation` constructor inside `emplace`, and the
dispatcher is then exactly as before the call: nothing was queued and `wakeup()` was not
reached, so the counter of the wakeup descriptor was not written. -/
theorem C17_invalid_fd_at_submission (s : dispatcherepoll) (fd : Int) (k : Nat)
    (h : Option Nat) (hfd : fd < 0) :
    dispatcherepoll.register_handler_call s fd k h = (s, some Exn.invalid_argument) ∧
    dispatcherepoll.unregister_handler_call s fd k = (s, some Exn.invalid_argument) ∧
    dispatcherepoll.register_handler s fd k h = Except.error Exn.invalid_argument ∧
    dispatcherepoll.unregister_handler s fd k = Except.error Exn.invalid_argument ∧
    (dispatcherepoll.register_handler_call s fd k h).1.pending_operations_ =
      s.pending_operations_ ∧
    (dispatcherepoll.register_handler_call s fd k h).1.wakeup_counter = s.wakeup_counter ∧
    (dispatcherepoll.unregister_handler_call s fd k).1.pending_operations_ =
      s.pending_operations_ ∧
    (dispatcherepoll.unregister_handler_call s fd k).1.wakeup_counter = s.wakeup_counter := by
  have h1 : dispatcherepoll.register_handler_call s fd k h =
      (s, some Exn.invalid_argument) := by
    simp [dispatcherepoll.register_handler_call, dispatcherepoll.emplace,
      dispatcherepoll.PendingOperation_ctor, hfd]
  have h2 : dispatcherepoll.unregister_handler_call s fd k =
      (s, some Exn.invalid_argument) := by
    simp [dispatcherepoll.unregister_handler_call, dispatcherepoll.emplace,
      dispatcherepoll.PendingOperation_ctor, hfd]
  refine ⟨h1, h2, ?_, ?_, ?_, ?_, ?_, ?_⟩
  · unfold dispatcherepoll.register_handler
    rw [h1]
  · unfold dispatcherepoll.unregister_handler
    rw [h2]
  · rw [h1]
  · rw [h1]
  · rw [h2]
  · rw [h2]

/-- The witness of C17: fd -1 is refused by both entry points of a dispatcher that has
one operation queued and its wakeup counter at 1, and both stay as they are; the same
calls for fd 5 queue the operation and write the wakeup. -/
theorem C17_invalid_fd_at_submission_witness :
    dispatcherepoll.register_handler_call
        { dispatcherepoll.init 3 4 1024 with
          pending_operations_ := [⟨OpType.REGISTER, 7, READ, some 2⟩],
          wakeup_counter := 1 } (-1) READ (some 1) =
      ({ dispatcherepoll.init 3 4 1024 with
          pending_operations_ := [⟨OpType.REGISTER, 7, READ, some 2⟩],
          wakeup_counter := 1 }, some Exn.invalid_argument) ∧
    dispatcherepoll.register_handler_call
        { dispatcherepoll.init 3 4 1024 with
          pending_operations_ := [⟨OpType.REGISTER, 7, READ, some 2⟩],
          wakeup_counter := 1 } 5 READ (some 1) =
      ({ dispatcherepoll.init 3 4 1024 with
          pending_operations_ := [⟨OpType.REGISTER, 7, READ, some 2⟩,
                                  ⟨OpType.REGISTER, 5, READ, some 1⟩],
          wakeup_counter := 2 }, none) :=
  ⟨(C17_invalid_fd_at_submission
      { dispatcherepoll.init 3 4 1024 with
        pending_operations_ := [⟨OpType.REGISTER, 7, READ, some 2⟩],
        wakeup_counter := 1 } (-1) READ (some 1) (by decide)).1,
   by decide⟩

/-- C18. For every kind value k, `convert_to_epoll_events(k)` is exactly the union of
`EPOLLIN` if READ is in k, `EPOLLOUT` if WRITE is in k, `EPOLLERR | EPOLLHUP` if
EXCEPTION is in k, `EPOLLHUP` if HANGUP is in k and `EPOLLET` if EDGE_TRIGGERED is in k;
`EPOLLET` is set exactly when EDGE_TRIGGERED is in k; and the conversion of a union is
the union of the conversions. -/
theorem C18_convert_to_epoll_events :
    (∀ k : Nat,
      dispatcherepoll.convert_to_epoll_events k =
        (if has_event k READ then EPOLLIN else 0) |||
        (if has_event k WRITE then EPOLLOUT else 0) |||
        (if has_event k EXCEPTION then EPOLLERR ||| EPOLLHUP else 0) |||
        (if has_event k HANGUP then EPOLLHUP else 0) |||
        (if has_event k EDGE_TRIGGERED then EPOLLET else 0)) ∧
    (∀ k : Nat,
      dispatcherepoll.convert_to_epoll_events k &&& EPOLLET ≠ 0 ↔
        has_event k EDGE_TRIGGERED = true) ∧
    (∀ a b : Nat,
      dispatcherepoll.convert_to_epoll_events (a ||| b) =
        dispatcherepoll.convert_to_epoll_events a |||
          dispatcherepoll.convert_to_epoll_events b) := by
  refine ⟨?_, ?_, ?_⟩
  · intro k
    rw [dispatcherepoll.convert_to_epoll_events_mask k,
      dispatcherepoll.has_event_mask k READ (by decide),
      dispatcherepoll.has_event_mask k WRITE (by decide),
      dispatcherepoll.has_event_mask k EXCEPTION (by decide),
      dispatcherepoll.has_event_mask k HANGUP (by decide),
      dispatcherepoll.has_event_mask k EDGE_TRIGGERED (by decide)]
    exact dispatcherepoll.convert_to_epoll_events_union_small (k &&& 31)
      (dispatcherepoll.mask_lt k)
  · intro k
    rw [dispatcherepoll.convert_to_epoll_events_mask k,
      dispatcherepoll.has_event_mask k EDGE_TRIGGERED (by decide)]
    exact dispatcherepoll.convert_to_epoll_events_edge_small (k &&& 31)
      (dispatcherepoll.mask_lt k)
  · intro a b
    rw [dispatcherepoll.convert_to_epoll_events_mask (a ||| b),
      dispatcherepoll.convert_to_epoll_events_mask a,
      dispatcherepoll.convert_to_epoll_events_mask b, Nat.and_distrib_right]
    exact dispatcherepoll.convert_to_epoll_events_lor_small (a &&& 31)
      (dispatcherepoll.mask_lt a) (b &&& 31) (dispatcherepoll.mask_lt b)

/-- C19, as stated, fails: on a fresh select dispatcher REGISTER(5, READ | EDGE_TRIGGERED,
h) leaves the registry and the read set empty, while REGISTER(5, READ, h) stores the
handler and sets bit 5. -/
theorem C19_select_edge_triggered_counterexample :
    (dispatcherselect.do_register_handler dispatcherselect.init 5
      (READ ||| EDGE_TRIGGERED) (some 1)).handlers_ = [] ∧
    (5 : Int) ∉ (dispatcherselect.do_register_handler dispatcherselect.init 5
      (READ ||| EDGE_TRIGGERED) (some 1)).read_fds ∧
    (dispatcherselect.do_register_handler dispatcherselect.init 5 READ (some 1)).handlers_ =
      [(5, [(READ, some 1)])] ∧
    (5 : Int) ∈ (dispatcherselect.do_register_handler dispatcherselect.init 5 READ
      (some 1)).read_fds := by
  decide

/-- C19, amended. In the select backend the kind of a registration is compared as a whole
value: for every state, fd, handler and base kind k among READ, WRITE, EXCEPTION,
applying REGISTER(fd, k | EDGE_TRIGGERED, h) leaves the registry and the three sets as
they were (the fd is not registered for k); only `max_fd` is raised to fd when fd is
larger. -/
theorem C19_select_edge_triggered_not_registered (s : dispatcherselect) (fd : Int)
    (k : Nat) (h : Option Nat) (hk : k = READ ∨ k = WRITE ∨ k = EXCEPTION) :
    (dispatcherselect.do_register_handler s fd (k ||| EDGE_TRIGGERED) h).handlers_ =
      s.handlers_ ∧
    (dispatcherselect.do_register_handler s fd (k ||| EDGE_TRIGGERED) h).read_fds =
      s.read_fds ∧
    (dispatcherselect.do_register_handler s fd (k ||| EDGE_TRIGGERED) h).write_fds =
      s.write_fds ∧
    (dispatcherselect.do_register_handler s fd (k ||| EDGE_TRIGGERED) h).except_fds =
      s.except_fds ∧
    (dispatcherselect.do_register_handler s fd (k ||| EDGE_TRIGGERED) h).max_fd =
      max s.max_fd fd := by
  have hn := dispatcherselect.base_kind_with_edge k hk
  have h1 : ¬ k ||| EDGE_TRIGGERED = READ := fun e => hn (Or.inl e)
  have h2 : ¬ k ||| EDGE_TRIGGERED = WRITE := fun e => hn (Or.inr (Or.inl e))
  have h3 : ¬ k ||| EDGE_TRIGGERED = EXCEPTION := fun e => hn (Or.inr (Or.inr e))
  refine ⟨?_, ?_, ?_, ?_, ?_⟩
  · rw [dispatcherselect.handlers_do_register_handler, if_neg hn]
  · rw [dispatcherselect.read_fds_do_register_handler, if_neg h1]
  · rw [dispatcherselect.write_fds_do_register_handler, if_neg h2]
  · rw [dispatcherselect.except_fds_do_register_handler, if_neg h3]
  · unfold dispatcherselect.do_register_handler
    simp only [h1, h2, h3, if_false]
    split_ifs with hm
    · exact (max_eq_right (le_of_lt hm)).symm
    · exact (max_eq_left (not_lt.mp hm)).symm

/-- The witness of C19 (amended): REGISTER(5, WRITE | EDGE_TRIGGERED, h) on a fresh
select dispatcher registers nothing and raises `max_fd` from -1 to 5. -/
theorem C19_select_edge_triggered_not_registered_witness :
    (dispatcherselect.do_register_handler dispatcherselect.init 5
      (WRITE ||| EDGE_TRIGGERED) (some 1)).handlers_ = [] ∧
    (dispatcherselect.do_register_handler dispatcherselect.init 5
      (WRITE ||| EDGE_TRIGGERED) (some 1)).max_fd = max (-1) 5 :=
  ⟨(C19_select_edge_triggered_not_registered dispatcherselect.init 5 WRITE (some 1)
      (Or.inr (Or.inl rfl))).1,
   (C19_select_edge_triggered_not_registered dispatcherselect.init 5 WRITE (some 1)
      (Or.inr (Or.inl rfl))).2.2.2.2⟩

/-- C21 — the five `EventIOType` flags are pairwise disjoint single bits; for a single
flag `f`, `has_event (a | b, f)` holds exactly when it holds of `a` or of `b`, and
`has_event (a & b, f)` exactly when it holds of both; between two single flags
`has_event (f, g)` holds exactly when `f = g`; `operator|` and `operator&` are
commutative, associative and idempotent. -/
theorem C21_flag_algebra :
    (READ = 2 ^ 0 ∧ WRITE = 2 ^ 1 ∧ HANGUP = 2 ^ 2 ∧ EDGE_TRIGGERED = 2 ^ 3 ∧
      EXCEPTION = 2 ^ 4) ∧
    (∀ f ∈ [READ, WRITE, HANGUP, EDGE_TRIGGERED, EXCEPTION],
      ∀ g ∈ [READ, WRITE, HANGUP, EDGE_TRIGGERED, EXCEPTION],
        f ≠ g → operator_and f g = 0) ∧
    (∀ a b : Nat, ∀ f ∈ [READ, WRITE, HANGUP, EDGE_TRIGGERED, EXCEPTION],
      (has_event (operator_or a b) f = true ↔ has_event a f = true ∨ has_event b f = true)) ∧
    (∀ a b : Nat, ∀ f ∈ [READ, WRITE, HANGUP, EDGE_TRIGGERED, EXCEPTION],
      (has_event (operator_and a b) f = true ↔
        has_event a f = true ∧ has_event b f = true)) ∧
    (∀ f ∈ [READ, WRITE, HANGUP, EDGE_TRIGGERED, EXCEPTION],
      ∀ g ∈ [READ, WRITE, HANGUP, EDGE_TRIGGERED, EXCEPTION],
        (has_event f g = true ↔ f = g)) ∧
    (∀ a b : Nat, operator_or a b = operator_or b a) ∧
    (∀ a b c : Nat, operator_or (operator_or a b) c = operator_or a (operator_or b c)) ∧
    (∀ a : Nat, operator_or a a = a) ∧
    (∀ a b : Nat, operator_and a b = operator_and b a) ∧
    (∀ a b c : Nat, operator_and (operator_and a b) c = operator_and a (operator_and b c)) ∧
    (∀ a : Nat, operator_and a a = a) := by
  refine ⟨by decide, by decide, ?_, ?_, by decide, ?_, ?_, ?_, ?_, ?_, ?_⟩
  · intro a b f hf
    unfold operator_or
    rw [dispatcherepoll.has_event_mask (a ||| b) f (flag_mask f hf),
      dispatcherepoll.has_event_mask a f (flag_mask f hf),
      dispatcherepoll.has_event_mask b f (flag_mask f hf), Nat.and_distrib_right]
    exact has_event_or_small _ (dispatcherepoll.mask_lt a) _ (dispatcherepoll.mask_lt b) f hf
  · intro a b f hf
    unfold operator_and
    rw [dispatcherepoll.has_event_mask (a &&& b) f (flag_mask f hf),
      dispatcherepoll.has_event_mask a f (flag_mask f hf),
      dispatcherepoll.has_event_mask b f (flag_mask f hf), and_mask_and]
    exact has_event_and_small _ (dispatcherepoll.mask_lt a) _ (dispatcherepoll.mask_lt b) f hf
  · intro a b
    exact Nat.lor_comm a b
  · intro a b c
    exact Nat.lor_assoc a b c
  · intro a
    exact Nat.or_self a
  · intro a b
    exact Nat.land_comm a b
  · intro a b c
    exact Nat.land_assoc a b c
  · intro a
    exact Nat.and_self a

/-- C22 — after `N ≥ 1` calls of `wakeup()` the eventfd counter is positive (the
descriptor is readable); the read loop of `handle_wakeup` then leaves the counter at
zero, where a further read fails with `EAGAIN` (the descriptor is not readable); one
`handle_wakeup` gives the same result for every such `N`, namely the queued operations
applied once each, in order, to the dispatcher with the queue swapped out; and when no
operation throws, the counter is zero and the queue empty afterwards. -/
theorem C22_wakeup_idempotent (s : dispatcherepoll) (N : Nat) (hN : 1 ≤ N) :
    0 < (Nat.iterate dispatcherepoll.wakeup N s).wakeup_counter ∧
    dispatcherepoll.eventfd_read (Nat.iterate dispatcherepoll.wakeup N s).wakeup_counter =
      (some (Nat.iterate dispatcherepoll.wakeup N s).wakeup_counter, 0) ∧
    dispatcherepoll.read_wakeup_fd
      (Nat.iterate dispatcherepoll.wakeup N s).wakeup_counter = 0 ∧
    dispatcherepoll.eventfd_read (dispatcherepoll.read_wakeup_fd
      (Nat.iterate dispatcherepoll.wakeup N s).wakeup_counter) = (none, 0) ∧
    dispatcherepoll.handle_wakeup (Nat.iterate dispatcherepoll.wakeup N s) =
      dispatcherepoll.handle_wakeup (dispatcherepoll.wakeup s) ∧
    dispatcherepoll.handle_wakeup (Nat.iterate dispatcherepoll.wakeup N s) =
      s.pending_operations_.foldlM dispatcherepoll.apply_op
        { s with wakeup_counter := 0, pending_operations_ := [] } ∧
    (∀ s1, dispatcherepoll.handle_wakeup (Nat.iterate dispatcherepoll.wakeup N s) =
        Except.ok s1 →
      s1.wakeup_counter = 0 ∧ s1.pending_operations_ = [] ∧
      dispatcherepoll.eventfd_read s1.wakeup_counter = (none, 0)) := by
  have h0 : dispatcherepoll.handle_wakeup (Nat.iterate dispatcherepoll.wakeup N s) =
      dispatcherepoll.handle_wakeup s := by
    rw [dispatcherepoll.iterate_wakeup_eq N s]
    exact dispatcherepoll.handle_wakeup_set_counter s _
  have hpos : 0 < (Nat.iterate dispatcherepoll.wakeup N s).wakeup_counter := by
    obtain ⟨n, rfl⟩ : ∃ n, N = n + 1 := ⟨N - 1, by omega⟩
    rw [Function.iterate_succ_apply']
    exact dispatcherepoll.wakeup_counter_pos _
  refine ⟨hpos, ?_, ?_, ?_, ?_, ?_, ?_⟩
  · exact dispatcherepoll.eventfd_read_pos _ (Nat.pos_iff_ne_zero.mp hpos)
  · exact dispatcherepoll.read_wakeup_fd_eq _
  · rw [dispatcherepoll.read_wakeup_fd_eq]
    exact dispatcherepoll.eventfd_read_zero
  · rw [h0, dispatcherepoll.wakeup_eq s]
    exact (dispatcherepoll.handle_wakeup_set_counter s _).symm
  · rw [h0, dispatcherepoll.handle_wakeup_eq]
    exact dispatcherepoll.drain_operations_eq_foldlM _ _
  · intro s1 hok
    rw [h0, dispatcherepoll.handle_wakeup_eq] at hok
    have := dispatcherepoll.drain_operations_queue _ _ s1 hok
    refine ⟨this.2, this.1, ?_⟩
    rw [this.2]
    exact dispatcherepoll.eventfd_read_zero

/-- Witness for C22: three `wakeup()` calls on a dispatcher with one queued REGISTER. -/
theorem C22_wakeup_idempotent_witness :
    1 ≤ 3 ∧
    dispatcherepoll.handle_wakeup (Nat.iterate dispatcherepoll.wakeup 3
        { dispatcherepoll.init 3 4 1024 with
          pending_operations_ := [⟨OpType.REGISTER, 5, READ, some 1⟩] }) =
      dispatcherepoll.handle_wakeup (dispatcherepoll.wakeup
        { dispatcherepoll.init 3 4 1024 with
          pending_operations_ := [⟨OpType.REGISTER, 5, READ, some 1⟩] }) :=
  ⟨by decide,
   (C22_wakeup_idempotent
      { dispatcherepoll.init 3 4 1024 with
        pending_operations_ := [⟨OpType.REGISTER, 5, READ, some 1⟩] } 3
      (by decide)).2.2.2.2.1⟩

/-- C23 — `valid()` holds exactly when `get() >= 0`; the move constructor gives the new
object the source's value and leaves `-1` in the source; the destructor passes the value
to `close` exactly when it is `>= 0`; so destroying the moved-from source and the
destination of a valid descriptor, in either order, closes it exactly once. -/
theorem C23_file_descriptor (a : FileDescriptor) :
    (a.valid = true ↔ a.get ≥ 0) ∧
    (FileDescriptor.move a).1.get = a.get ∧
    (FileDescriptor.move a).2.get = -1 ∧
    (FileDescriptor.move a).2.valid = false ∧
    (∀ fd : Int, fd ∈ a.destructor ↔ fd = a.get ∧ a.get ≥ 0) ∧
    a.destructor.length ≤ 1 ∧
    (FileDescriptor.move a).2.destructor = [] ∧
    (a.valid = true →
      (FileDescriptor.move a).2.destructor ++ (FileDescriptor.move a).1.destructor =
        [a.get] ∧
      (FileDescriptor.move a).1.destructor ++ (FileDescriptor.move a).2.destructor =
        [a.get]) := by
  cases a with
  | mk v =>
    refine ⟨?_, rfl, rfl, rfl, ?_, ?_, rfl, ?_⟩
    · simp [FileDescriptor.valid, FileDescriptor.get]
    · intro fd
      simp only [FileDescriptor.destructor, FileDescriptor.get]
      split_ifs with h <;> simp [h]
    · simp only [FileDescriptor.destructor]
      split_ifs <;> simp
    · intro h
      have hv : v ≥ 0 := by simpa [FileDescriptor.valid] using h
      simp [FileDescriptor.destructor, FileDescriptor.move, FileDescriptor.get, hv]

/-- Witness for C23: the wrapper of descriptor 7. -/
theorem C23_file_descriptor_witness :
    (FileDescriptor.mk 7).valid = true ∧
    (FileDescriptor.move ⟨7⟩).2.destructor ++ (FileDescriptor.move ⟨7⟩).1.destructor = [7] :=
  ⟨by decide, ((C23_file_descriptor ⟨7⟩).2.2.2.2.2.2.2 (by decide)).1⟩

/-- C24, the claim as stated fails: the response literal is not 102 bytes long. -/
theorem C24_response_length_counterexample :
    ¬ (epoll_event_handler.response.utf8ByteSize = 102) := by
  decide

/-- C24, amended — the canned response (status line, headers, blank line and body) is
96 bytes long in both acceptors: 83 bytes up to and including the blank line and a
13-byte body; it is what the epoll acceptor writes for a minimal request. -/
theorem C24_response_length :
    epoll_event_handler.response.utf8ByteSize = 96 ∧
    select_event_handler.response.utf8ByteSize = 96 ∧
    epoll_event_handler.response.toList.length = 96 ∧
    string_find epoll_event_handler.response.toList CRLFCRLF = some 79 ∧
    (body_after_blank_line epoll_event_handler.response.toList).length = 13 ∧
    (epoll_event_handler.clientconnections [(5, [])] 5
        [ReadResult.bytes "GET / HTTP/1.1\r\nHost: x\r\n\r\n".toList]).2.1 =
      [Out.write 5 epoll_event_handler.response.toList,
       Out.call (ApiCall.unregister_handler 5 READ)] := by
  decide

/-- C25, the code fails the claim: `handle_wakeup` swaps `pending_operations_` with
`pending_op_mutex_` held, but `register_handler` and `unregister_handler` push to it
without taking the mutex. -/
theorem C25_queue_push_without_mutex :
    dispatcherepoll.guarded false dispatcherepoll.handle_wakeup_steps = true ∧
    dispatcherepoll.guarded false dispatcherepoll.register_handler_steps = false ∧
    dispatcherepoll.guarded false dispatcherepoll.unregister_handler_steps = false := by
  decide

set_option maxRecDepth 100000 in
/-- C26, evaluated on the failing input: after REGISTER(5, READ) and REGISTER(9, HANGUP)
fd 5 is registered and is the only fd with a bit set, fd 9 has no registry entry and no
bit, yet `max_fd` is 9; the rescan of `do_unregister_handler` on the same sets gives 5. -/
theorem C26_select_max_fd_not_monitored :
    dispatcherselect.registered
      (dispatcherselect.exec dispatcherselect.init
        [dispatcherselect.Action.apply ⟨OpType.REGISTER, 5, READ, some 1⟩,
         dispatcherselect.Action.apply ⟨OpType.REGISTER, 9, HANGUP, some 1⟩]) 5 READ ∧
    dispatcherselect.monitored
      (dispatcherselect.exec dispatcherselect.init
        [dispatcherselect.Action.apply ⟨OpType.REGISTER, 5, READ, some 1⟩,
         dispatcherselect.Action.apply ⟨OpType.REGISTER, 9, HANGUP, some 1⟩]) = {5} ∧
    Map.find (dispatcherselect.exec dispatcherselect.init
        [dispatcherselect.Action.apply ⟨OpType.REGISTER, 5, READ, some 1⟩,
         dispatcherselect.Action.apply ⟨OpType.REGISTER, 9, HANGUP, some 1⟩]).handlers_ 9 =
      none ∧
    (dispatcherselect.exec dispatcherselect.init
        [dispatcherselect.Action.apply ⟨OpType.REGISTER, 5, READ, some 1⟩,
         dispatcherselect.Action.apply ⟨OpType.REGISTER, 9, HANGUP, some 1⟩]).max_fd = 9 ∧
    dispatcherselect.rescan_max_fd (dispatcherselect.exec dispatcherselect.init
        [dispatcherselect.Action.apply ⟨OpType.REGISTER, 5, READ, some 1⟩,
         dispatcherselect.Action.apply ⟨OpType.REGISTER, 9, HANGUP, some 1⟩]) = 5 := by
  decide

/-- C28, the claim as stated fails: in the epoll backend an applied UNREGISTER of fd 5
followed by `close_fd_safely(5)` makes one close pass call `close(5)` twice. -/
theorem C28_close_once_counterexample :
    ∃ s, dispatcherepoll.exec (dispatcherepoll.init 3 4 1024)
        [dispatcherepoll.Action.apply ⟨OpType.REGISTER, 5, READ, some 1⟩,
         dispatcherepoll.Action.apply ⟨OpType.UNREGISTER, 5, READ, none⟩,
         dispatcherepoll.Action.close_fd_safely 5] = Except.ok s ∧
      (dispatcherepoll.process_pending_close_fds s).2 = [5, 5] ∧
      (dispatcherepoll.process_pending_close_fds
        (dispatcherepoll.close_fd_safely
          (dispatcherepoll.close_fd_safely (dispatcherepoll.init 3 4 1024) 5) 5)).2 = [5, 5] :=
  ⟨_, rfl, rfl, rfl⟩

/-- C28, amended — in the select backend one close pass, started from any reachable
state, calls `close` at most once per distinct fd value; in the epoll backend one close
pass calls `close` once per element of the pending-close list, so at most once per fd
value only when that list holds no fd twice. -/
theorem C28_close_once :
    (∀ history : List dispatcherselect.Action,
      (dispatcherselect.process_pending_close_fds
        (dispatcherselect.exec dispatcherselect.init history)).2.Nodup ∧
      ∀ fd : Int, List.count fd (dispatcherselect.process_pending_close_fds
        (dispatcherselect.exec dispatcherselect.init history)).2 ≤ 1) ∧
    (∀ s : dispatcherepoll,
      (dispatcherepoll.process_pending_close_fds s).2 = s.pending_close_fds_ ∧
      (s.pending_close_fds_.Nodup → (dispatcherepoll.process_pending_close_fds s).2.Nodup)) := by
  constructor
  · intro history
    have hn : (dispatcherselect.process_pending_close_fds
        (dispatcherselect.exec dispatcherselect.init history)).2.Nodup :=
      dispatcherselect.foldl_close_one_nodup _ (_, [])
        (dispatcherselect.consistent_exec history dispatcherselect.init
          dispatcherselect.consistent_init)
        (dispatcherselect.keyed_exec history) List.nodup_nil
        (fun fd hfd => absurd hfd (List.not_mem_nil fd))
    exact ⟨hn, List.nodup_iff_count_le_one.mp hn⟩
  · intro s
    exact ⟨rfl, fun h => h⟩

/-- C29 — in the select backend, after every sequence of applied operations,
`close_fd_safely` calls and close passes whose REGISTER operations name fds in
`[0, FD_SETSIZE)`, every fd set in one of the three sets, and every fd with a registry
entry, lies in `[0, max_fd + 1)`, the range handed to `select`. -/
theorem C29_select_max_fd_upper_bound (history : List dispatcherselect.Action)
    (hP : ∀ a ∈ history, dispatcherselect.Action.in_range a = true) :
    (∀ fd : Int,
      fd ∈ (dispatcherselect.exec dispatcherselect.init history).read_fds ∨
      fd ∈ (dispatcherselect.exec dispatcherselect.init history).write_fds ∨
      fd ∈ (dispatcherselect.exec dispatcherselect.init history).except_fds →
      0 ≤ fd ∧ fd ≤ (dispatcherselect.exec dispatcherselect.init history).max_fd ∧
      fd < (dispatcherselect.exec dispatcherselect.init history).max_fd + 1) ∧
    (∀ (fd : Int) (k : Nat),
      dispatcherselect.registered (dispatcherselect.exec dispatcherselect.init history) fd k →
      0 ≤ fd ∧ fd < (dispatcherselect.exec dispatcherselect.init history).max_fd + 1) := by
  have hc := dispatcherselect.covered_exec history hP
  have hk := dispatcherselect.keyed_exec history
  have hcons := dispatcherselect.consistent_exec history dispatcherselect.init
    dispatcherselect.consistent_init
  constructor
  · intro fd hfd
    obtain ⟨a, _, c⟩ := hc fd ((dispatcherselect.mem_monitored _ fd).mpr hfd)
    exact ⟨a, c, Int.lt_add_one_iff.mpr c⟩
  · intro fd k hr
    have hm := dispatcherselect.interest_subset_monitored _ fd k
      ((hcons fd k (hk.1 fd k hr)).mp hr)
    obtain ⟨a, _, c⟩ := hc fd hm
    exact ⟨a, Int.lt_add_one_iff.mpr c⟩

/-- Witness for C29: READ on fd 5, then a REGISTER of fd 9 with the kind HANGUP, which
sets no bit. -/
theorem C29_select_max_fd_upper_bound_witness :
    (∀ a ∈ [dispatcherselect.Action.apply ⟨OpType.REGISTER, 5, READ, some 1⟩,
            dispatcherselect.Action.apply ⟨OpType.REGISTER, 9, HANGUP, some 1⟩],
      dispatcherselect.Action.in_range a = true) ∧
    (∀ (fd : Int) (k : Nat),
      dispatcherselect.registered (dispatcherselect.exec dispatcherselect.init
        [dispatcherselect.Action.apply ⟨OpType.REGISTER, 5, READ, some 1⟩,
         dispatcherselect.Action.apply ⟨OpType.REGISTER, 9, HANGUP, some 1⟩]) fd k →
      0 ≤ fd ∧ fd < (dispatcherselect.exec dispatcherselect.init
        [dispatcherselect.Action.apply ⟨OpType.REGISTER, 5, READ, some 1⟩,
         dispatcherselect.Action.apply ⟨OpType.REGISTER, 9, HANGUP, some 1⟩]).max_fd + 1) :=
  ⟨by decide,
   (C29_select_max_fd_upper_bound
      [dispatcherselect.Action.apply ⟨OpType.REGISTER, 5, READ, some 1⟩,
       dispatcherselect.Action.apply ⟨OpType.REGISTER, 9, HANGUP, some 1⟩]
      (by decide)).2⟩

/-- C30 — in the epoll backend an UNREGISTER of `fd` gives the same result (registry,
interest list, pending-close list and every other member, or the same exception) whatever
kind it carries, and after a successful one `fd` has no registry entry. -/
theorem C30_epoll_unregister_ignores_kind (s : dispatcherepoll) (fd : Int) (k1 k2 : Nat) :
    dispatcherepoll.do_unregister_handler s fd k1 =
      dispatcherepoll.do_unregister_handler s fd k2 ∧
    dispatcherepoll.apply_op s ⟨OpType.UNREGISTER, fd, k1, none⟩ =
      dispatcherepoll.apply_op s ⟨OpType.UNREGISTER, fd, k2, none⟩ ∧
    (∀ s1, dispatcherepoll.do_unregister_handler s fd k1 = Except.ok s1 →
      ¬ dispatcherepoll.registered s1 fd) := by
  refine ⟨rfl, rfl, ?_⟩
  intro s1 hok
  obtain ⟨_, h | h⟩ := dispatcherepoll.do_unregister_handler_ok s s1 fd k1 hok
  · rw [h.2]
    exact fun hr => hr h.1
  · rw [h.2.2.2]
    intro hr
    exact hr (Map.find_erase_self fd _)
